import Mathlib

/-! GCP inventory exporter: shallow embedding and verified properties.

Go strings are modelled by `String`; the only separator the program ever
splits on is the one-byte string "/", a byte that never occurs inside a
multi-byte UTF-8 sequence, so splitting by character and by byte agree.
A Go run-time panic is modelled by `none` in `Option`; a returned Go `error`
by `Except.error` carrying the text of `err.Error()`.
-/

set_option autoImplicit false
set_option linter.dupNamespace false

/-! ## Go library functions used by the program -/

namespace strings

/-- Go `strings.Split(s, sep)` for a one-character separator `sep`: the pieces
of `s` between the occurrences of `sep`; never an empty slice. -/
def Split (s : String) (sep : Char) : List String :=
  (s.data.splitOn sep).map String.mk

/-- Go `strings.Join(elems, sep)`. -/
def Join (elems : List String) (sep : String) : String :=
  sep.intercalate elems

end strings

namespace golang

/-- Go slice indexing `a[i]` with an `int` index: `none` is the run-time panic
"index out of range". -/
def index {α : Type} (a : List α) (i : Int) : Option α :=
  if 0 ≤ i then a[i.toNat]? else none

/-- Go `len(a)` as an `int`. -/
def len {α : Type} (a : List α) : Int := (a.length : Int)

/-- Go `fmt.Sprintf("%d", n)` for an integer `n`. -/
def sprintfD (n : Int) : String := n.repr

/-- Go `fmt.Sprintf("%t", b)` for a boolean `b`. -/
def sprintfT (b : Bool) : String := if b then "true" else "false"

/-- Order in which the goroutines, launched in list order, reach the
mutex-protected append. The schedule `sched` is the source of nondeterminism:
its k-th entry picks (modulo the number still running) which of the goroutines
still running finishes next; when the schedule is used up the remaining ones
finish in launch order. -/
def completionOrder {α : Type} : List Nat → List α → List α
  | [], xs => xs
  | _ :: _, [] => []
  | k :: ks, x :: xs =>
    match (x :: xs)[k % (xs.length + 1)]? with
    | some y => y :: completionOrder ks ((x :: xs).eraseIdx (k % (xs.length + 1)))
    | none => x :: xs

/-- The fan-out/fan-in pattern every inventory function repeats:
`wg.Add(len(projects))`, one goroutine per project that computes its local
inventory and then, holding the mutex, runs
`inventory = append(inventory, localInventory...)`, and `wg.Wait()`.
A panic in any goroutine (`none`) takes the whole program down. -/
def fanIn {α : Type} (sched : List Nat) (projects : List α)
    (goroutine : α → Option (List (List String))) (inventory : List (List String)) :
    Option (List (List String)) :=
  (completionOrder sched projects).foldlM
    (fun inventory p => (goroutine p).map (fun localInventory => inventory ++ localInventory))
    inventory

end golang

/-! ## Provider records and listing calls -/

namespace api

/-- A paginated listing call of the provider SDK: the responses to the
successive page requests. `fail` is a request that returns an error, `last` a
page without `NextPageToken`, `more` a page with one. -/
inductive Paged (β : Type) where
  | fail (err : String) : Paged β
  | last (page : β) : Paged β
  | more (page : β) (rest : Paged β) : Paged β

/-- SDK `call.Do()`: one request, the first page only. -/
def Paged.Do {β : Type} : Paged β → Except String β
  | .fail err => .error err
  | .last page => .ok page
  | .more page _ => .ok page

/-- SDK `call.Pages(ctx, f)`: requests page after page, calling `f` on each,
until a request fails, `f` returns an error, or a page has no next-page token.
The callback works on the state `σ` it closes over; the result is the final
state and the returned error (`none` for nil). -/
def Paged.Pages {β σ : Type} (f : β → σ → Option (σ × Option String)) :
    Paged β → σ → Option (σ × Option String)
  | .fail err, s => some (s, some err)
  | .last page, s => f page s
  | .more page rest, s =>
    match f page s with
    | none => none
    | some (s1, some err) => some (s1, some err)
    | some (s1, none) => rest.Pages f s1

/-- Storage SDK bucket iterator: what the successive `Next()` calls return;
`done` is `iterator.Done`, `fail` any other error. -/
inductive Iterator (α : Type) where
  | done : Iterator α
  | fail (err : String) : Iterator α
  | item (a : α) (rest : Iterator α) : Iterator α

structure NetworkInterface where
  Name : String
  NetworkIP : String
  Network : String
  Subnetwork : String

structure AttachedDisk where
  DiskSizeGb : Int

structure Instance where
  Name : String
  Status : String
  MachineType : String
  NetworkInterfaces : List NetworkInterface
  Disks : List AttachedDisk
  CreationTimestamp : String

structure InstanceList where
  Items : List Instance

structure MachineType where
  Name : String
  GuestCpus : Int
  MemoryMb : Int

structure MachineTypeList where
  Items : List MachineType

structure Subnetwork where
  Network : String
  Name : String
  IpCidrRange : String
  GatewayAddress : String
  CreationTimestamp : String

structure SubnetworkList where
  Items : List Subnetwork

structure Address where
  Region : String
  Name : String
  Address : String
  Network : String
  Subnetwork : String
  AddressType : String
  Users : List String
  CreationTimestamp : String

structure AddressesScopedList where
  Addresses : List Address

/-- The Go field `Items` is a map from scope name to scoped list; it is only
ever ranged over, so it is represented by its values in the order the range
statement visits them. -/
structure AddressAggregatedList where
  Items : List AddressesScopedList

structure AddressList where
  Items : List Address

structure Route where
  Name : String
  Network : String
  DestRange : String
  Priority : Int
  NextHopIp : String
  NextHopNetwork : String
  NextHopGateway : String
  NextHopPeering : String
  NextHopIlb : String
  CreationTimestamp : String

structure RouteList where
  Items : List Route

structure NetworkPeering where
  Name : String
  Network : String
  StateDetails : String
  AutoCreateRoutes : Bool
  ExchangeSubnetRoutes : Bool
  ExportCustomRoutes : Bool
  ImportCustomRoutes : Bool
  ExportSubnetRoutesWithPublicIp : Bool
  ImportSubnetRoutesWithPublicIp : Bool

structure Network where
  Name : String
  Peerings : List NetworkPeering
  CreationTimestamp : String

structure NetworkList where
  Items : List Network

structure FirewallAllowed where
  IPProtocol : String
  Ports : List String

structure FirewallDenied where
  IPProtocol : String
  Ports : List String

structure Firewall where
  Name : String
  Network : String
  Priority : Int
  SourceRanges : List String
  Allowed : List FirewallAllowed
  Denied : List FirewallDenied
  CreationTimestamp : String

structure FirewallList where
  Items : List Firewall

/-- A Go `time.Time`, represented by the text its `String()` method returns. -/
structure Time where
  text : String

structure BucketAttrs where
  Name : String
  Location : String
  StorageClass : String
  Created : Time

/-- The compute service handle: the provider's answer to each listing call the
program issues, by project id and scope. -/
structure Service where
  InstancesList : String → String → Paged InstanceList
  MachineTypesList : String → String → Paged MachineTypeList
  SubnetworksList : String → String → Paged SubnetworkList
  AddressesAggregatedList : String → Paged AddressAggregatedList
  GlobalAddressesList : String → Paged AddressList
  RoutesList : String → Paged RouteList
  NetworksList : String → Paged NetworkList
  FirewallsList : String → Paged FirewallList

/-- The call context: what `compute.NewService(ctx)` returns. -/
structure Context where
  NewService : Except String Service

/-- The storage client: `client.Buckets(ctx, projectID)` per project id. -/
structure StorageClient where
  Buckets : String → Iterator BucketAttrs

end api

namespace project

/-- Source: `project.Project` (project/project.go). -/
structure Project where
  ID : String
  Name : String

end project

namespace config

/-- Modelled from the spec: the declaration of the type `config.Zones` is not
among the sources; it is "a static, externally-configured set (e.g., list of
zones to scan)" filled from `getStringListFromEnv`, that is a `[]string`. -/
abbrev Zones := List String

/-- Modelled from the spec: the declaration of the type `config.Regions` is not
among the sources; like `Zones` it is a `[]string`. -/
abbrev Regions := List String

end config

/-! ## Package compute -/

namespace compute

/-- Source: `computeHeader` (compute/compute.go). -/
def computeHeader : List String :=
  ["Project", "Zone", "Name", "Status", "Machine Type", "CPU", "Memory (MB)", "IP Address",
    "Disks (GB)", "Creation Time"]

/-- Source: `machineType` (compute/machine_type.go). -/
structure machineType where
  Name : String
  CPU : Int
  Memory : Int

/-- Source: `MachineTypes`, a Go `map[string]*machineType`: the entries written
so far, the latest first; a value `none` is a nil pointer. The nil map and the
empty map both have no entry. -/
structure MachineTypes where
  entries : List (String × Option machineType)

/-- Go `m[name]`: the stored pointer, nil (`none`) when the key is absent. -/
def MachineTypes.get (m : MachineTypes) (name : String) : Option machineType :=
  match m.entries.lookup name with
  | some v => v
  | none => none

/-- Go `m[name] = v`. -/
def MachineTypes.set (m : MachineTypes) (name : String) (v : Option machineType) : MachineTypes :=
  ⟨(name, v) :: m.entries⟩

/-- Source: `FetchMachineTypes` (compute/machine_type.go). One `Do()` request;
both failures return the map made at the start, still empty. -/
def FetchMachineTypes (ctx : api.Context) (projectsId : String) (zone : String) : MachineTypes :=
  match ctx.NewService with
  | .error _ => ⟨[]⟩
  | .ok service =>
    match (service.MachineTypesList projectsId zone).Do with
    | .error _ => ⟨[]⟩
    | .ok mt =>
      mt.Items.foldl
        (fun machineTypes item =>
          machineTypes.set item.Name (some ⟨item.Name, item.GuestCpus, item.MemoryMb⟩))
        ⟨[]⟩

/-- Source: `MachineTypes.GetCPU`. -/
def MachineTypes.GetCPU (m : MachineTypes) (name : String) : String :=
  match m.get name with
  | some t => golang.sprintfD t.CPU
  | none => ""

/-- Source: `MachineTypes.GetMemory`. -/
def MachineTypes.GetMemory (m : MachineTypes) (name : String) : String :=
  match m.get name with
  | some t => golang.sprintfD t.Memory
  | none => ""

/-- Source: `getNetworkInterfaces` (compute/compute.go). -/
def getNetworkInterfaces (inst : api.Instance) : String :=
  strings.Join
    (inst.NetworkInterfaces.foldl
      (fun networkInterfaces networkInterface => networkInterfaces ++ [networkInterface.NetworkIP])
      [])
    ", "

/-- Source: `getDisksSizes` (compute/compute.go). -/
def getDisksSizes (inst : api.Instance) : String :=
  strings.Join
    (inst.Disks.foldl
      (fun disksSizes disk => disksSizes ++ [golang.sprintfD disk.DiskSizeGb ++ "GB"])
      [])
    ", "

/-- Source: `compute.removeUrlPrefix` (compute/compute.go):
`strings.Split(url, "/")[len(strings.Split(url, "/"))-1]`. -/
def removeUrlPrefix (url : String) : Option String :=
  golang.index (strings.Split url '/') (golang.len (strings.Split url '/') - 1)

/-- Source: the body of the goroutine started per project by
`GetComputeInventory`, up to the merge: the local inventory it builds. A zone
whose `Instances.List(...).Do()` fails is logged and skipped (`continue`). -/
def GetComputeInventory.goroutine (ctx : api.Context) (service : api.Service)
    (zones : config.Zones) (projectId : project.Project) : Option (List (List String)) :=
  zones.foldlM
    (fun localInventory zone =>
      match (service.InstancesList projectId.ID zone).Do with
      | .error _ => some localInventory
      | .ok instances =>
        let machineTypes := FetchMachineTypes ctx projectId.ID zone
        instances.Items.foldlM
          (fun localInventory inst => do
            let mt ← removeUrlPrefix inst.MachineType
            pure (localInventory ++ [[
              projectId.Name,
              zone,
              inst.Name,
              inst.Status,
              mt,
              machineTypes.GetCPU mt,
              machineTypes.GetMemory mt,
              getNetworkInterfaces inst,
              getDisksSizes inst,
              inst.CreationTimestamp]]))
          localInventory)
    []

/-- Source: `GetComputeInventory` (compute/compute.go). The result is `none`
for a panic, `some (.error e)` for `return nil, err` and `some (.ok t)` for
`return inventory, nil`. -/
def GetComputeInventory (ctx : api.Context) (sched : List Nat)
    (projectsId : List project.Project) (zones : config.Zones) :
    Option (Except String (List (List String))) :=
  match ctx.NewService with
  | .error err => some (.error err)
  | .ok service =>
    (golang.fanIn sched projectsId (GetComputeInventory.goroutine ctx service zones)
      [computeHeader]).map Except.ok

end compute

/-! ## Package network -/

namespace network

/-- Source: `networkHeader` (network/vpc.go). -/
def networkHeader : List String :=
  ["Project", "Region", "Name", "Subnetwork", "CIDR", "Gateway Address", "Creation Timestamp"]

/-- Source: `ipAddressHeader` (network/ip_address.go). -/
def ipAddressHeader : List String :=
  ["Project", "Region/Zone", "Name", "Address", "Network", "Subnetwork", "Address Type",
    "Used By", "Creation Timestamp"]

/-- Source: `routesHeader` (network/routes.go). -/
def routesHeader : List String :=
  ["Project", "Name", "Network", "Dest Range", "Priority", "Next Hop IP", "Next Hop Network",
    "Next Hop Gateway", "Next Hop Peering", "Next Hop Ilb", "Creation Timestamp"]

/-- Source: `peeringHeader` (network/peering.go). -/
def peeringHeader : List String :=
  ["Project", "Name", "Network", "Peer Network", "State", "Auto Create Routes",
    "Exchange Subnet Routes", "Export Custom Routes", "Import Custom Routes",
    "Export Subnet Routes With Public IP", "Import Subnet Routes With Public IP",
    "Creation Timestamp"]

/-- Source: `firewallHeader` (network/firewalls.go). -/
def firewallHeader : List String :=
  ["Project", "Name", "Network", "Priority", "Source Ranges", "Allowed", "Denied",
    "Creation Timestamp"]

/-- Source: `network.removeUrlPrefix` (network/vpc.go):
`strings.Split(url, "/")[len(strings.Split(url, "/"))-1]`. -/
def removeUrlPrefix (url : String) : Option String :=
  golang.index (strings.Split url '/') (golang.len (strings.Split url '/') - 1)

/-- Source: `removeUrlPrefixes` (network/vpc.go). -/
def removeUrlPrefixes (urls : List String) : Option (List String) :=
  urls.foldlM
    (fun newUrls url => do
      let u ← removeUrlPrefix url
      pure (newUrls ++ [u]))
    []

/-- Source: the page callback of `GetVPCInventory`, which always returns nil. -/
def GetVPCInventory.page (projectId : project.Project) (region : String)
    (page : api.SubnetworkList) (localInventory : List (List String)) :
    Option (List (List String) × Option String) := do
  let localInventory ← page.Items.foldlM
    (fun localInventory subnetwork => do
      let network ← removeUrlPrefix subnetwork.Network
      pure (localInventory ++ [[
        projectId.Name,
        region,
        network,
        subnetwork.Name,
        subnetwork.IpCidrRange,
        subnetwork.GatewayAddress,
        subnetwork.CreationTimestamp]]))
    localInventory
  pure (localInventory, none)

/-- Source: the goroutine body of `GetVPCInventory`, up to the merge. An error
of `req.Pages` is logged and the loop continues with the next region. -/
def GetVPCInventory.goroutine (service : api.Service) (regions : config.Regions)
    (projectId : project.Project) : Option (List (List String)) :=
  regions.foldlM
    (fun localInventory region =>
      ((service.SubnetworksList projectId.ID region).Pages
        (GetVPCInventory.page projectId region) localInventory).map Prod.fst)
    []

/-- Source: `GetVPCInventory` (network/vpc.go). -/
def GetVPCInventory (ctx : api.Context) (sched : List Nat)
    (projectsId : List project.Project) (regions : config.Regions) :
    Option (Except String (List (List String))) :=
  match ctx.NewService with
  | .error err => some (.error err)
  | .ok service =>
    (golang.fanIn sched projectsId (GetVPCInventory.goroutine service regions)
      [networkHeader]).map Except.ok

/-- Source: the zone loop of the goroutine of `GetIPAddressInventory`: one row
per network interface of every instance of the first page of every zone whose
`Do()` succeeds. -/
def GetIPAddressInventory.zoneLoop (service : api.Service) (zones : config.Zones)
    (projectId : project.Project) (localInventory : List (List String)) :
    Option (List (List String)) :=
  zones.foldlM
    (fun localInventory zone =>
      match (service.InstancesList projectId.ID zone).Do with
      | .error _ => some localInventory
      | .ok instances =>
        instances.Items.foldlM
          (fun localInventory inst =>
            inst.NetworkInterfaces.foldlM
              (fun localInventory networkInterface => do
                let z ← removeUrlPrefix zone
                let network ← removeUrlPrefix networkInterface.Network
                let subnetwork ← removeUrlPrefix networkInterface.Subnetwork
                pure (localInventory ++ [[
                  projectId.Name,
                  z,
                  networkInterface.Name,
                  networkInterface.NetworkIP,
                  network,
                  subnetwork,
                  "INTERNAL",
                  inst.Name,
                  inst.CreationTimestamp]]))
              localInventory)
          localInventory)
    localInventory

/-- Source: the row literal of the aggregated-list callback of
`GetIPAddressInventory`. -/
def GetIPAddressInventory.aggregatedRow (projectId : project.Project) (address : api.Address) :
    Option (List String) := do
  let region ← removeUrlPrefix address.Region
  let network ← removeUrlPrefix address.Network
  let subnetwork ← removeUrlPrefix address.Subnetwork
  let users ← removeUrlPrefixes address.Users
  pure [
    projectId.Name,
    region,
    address.Name,
    address.Address,
    network,
    subnetwork,
    address.AddressType,
    strings.Join users ",",
    address.CreationTimestamp]

/-- Source: the aggregated-list page callback of `GetIPAddressInventory`. -/
def GetIPAddressInventory.aggregatedPage (projectId : project.Project)
    (page : api.AddressAggregatedList) (localInventory : List (List String)) :
    Option (List (List String) × Option String) := do
  let localInventory ← page.Items.foldlM
    (fun localInventory item =>
      item.Addresses.foldlM
        (fun localInventory address => do
          let row ← GetIPAddressInventory.aggregatedRow projectId address
          pure (localInventory ++ [row]))
        localInventory)
    localInventory
  pure (localInventory, none)

/-- Source: the row literal of the global-list callback of
`GetIPAddressInventory`. -/
def GetIPAddressInventory.globalRow (projectId : project.Project) (address : api.Address) :
    Option (List String) := do
  let network ← removeUrlPrefix address.Network
  let subnetwork ← removeUrlPrefix address.Subnetwork
  let users ← removeUrlPrefixes address.Users
  pure [
    projectId.Name,
    "global",
    address.Name,
    address.Address,
    network,
    subnetwork,
    address.AddressType,
    strings.Join users ",",
    address.CreationTimestamp]

/-- Source: the global-list page callback of `GetIPAddressInventory`. -/
def GetIPAddressInventory.globalPage (projectId : project.Project)
    (page : api.AddressList) (localInventory : List (List String)) :
    Option (List (List String) × Option String) := do
  let localInventory ← page.Items.foldlM
    (fun localInventory address => do
      let row ← GetIPAddressInventory.globalRow projectId address
      pure (localInventory ++ [row]))
    localInventory
  pure (localInventory, none)

/-- Source: the goroutine body of `GetIPAddressInventory`, up to the merge: the
zone loop, then the aggregated listing, then the global listing; an error of
either `Pages` call is logged and execution goes on. -/
def GetIPAddressInventory.goroutine (service : api.Service) (zones : config.Zones)
    (projectId : project.Project) : Option (List (List String)) := do
  let localInventory ← GetIPAddressInventory.zoneLoop service zones projectId []
  let (localInventory, _) ← (service.AddressesAggregatedList projectId.ID).Pages
    (GetIPAddressInventory.aggregatedPage projectId) localInventory
  let (localInventory, _) ← (service.GlobalAddressesList projectId.ID).Pages
    (GetIPAddressInventory.globalPage projectId) localInventory
  pure localInventory

/-- Source: `GetIPAddressInventory` (network/ip_address.go). -/
def GetIPAddressInventory (ctx : api.Context) (sched : List Nat)
    (projectsId : List project.Project) (zones : config.Zones) :
    Option (Except String (List (List String))) :=
  match ctx.NewService with
  | .error err => some (.error err)
  | .ok service =>
    (golang.fanIn sched projectsId (GetIPAddressInventory.goroutine service zones)
      [ipAddressHeader]).map Except.ok

/-- Source: the page callback of `GetRoutesInventory`. -/
def GetRoutesInventory.page (projectId : project.Project)
    (page : api.RouteList) (localInventory : List (List String)) :
    Option (List (List String) × Option String) := do
  let localInventory ← page.Items.foldlM
    (fun localInventory route => do
      let network ← removeUrlPrefix route.Network
      let nextHopIp ← removeUrlPrefix route.NextHopIp
      let nextHopNetwork ← removeUrlPrefix route.NextHopNetwork
      let nextHopGateway ← removeUrlPrefix route.NextHopGateway
      let nextHopPeering ← removeUrlPrefix route.NextHopPeering
      let nextHopIlb ← removeUrlPrefix route.NextHopIlb
      pure (localInventory ++ [[
        projectId.Name,
        route.Name,
        network,
        route.DestRange,
        golang.sprintfD route.Priority,
        nextHopIp,
        nextHopNetwork,
        nextHopGateway,
        nextHopPeering,
        nextHopIlb,
        route.CreationTimestamp]]))
    localInventory
  pure (localInventory, none)

/-- Source: the goroutine body of `GetRoutesInventory`, up to the merge. -/
def GetRoutesInventory.goroutine (service : api.Service) (projectId : project.Project) :
    Option (List (List String)) :=
  ((service.RoutesList projectId.ID).Pages (GetRoutesInventory.page projectId) []).map Prod.fst

/-- Source: `GetRoutesInventory` (network/routes.go). -/
def GetRoutesInventory (ctx : api.Context) (sched : List Nat)
    (projectsId : List project.Project) : Option (Except String (List (List String))) :=
  match ctx.NewService with
  | .error err => some (.error err)
  | .ok service =>
    (golang.fanIn sched projectsId (GetRoutesInventory.goroutine service)
      [routesHeader]).map Except.ok

/-- Source: the page callback of `GetPreeingInventory`. -/
def GetPreeingInventory.page (projectId : project.Project)
    (page : api.NetworkList) (localInventory : List (List String)) :
    Option (List (List String) × Option String) := do
  let localInventory ← page.Items.foldlM
    (fun localInventory network =>
      network.Peerings.foldlM
        (fun localInventory peering => do
          let name ← removeUrlPrefix network.Name
          let peer ← removeUrlPrefix peering.Network
          pure (localInventory ++ [[
            projectId.Name,
            peering.Name,
            name,
            peer,
            peering.StateDetails,
            golang.sprintfT peering.AutoCreateRoutes,
            golang.sprintfT peering.ExchangeSubnetRoutes,
            golang.sprintfT peering.ExportCustomRoutes,
            golang.sprintfT peering.ImportCustomRoutes,
            golang.sprintfT peering.ExportSubnetRoutesWithPublicIp,
            golang.sprintfT peering.ImportSubnetRoutesWithPublicIp,
            network.CreationTimestamp]]))
        localInventory)
    localInventory
  pure (localInventory, none)

/-- Source: the goroutine body of `GetPreeingInventory`, up to the merge. -/
def GetPreeingInventory.goroutine (service : api.Service) (projectId : project.Project) :
    Option (List (List String)) :=
  ((service.NetworksList projectId.ID).Pages (GetPreeingInventory.page projectId) []).map Prod.fst

/-- Source: `GetPreeingInventory` (network/peering.go). -/
def GetPreeingInventory (ctx : api.Context) (sched : List Nat)
    (projectsId : List project.Project) : Option (Except String (List (List String))) :=
  match ctx.NewService with
  | .error err => some (.error err)
  | .ok service =>
    (golang.fanIn sched projectsId (GetPreeingInventory.goroutine service)
      [peeringHeader]).map Except.ok

/-- Source: `denyToString` (network/firewalls.go). -/
def denyToString (denied : List api.FirewallDenied) : String :=
  strings.Join
    (denied.foldl
      (fun deniedString deny =>
        deniedString ++ [deny.IPProtocol ++ ":" ++ strings.Join deny.Ports ","])
      [])
    ","

/-- Source: `allowToString` (network/firewalls.go). -/
def allowToString (allowed : List api.FirewallAllowed) : String :=
  strings.Join
    (allowed.foldl
      (fun allowedString allow =>
        allowedString ++ [allow.IPProtocol ++ ":" ++ strings.Join allow.Ports ","])
      [])
    ","

/-- Source: the page callback of `GetFirewallInventory`. -/
def GetFirewallInventory.page (projectId : project.Project)
    (page : api.FirewallList) (localInventory : List (List String)) :
    Option (List (List String) × Option String) := do
  let localInventory ← page.Items.foldlM
    (fun localInventory route => do
      let network ← removeUrlPrefix route.Network
      pure (localInventory ++ [[
        projectId.Name,
        route.Name,
        network,
        golang.sprintfD route.Priority,
        strings.Join route.SourceRanges ",",
        allowToString route.Allowed,
        denyToString route.Denied,
        route.CreationTimestamp]]))
    localInventory
  pure (localInventory, none)

/-- Source: the goroutine body of `GetFirewallInventory`, up to the merge. -/
def GetFirewallInventory.goroutine (service : api.Service) (projectId : project.Project) :
    Option (List (List String)) :=
  ((service.FirewallsList projectId.ID).Pages (GetFirewallInventory.page projectId) []).map
    Prod.fst

/-- Source: `GetFirewallInventory` (network/firewalls.go). -/
def GetFirewallInventory (ctx : api.Context) (sched : List Nat)
    (projectsId : List project.Project) : Option (Except String (List (List String))) :=
  match ctx.NewService with
  | .error err => some (.error err)
  | .ok service =>
    (golang.fanIn sched projectsId (GetFirewallInventory.goroutine service)
      [firewallHeader]).map Except.ok

end network

/-! ## Package storage -/

namespace storage

/-- Source: `bucketHeader` (storage/storage.go). -/
def bucketHeader : List String :=
  ["Project", "Name", "Location", "Storage Class", "Creation Timestamp"]

/-- Source: `storage.Storage` (storage/storage.go). -/
structure Storage where
  client : api.StorageClient
  projectID : String

/-- Source: the `for` loop over `bucketsIterator.Next()` in the goroutine of
`GetStorageInventory`: `iterator.Done` and any other error both leave the loop
(`break`), the latter after being logged. -/
def GetStorageInventory.loop (projectId : project.Project) :
    api.Iterator api.BucketAttrs → List (List String) → List (List String)
  | .done, localInventory => localInventory
  | .fail _, localInventory => localInventory
  | .item bucketAttrs rest, localInventory =>
    GetStorageInventory.loop projectId rest (localInventory ++ [[
      projectId.Name,
      bucketAttrs.Name,
      bucketAttrs.Location,
      bucketAttrs.StorageClass,
      bucketAttrs.Created.text]])

/-- Source: the goroutine body of `GetStorageInventory`, up to the merge. -/
def GetStorageInventory.goroutine (s : Storage) (projectId : project.Project) :
    Option (List (List String)) :=
  some (GetStorageInventory.loop projectId (s.client.Buckets projectId.ID) [])

/-- Source: `Storage.GetStorageInventory` (storage/storage.go); it creates no
service and has no error return path. -/
def GetStorageInventory (s : Storage) (sched : List Nat) (projectsId : List project.Project) :
    Option (Except String (List (List String))) :=
  (golang.fanIn sched projectsId (GetStorageInventory.goroutine s) [bucketHeader]).map Except.ok

end storage

/-! ## Specification-level descriptions

The definitions of this section are not translations of source functions. Those
marked "Specification" say what the claims say of the program; those marked
"Closed form" describe a loop of the source without the loop and are proved
equal to the loop they describe. The theorems below compare the program with
both. -/

namespace spec

/-- Specification: the part of a list after the last occurrence of `c`, the
whole list when `c` does not occur. -/
def afterLast (c : Char) : List Char → List Char
  | [] => []
  | x :: xs => if c ∈ xs then afterLast c xs else if x = c then xs else x :: xs

/-- Specification: the trailing path segment of a reference: the text after
its last "/", the reference itself when it has no "/". -/
def trailingSegment (url : String) : String := ⟨afterLast '/' url.data⟩

/-- Specification: the pages a paginated listing delivers before it ends or a
request fails. -/
def delivered {β : Type} : api.Paged β → List β
  | .fail _ => []
  | .last page => [page]
  | .more page rest => page :: delivered rest

/-- Specification: the error that ends a paginated listing, `none` when it
ends with a last page. -/
def failure {β : Type} : api.Paged β → Option String
  | .fail err => some err
  | .last _ => none
  | .more _ rest => failure rest

/-- Specification: all pages of a listing but the first delivered one. -/
def laterPages {β : Type} (listing : api.Paged β) : List β := (delivered listing).tail

/-- Specification: the entries an iterator delivers before `iterator.Done` or
an error. -/
def entries {α : Type} : api.Iterator α → List α
  | .done => []
  | .fail _ => []
  | .item a rest => a :: entries rest

/-- Specification: the error that stops an iterator, `none` for
`iterator.Done`. -/
def iteratorFailure {α : Type} : api.Iterator α → Option String
  | .done => none
  | .fail err => some err
  | .item _ rest => iteratorFailure rest

/-- Specification: the row of one compute instance. -/
def instanceRow (machineTypes : compute.MachineTypes) (projectId : project.Project)
    (zone : String) (inst : api.Instance) : List String :=
  [projectId.Name, zone, inst.Name, inst.Status, trailingSegment inst.MachineType,
    machineTypes.GetCPU (trailingSegment inst.MachineType),
    machineTypes.GetMemory (trailingSegment inst.MachineType),
    compute.getNetworkInterfaces inst, compute.getDisksSizes inst, inst.CreationTimestamp]

/-- Closed form of one turn of the zone loop of `GetComputeInventory`: the
compute rows of one (project, zone): none when `Instances.List(...).Do()`
fails, else one row per instance of the one page that call returns, in
provider-return order. -/
def computeZoneRows (ctx : api.Context) (service : api.Service) (projectId : project.Project)
    (zone : String) : List (List String) :=
  match (service.InstancesList projectId.ID zone).Do with
  | .error _ => []
  | .ok instances =>
    instances.Items.map
      (instanceRow (compute.FetchMachineTypes ctx projectId.ID zone) projectId zone)

/-- Closed form of the goroutine of `GetComputeInventory`: the local buffer of
one project, the rows of `computeZoneRows` for the zones in configuration
order. -/
def computeBuffer (ctx : api.Context) (service : api.Service) (zones : config.Zones)
    (projectId : project.Project) : List (List String) :=
  zones.flatMap (computeZoneRows ctx service projectId)

/-- Specification: the row of one subnetwork. -/
def subnetworkRow (projectId : project.Project) (region : String) (subnetwork : api.Subnetwork) :
    List String :=
  [projectId.Name, region, trailingSegment subnetwork.Network, subnetwork.Name,
    subnetwork.IpCidrRange, subnetwork.GatewayAddress, subnetwork.CreationTimestamp]

/-- Specification: the subnetwork rows of the given pages of one
(project, region). -/
def subnetworkRows (projectId : project.Project) (region : String)
    (pages : List api.SubnetworkList) : List (List String) :=
  pages.flatMap (fun page => page.Items.map (subnetworkRow projectId region))

/-- Specification: the row of one network interface of an instance. -/
def interfaceRow (projectId : project.Project) (zone : String) (inst : api.Instance)
    (networkInterface : api.NetworkInterface) : List String :=
  [projectId.Name, trailingSegment zone, networkInterface.Name, networkInterface.NetworkIP,
    trailingSegment networkInterface.Network, trailingSegment networkInterface.Subnetwork,
    "INTERNAL", inst.Name, inst.CreationTimestamp]

end spec

namespace network

/-- Closed form of one turn of the zone loop of `GetIPAddressInventory`: the
rows the loop appends for one (project, zone): none when
`Instances.List(...).Do()` fails, else one row per network interface of every
instance of the one page that call returns. -/
def GetIPAddressInventory.zoneRows (service : api.Service) (projectId : project.Project)
    (zone : String) : List (List String) :=
  match (service.InstancesList projectId.ID zone).Do with
  | .error _ => []
  | .ok instances =>
    instances.Items.flatMap
      (fun inst => inst.NetworkInterfaces.map (spec.interfaceRow projectId zone inst))

end network

namespace spec

/-- Specification: the "Used By" field of an address: every user reduced to
its trailing segment, joined with ",". -/
def usedBy (address : api.Address) : String :=
  strings.Join (address.Users.map trailingSegment) ","

/-- Specification: the row of one address of the aggregated listing. -/
def aggregatedAddressRow (projectId : project.Project) (address : api.Address) : List String :=
  [projectId.Name, trailingSegment address.Region, address.Name, address.Address,
    trailingSegment address.Network, trailingSegment address.Subnetwork, address.AddressType,
    usedBy address, address.CreationTimestamp]

/-- Specification: the rows of the given pages of the aggregated address
listing of one project. -/
def aggregatedAddressRows (projectId : project.Project)
    (pages : List api.AddressAggregatedList) : List (List String) :=
  pages.flatMap (fun page =>
    page.Items.flatMap (fun item => item.Addresses.map (aggregatedAddressRow projectId)))

/-- Specification: the row of one address of the global listing. -/
def globalAddressRow (projectId : project.Project) (address : api.Address) : List String :=
  [projectId.Name, "global", address.Name, address.Address,
    trailingSegment address.Network, trailingSegment address.Subnetwork, address.AddressType,
    usedBy address, address.CreationTimestamp]

/-- Specification: the rows of the given pages of the global address listing
of one project. -/
def globalAddressRows (projectId : project.Project) (pages : List api.AddressList) :
    List (List String) :=
  pages.flatMap (fun page => page.Items.map (globalAddressRow projectId))

/-- Specification: the row of one route. -/
def routeRow (projectId : project.Project) (route : api.Route) : List String :=
  [projectId.Name, route.Name, trailingSegment route.Network, route.DestRange,
    golang.sprintfD route.Priority, trailingSegment route.NextHopIp,
    trailingSegment route.NextHopNetwork, trailingSegment route.NextHopGateway,
    trailingSegment route.NextHopPeering, trailingSegment route.NextHopIlb,
    route.CreationTimestamp]

/-- Specification: the route rows of the given pages of one project. -/
def routeRows (projectId : project.Project) (pages : List api.RouteList) : List (List String) :=
  pages.flatMap (fun page => page.Items.map (routeRow projectId))

/-- Specification: the row of one peering of a network. -/
def peeringRow (projectId : project.Project) (network : api.Network)
    (peering : api.NetworkPeering) : List String :=
  [projectId.Name, peering.Name, trailingSegment network.Name, trailingSegment peering.Network,
    peering.StateDetails, golang.sprintfT peering.AutoCreateRoutes,
    golang.sprintfT peering.ExchangeSubnetRoutes, golang.sprintfT peering.ExportCustomRoutes,
    golang.sprintfT peering.ImportCustomRoutes,
    golang.sprintfT peering.ExportSubnetRoutesWithPublicIp,
    golang.sprintfT peering.ImportSubnetRoutesWithPublicIp, network.CreationTimestamp]

/-- Specification: the peering rows of the given pages of one project. -/
def peeringRows (projectId : project.Project) (pages : List api.NetworkList) :
    List (List String) :=
  pages.flatMap (fun page =>
    page.Items.flatMap (fun network => network.Peerings.map (peeringRow projectId network)))

/-- Specification: the row of one firewall rule. -/
def firewallRow (projectId : project.Project) (route : api.Firewall) : List String :=
  [projectId.Name, route.Name, trailingSegment route.Network, golang.sprintfD route.Priority,
    strings.Join route.SourceRanges ",", network.allowToString route.Allowed,
    network.denyToString route.Denied, route.CreationTimestamp]

/-- Specification: the firewall rows of the given pages of one project. -/
def firewallRows (projectId : project.Project) (pages : List api.FirewallList) :
    List (List String) :=
  pages.flatMap (fun page => page.Items.map (firewallRow projectId))

/-- Specification: the row of one bucket. -/
def bucketRow (projectId : project.Project) (bucketAttrs : api.BucketAttrs) : List String :=
  [projectId.Name, bucketAttrs.Name, bucketAttrs.Location, bucketAttrs.StorageClass,
    bucketAttrs.Created.text]

end spec

namespace compute

/-- Closed form: the number of instances the `Instances.List(...).Do()` calls
of one project return over the zones, which is the number of instances on the
first page of each listing; a failed call counts as returning none. -/
def GetComputeInventory.instancesReturned (service : api.Service) (zones : config.Zones)
    (projectId : project.Project) : Nat :=
  (zones.map (fun zone =>
    match (service.InstancesList projectId.ID zone).Do with
    | .error _ => 0
    | .ok instances => instances.Items.length)).sum

end compute

namespace spec

/-- Specification: a table whose row 0 is `header` and whose later rows all
have as many fields as `header`. -/
def WellFormed (header : List String) (table : List (List String)) : Prop :=
  table[0]? = some header ∧ ∀ i row, 0 < i → table[i]? = some row → row.length = header.length

end spec

/-! ## A concrete provider, used to instantiate the theorems -/

namespace sample

/-- Sample instance on the first page of every instance listing; its machine
type is on the second page of the machine-type listing. -/
def vm1 : api.Instance :=
  ⟨"vm-1", "RUNNING", "projects/pa/zones/zone-a/machineTypes/e2-medium",
    [⟨"nic0", "10.0.0.2", "projects/pa/global/networks/default",
      "projects/pa/regions/r1/subnetworks/sub-1"⟩],
    [⟨10⟩, ⟨200⟩], "2023-01-01"⟩

/-- Sample instance on the second page of every instance listing. -/
def vm2 : api.Instance :=
  ⟨"vm-2", "TERMINATED", "projects/pa/zones/zone-a/machineTypes/n1-standard-1",
    [⟨"nic0", "10.0.0.3", "projects/pa/global/networks/default",
      "projects/pa/regions/r1/subnetworks/sub-1"⟩],
    [], "2023-02-02"⟩

/-- Sample subnetwork. -/
def subnet1 : api.Subnetwork :=
  ⟨"projects/pa/global/networks/default", "sub-1", "10.0.0.0/24", "10.0.0.1", "2023-01-01"⟩

/-- Sample reserved address with two users. -/
def address1 : api.Address :=
  ⟨"projects/pa/regions/r1", "addr-1", "34.1.2.3", "", "", "EXTERNAL",
    ["projects/pa/zones/zone-a/instances/vm-1", "projects/pa/regions/r1/forwardingRules/fr-1"],
    "2023-03-03"⟩

/-- Sample global address without users. -/
def address2 : api.Address :=
  ⟨"", "addr-2", "35.4.5.6", "projects/pa/global/networks/default", "", "INTERNAL", [],
    "2023-04-04"⟩

/-- Sample route. -/
def route1 : api.Route :=
  ⟨"route-1", "projects/pa/global/networks/default", "0.0.0.0/0", 1000, "", "",
    "projects/pa/global/gateways/default-internet-gateway", "", "", "2023-01-01"⟩

/-- Sample network with one peering. -/
def network1 : api.Network :=
  ⟨"default", [⟨"peer-1", "projects/pc/global/networks/other", "connected", true, true, false,
    false, true, false⟩], "2023-01-01"⟩

/-- Sample firewall rule. -/
def firewall1 : api.Firewall :=
  ⟨"allow-ssh", "projects/pa/global/networks/default", 1000, ["0.0.0.0/0"],
    [⟨"tcp", ["22", "80"]⟩], [], "2023-01-01"⟩

/-- Sample bucket. -/
def bucket1 : api.BucketAttrs :=
  ⟨"bucket-1", "US", "STANDARD", ⟨"2023-01-01 00:00:00 +0000 UTC"⟩⟩

/-- Sample provider. Every instance listing of project "pb" fails; any other
instance listing has two pages; the machine-type listing has two pages; the
listings of subnetworks, aggregated addresses, routes, networks and firewalls
deliver one page and then fail. -/
def service : api.Service where
  InstancesList := fun projectId _ =>
    if projectId = "pb" then .fail "permission denied" else .more ⟨[vm1]⟩ (.last ⟨[vm2]⟩)
  MachineTypesList := fun _ _ =>
    .more ⟨[⟨"n1-standard-1", 1, 3840⟩]⟩ (.last ⟨[⟨"e2-medium", 2, 4096⟩]⟩)
  SubnetworksList := fun _ _ => .more ⟨[subnet1]⟩ (.fail "backend error")
  AddressesAggregatedList := fun _ => .more ⟨[⟨[address1]⟩]⟩ (.fail "backend error")
  GlobalAddressesList := fun _ => .last ⟨[address2]⟩
  RoutesList := fun _ => .more ⟨[route1]⟩ (.fail "backend error")
  NetworksList := fun _ => .more ⟨[network1]⟩ (.fail "backend error")
  FirewallsList := fun _ => .more ⟨[firewall1]⟩ (.fail "backend error")

/-- Sample call context: the service is created. -/
def ctx : api.Context := ⟨.ok service⟩

/-- Sample storage client: one bucket is delivered, then the iterator fails. -/
def store : storage.Storage := ⟨⟨fun _ => .item bucket1 (.fail "backend error")⟩, "export"⟩

/-- Sample projects. -/
def pa : project.Project := ⟨"pa", "Project A"⟩

/-- Sample project whose instance listings fail. -/
def pb : project.Project := ⟨"pb", "Project B"⟩

/-- Sample project. -/
def pc : project.Project := ⟨"pc", "Project C"⟩

end sample

/-! ## Further Go library functions -/

namespace strconv

/-- Value of a run of decimal digits, most significant first. -/
def digitsValue (ds : List Char) : Nat :=
  ds.foldl (fun n c => n * 10 + (c.toNat - 48)) 0

/-- Go `strconv.Atoi` without the sign: at least one character, all of them
decimal digits, and the signed value within the range of a 64-bit `int`. -/
def parseDigits (neg : Bool) (ds : List Char) : Except String Int :=
  if ds = [] then .error "invalid syntax"
  else if ds.all Char.isDigit then
    let v : Int := if neg then -(digitsValue ds : Int) else (digitsValue ds : Int)
    if -9223372036854775808 ≤ v ∧ v ≤ 9223372036854775807 then .ok v
    else .error "value out of range"
  else .error "invalid syntax"

/-- Go `strconv.Atoi(s)`: an optional sign "+" or "-", then decimal digits
only (base 10 admits no underscores or other separators); the error carries
the kind of failure, the only thing the program looks at being `err != nil`. -/
def Atoi (s : String) : Except String Int :=
  match s.data with
  | [] => .error "invalid syntax"
  | c :: rest =>
    if c = '-' then parseDigits true rest
    else if c = '+' then parseDigits false rest
    else parseDigits false (c :: rest)

end strconv

namespace sample

/-- Sample provider in which every instance listing is the single page
`instances` and every machine-type listing the single page `machineTypes`;
the other listings are those of `sample.service`. -/
def serviceWith (instances : List api.Instance) (machineTypes : List api.MachineType) :
    api.Service :=
  { sample.service with
    InstancesList := fun _ _ => .last ⟨instances⟩
    MachineTypesList := fun _ _ => .last ⟨machineTypes⟩ }

end sample

namespace compute

/-- Closed form: the instances the `Instances.List(...).Do()` calls of one
project return (those of the first page of each listing), each with its zone,
in zone order and provider-return order. -/
def GetComputeInventory.returnedInstances (service : api.Service) (zones : config.Zones)
    (projectId : project.Project) : List (String × api.Instance) :=
  zones.flatMap (fun zone =>
    match (service.InstancesList projectId.ID zone).Do with
    | .error _ => []
    | .ok instances => instances.Items.map (fun inst => (zone, inst)))

end compute

namespace sample

/-- Sample provider of the two-project scenario: project "p1" has the one
instance `vm2` (machine type n1-standard-1) in every zone, any other project
has none; the machine-type catalogue is n1-standard-1 with 1 CPU and 3840 MB. -/
def scenarioService : api.Service :=
  { sample.service with
    InstancesList := fun projectId _ =>
      if projectId = "p1" then .last ⟨[vm2]⟩ else .last ⟨[]⟩
    MachineTypesList := fun _ _ => .last ⟨[⟨"n1-standard-1", 1, 3840⟩]⟩ }

/-- Sample project P1 of the scenario. -/
def p1 : project.Project := ⟨"p1", "P1"⟩

/-- Sample project P2 of the scenario. -/
def p2 : project.Project := ⟨"p2", "P2"⟩

end sample

/-! ## Package logger -/

namespace logger

/-- Source: constant `noTraceOutput` (pkg/logger/logger.go). -/
def noTraceOutput : Int := -1

/-- Source: constant `levelNone`. -/
def levelNone : Int := 0

/-- Source: constant `levelFatal`. -/
def levelFatal : Int := 1

/-- Source: constant `levelErr`. -/
def levelErr : Int := 2

/-- Source: constant `levelWarn`. -/
def levelWarn : Int := 3

/-- Source: constant `levelInfo`. -/
def levelInfo : Int := 4

/-- Source: constant `levelDebug`. -/
def levelDebug : Int := 5

/-- Source: constant `levelTrace`. -/
def levelTrace : Int := 6

/-- Source: the map `levelNumbers` (pkg/logger/logger.go), as a lookup: `none`
is the absent key (`ok == false`). Its keys are the lower-case names only. -/
def levelNumbers (name : String) : Option Int :=
  [("debug", levelDebug), ("info", levelInfo), ("warn", levelWarn), ("error", levelErr),
    ("fatal", levelFatal), ("none", levelNone)].lookup name

/-- Source: `filter` (pkg/logger/filter.go). -/
structure filter where
  Pattern : String
  Level : Int

/-- Source: `filterSpec` (pkg/logger/filter.go). -/
structure filterSpec where
  filters : List filter

/-- Source: the token split at the head of the loop body of `fromString`: one
token is a global level, two are pattern and level, anything else is the
"Malformed" error. The result is `(matchToken, levelToken)`. -/
def fromString.tokens (f : String) : Except String (String × String) :=
  match strings.Split f '=' with
  | [t0] => .ok ("", t0)
  | [t0, t1] => .ok (t0, t1)
  | _ => .error ("Malformed log filter expression: '" ++ f ++ "'")

/-- Source: the level lookup in the loop body of `fromString`. `.error e` is
`return fmt.Errorf(...)`, `.ok none` is `continue` (an empty level token is
skipped), `.ok (some l)` goes on with `filterLevel = l`. -/
def fromString.filterLevel (isTraceLevels : Bool) (levelToken : String) :
    Except String (Option Int) :=
  if isTraceLevels then
    match strconv.Atoi levelToken with
    | .error _ =>
      if levelToken ≠ "" then .error ("Trace level '" ++ levelToken ++ "' is not a number.")
      else .ok none
    | .ok filterLevel => .ok (some filterLevel)
  else
    match levelNumbers levelToken with
    | none =>
      if levelToken ≠ "" then .error ("Illegal log level '" ++ levelToken ++ "'.")
      else .ok none
    | some filterLevel =>
      if filterLevel = levelTrace then
        if levelToken ≠ "" then .error ("Illegal log level '" ++ levelToken ++ "'.")
        else .ok none
      else .ok (some filterLevel)

/-- Source: the `for _, f := range fields` loop of `fromString`, on the state
`(globalLevel, spec.filters)`; the result is the filters as they stand when
the loop is left and either the error returned from inside the loop or the
final `globalLevel`. -/
def fromString.loop (isTraceLevels : Bool) :
    List String → Int → List filter → List filter × Except String Int
  | [], globalLevel, filters => (filters, .ok globalLevel)
  | f :: fields, globalLevel, filters =>
    match fromString.tokens f with
    | .error e => (filters, .error e)
    | .ok (matchToken, levelToken) =>
      match fromString.filterLevel isTraceLevels levelToken with
      | .error e => (filters, .error e)
      | .ok none => fromString.loop isTraceLevels fields globalLevel filters
      | .ok (some filterLevel) =>
        if matchToken = "" then fromString.loop isTraceLevels fields filterLevel filters
        else
          fromString.loop isTraceLevels fields globalLevel
            (filters ++ [⟨matchToken, filterLevel⟩])

/-- Source: `filterSpec.fromString` (pkg/logger/filter.go). The method works
on `spec` in place; the result is the `spec` it leaves behind and the error it
returns (`none` for nil). -/
def filterSpec.fromString (spec : filterSpec) (s : String) (isTraceLevels : Bool)
    (globalLevelDefault : Int) : filterSpec × Option String :=
  match fromString.loop isTraceLevels (strings.Split s ',') globalLevelDefault spec.filters with
  | (filters, .error e) => (⟨filters⟩, some e)
  | (filters, .ok globalLevel) =>
    if !isTraceLevels || globalLevel ≠ noTraceOutput then
      (⟨filters ++ [⟨"", globalLevel⟩]⟩, none)
    else (⟨filters⟩, none)

/-- The two functions of Go's `path/filepath` that `filter.match` calls:
`Match pattern name` is the first result of `filepath.Match` (its error is
dropped by the program), `Base` is `filepath.Base`. -/
structure Filepath where
  Match : String → String → Bool
  Base : String → String

/-- Source: `filter.match` (pkg/logger/filter.go); `match` is a keyword, hence
the underscore. The result is `(matched, loggit)`. -/
def filter.match_ (fp : Filepath) (f : filter) (filename : String) (level : Int) :
    Bool × Bool :=
  let matched := if f.Pattern ≠ "" then fp.Match f.Pattern (fp.Base filename) else true
  if matched then (true, decide (level ≤ f.Level)) else (false, false)

/-- Source: the `for _, filter := range spec.filters` loop of `matchfilters`. -/
def matchfilters.loop (fp : Filepath) (filename : String) (level : Int) : List filter → Bool
  | [] => false
  | f :: rest =>
    if (f.match_ fp filename level).1 then (f.match_ fp filename level).2
    else matchfilters.loop fp filename level rest

/-- Source: `filterSpec.matchfilters` (pkg/logger/filter.go). -/
def filterSpec.matchfilters (fp : Filepath) (spec : filterSpec) (filename : String)
    (level : Int) : Bool :=
  if spec.filters.length = 0 then false
  else matchfilters.loop fp filename level spec.filters

/-- Source: `Config` (pkg/logger/config.go). -/
structure Config where
  Name : String
  LogLevel : String
  LogTimeFormat : String
  LogFile : String
  LogStream : String
  LogNoTime : Bool
  ShowCallerInfo : Bool
  LogBufferSync : Bool

/-- Source: `newLoggerConfig` (pkg/logger/config.go). -/
def newLoggerConfig : Config :=
  { Name := "", LogLevel := "info", LogTimeFormat := "2006-01-02 15:04:05.000", LogFile := "",
    LogStream := "", LogNoTime := false, ShowCallerInfo := false, LogBufferSync := false }

/-- Source: `Config.SetName`. -/
def Config.SetName (c : Config) (name : String) : Config := { c with Name := name }

/-- Source: `Config.SetLogLevel`. -/
def Config.SetLogLevel (c : Config) (level : String) : Config := { c with LogLevel := level }

/-- Source: `Config.SetShowCallerInfo`. -/
def Config.SetShowCallerInfo (c : Config) (showCallerInfo : Bool) : Config :=
  { c with ShowCallerInfo := showCallerInfo }

/-- Source: `Logger` (pkg/logger/logger.go), the fields that decide whether
and where a line is written: the filter and the two writers (`none` is a nil
writer; the stream writer is named by its stream, the file writer by its
file). The fields that only shape the text of the line are left out. -/
structure Logger where
  logFilterSpec : filterSpec
  logWriterStream : Option String
  logWriterFile : Option String

/-- Source: `Logger.init` on the logger `newLogger()` returns (whose
`currentLogFileName` is empty). `openFile` is `os.OpenFile` on the log file,
`none` for success. -/
def Logger.init (openFile : String → Option String) (cfg : Config) : Except String Logger :=
  match (filterSpec.mk []).fromString cfg.LogLevel false levelInfo with
  | (_, some err) => .error err
  | (newLogFilterSpec, none) =>
    let logWriterStream : Option String :=
      if cfg.LogStream = "stdout" then some "stdout"
      else if cfg.LogStream = "none" then none
      else some "stderr"
    if "" ≠ cfg.LogFile then
      match openFile cfg.LogFile with
      | none => .ok ⟨newLogFilterSpec, logWriterStream, some cfg.LogFile⟩
      | some err => .error ("Unable to open log file: " ++ err)
    else .ok ⟨newLogFilterSpec, logWriterStream, none⟩

/-- Source: `NewLogger` (pkg/logger/logger.go); `none` is `panic(err)`. -/
def NewLogger (openFile : String → Option String) (name : String) (level : String) :
    Option Logger :=
  match Logger.init openFile
    (((newLoggerConfig.SetName name).SetLogLevel level).SetShowCallerInfo true) with
  | .error _ => none
  | .ok l => some l

/-- Source: `Logger.basicLog` (pkg/logger/logger.go), with the assembled
`logLine` given: the `Print` calls it makes, as pairs of writer and line. -/
def Logger.basicLog (fp : Filepath) (l : Logger) (logLevel : Int) (logLine : String) :
    List (String × String) :=
  if !l.logFilterSpec.matchfilters fp "" logLevel then []
  else
    (match l.logWriterStream with
      | some w => [(w, logLine)]
      | none => []) ++
    (match l.logWriterFile with
      | some w => [(w, logLine)]
      | none => [])

end logger

namespace spec

/-- Specification: the level a level token stands for: the number
`strconv.Atoi` reads for trace levels, the entry of `levelNumbers` for log
levels, `none` for a token that is neither (the empty token in particular). -/
def levelOf (isTraceLevels : Bool) (levelToken : String) : Option Int :=
  if isTraceLevels then
    match strconv.Atoi levelToken with
    | .ok v => some v
    | .error _ => none
  else logger.levelNumbers levelToken

/-- Specification: the pattern filters of a list of fields: for every field
with a non-empty pattern and a level, in order of appearance, the pattern with
that level. -/
def patternFilters (isTraceLevels : Bool) (fields : List String) : List logger.filter :=
  fields.filterMap (fun f =>
    match logger.fromString.tokens f with
    | .ok (matchToken, levelToken) =>
      if matchToken = "" then none
      else (levelOf isTraceLevels levelToken).map (fun v => ⟨matchToken, v⟩)
    | .error _ => none)

/-- Specification: the levels of the pattern-less level tokens of a list of
fields, in order of appearance. -/
def globalLevels (isTraceLevels : Bool) (fields : List String) : List Int :=
  fields.filterMap (fun f =>
    match logger.fromString.tokens f with
    | .ok (matchToken, levelToken) =>
      if matchToken = "" then levelOf isTraceLevels levelToken else none
    | .error _ => none)

/-- Specification: the global level of a specification string: the level of
its last pattern-less level token, the default `d` when it has none. -/
def globalLevel (isTraceLevels : Bool) (s : String) (d : Int) : Int :=
  (globalLevels isTraceLevels (strings.Split s ',')).getLast?.getD d

end spec

/-! ## The project directory, the export file and the HTTP entry point -/

namespace api

/-- A project record of the resource manager API. -/
structure DirectoryProject where
  Name : String
  ProjectId : String

structure ListProjectsResponse where
  Projects : List DirectoryProject

/-- The resource manager service handle: the answer to `Projects.List()`. -/
structure ResourceManager where
  ProjectsList : Paged ListProjectsResponse

/-- What `cloudresourcemanager.NewService(ctx)` returns. -/
structure Directory where
  NewService : Except String ResourceManager

/-- Result of `client.Bucket(name).Attrs(ctx)`, as far as the program tells the
cases apart: success, `storage.ErrBucketNotExist`, any other error. -/
inductive AttrsResult where
  | ok : AttrsResult
  | notExist : AttrsResult
  | fail (err : String) : AttrsResult

/-- The calls on the storage client other than `Buckets`; `none` is a nil
error. `Create bucket projectID`, `Copy bucket object data` (the `io.Copy` into
the object writer) and `CloseWriter bucket object` (the writer's `Close`). -/
structure StorageBackend where
  Attrs : String → AttrsResult
  Create : String → String → Option String
  Copy : String → String → List Nat → Option String
  CloseWriter : String → String → Option String
  Close : Option String

/-- An operation applied to an excelize file. -/
inductive FileOp where
  | newSheet (name : String) : FileOp
  | setCellValue (sheet axis value : String) : FileOp
  | deleteSheet (name : String) : FileOp

/-- The excelize library: for a file given by the operations applied to it so
far, the error of the next call (`none` for nil), the bytes `WriteToBuffer`
produces, and the column letters `ToAlphaString` gives. -/
structure Excelize where
  NewSheet : List FileOp → String → Option String
  SetCellValue : List FileOp → String → String → String → Option String
  DeleteSheet : List FileOp → String → Option String
  WriteToBuffer : List FileOp → Except String (List Nat)
  ToAlphaString : Nat → String

end api

namespace project

/-- Source: `GetProjects` (project/project.go). `none` is a panic, `.error e`
is `return nil, err`, `.ok ps` is `return projects, nil`. -/
def GetProjects (dir : api.Directory) : Option (Except String (List Project)) :=
  match dir.NewService with
  | .error err => some (.error err)
  | .ok service =>
    match service.ProjectsList.Pages
      (fun page projects =>
        some (page.Projects.foldl (fun projects p => projects ++ [⟨p.ProjectId, p.Name⟩])
          projects, none))
      [] with
    | none => none
    | some (_, some err) => some (.error err)
    | some (projects, none) => some (.ok projects)

end project

namespace config

/-- Source: `Config` (config/config.go). -/
structure Config where
  OrgId : String
  Regions : Regions
  Zones : Zones
  ExportProjectId : String
  ExportBucketName : String

/-- Source: `Config.Validate` (config/config.go); `none` is nil. -/
def Config.Validate (c : Config) : Option String :=
  if c.OrgId = "" then some "ORG_ID is missing"
  else if c.Regions.length = 0 then some "REGIONS is missing"
  else if c.Zones.length = 0 then some "ZONES is missing"
  else if c.ExportProjectId = "" then some "EXPORT_PROJECT_ID is missing"
  else if c.ExportBucketName = "" then some "EXPORT_BUCKET_NAME is missing"
  else none

end config

namespace storage

/-- Source: `NewStorage` (storage/storage.go); `newClient` is the result of
`storage.NewClient(ctx)`. -/
def NewStorage (newClient : Except String api.StorageClient) (projectId : String) :
    Except String Storage :=
  match newClient with
  | .error err => .error err
  | .ok client => .ok ⟨client, projectId⟩

/-- Source: `Storage.CreateBucket` (storage/storage.go). -/
def Storage.CreateBucket (backend : api.StorageBackend) (s : Storage) (bucketName : String) :
    Option String :=
  backend.Create bucketName s.projectID

/-- Source: `Storage.BucketExistsOrCreate` (storage/storage.go). -/
def Storage.BucketExistsOrCreate (backend : api.StorageBackend) (s : Storage)
    (bucketName : String) : Option String :=
  match backend.Attrs bucketName with
  | .notExist => s.CreateBucket backend bucketName
  | .fail err => some err
  | .ok => none

/-- Source: `Storage.SaveFile` (storage/storage.go). -/
def Storage.SaveFile (backend : api.StorageBackend) (bucketName objectName : String)
    (objectData : List Nat) : Option String :=
  match backend.Copy bucketName objectName objectData with
  | some err => some err
  | none =>
    match backend.CloseWriter bucketName objectName with
    | some err => some err
    | none => none

end storage

namespace xls

/-- Source: `Xls` (pkg/xls/xls.go); the excelize file it points to is
represented by the operations applied to it since `excelize.NewFile()`. -/
structure Xls where
  file : List api.FileOp

/-- Source: `NewXls` (pkg/xls/xls.go). -/
def NewXls : Xls := ⟨[]⟩

/-- Source: `Xls.NewSheet` (pkg/xls/xls.go): the file after the call and the
returned error. -/
def Xls.NewSheet (ex : api.Excelize) (x : Xls) (name : String) : Xls × Option String :=
  match ex.NewSheet x.file name with
  | some err => (x, some err)
  | none => (⟨x.file ++ [.newSheet name]⟩, none)

/-- Source: the inner loop `for j, cell := range row` of `SetDataToSheet`, from
column `j` on, in row `i`. -/
def SetDataToSheet.cells (ex : api.Excelize) (sheet : String) (i : Nat) :
    List String → Nat → Xls → Xls × Option String
  | [], _, x => (x, none)
  | cell :: row, j, x =>
    match ex.SetCellValue x.file sheet (ex.ToAlphaString j ++ golang.sprintfD (i + 1)) cell with
    | some err => (x, some err)
    | none =>
      SetDataToSheet.cells ex sheet i row (j + 1)
        ⟨x.file ++ [.setCellValue sheet (ex.ToAlphaString j ++ golang.sprintfD (i + 1)) cell]⟩

/-- Source: the outer loop `for i, row := range data` of `SetDataToSheet`, from
row `i` on. -/
def SetDataToSheet.rows (ex : api.Excelize) (sheet : String) :
    List (List String) → Nat → Xls → Xls × Option String
  | [], _, x => (x, none)
  | row :: data, i, x =>
    match SetDataToSheet.cells ex sheet i row 0 x with
    | (x1, some err) => (x1, some err)
    | (x1, none) => SetDataToSheet.rows ex sheet data (i + 1) x1

/-- Source: `Xls.SetDataToSheet` (pkg/xls/xls.go). -/
def Xls.SetDataToSheet (ex : api.Excelize) (x : Xls) (sheet : String)
    (data : List (List String)) : Xls × Option String :=
  match x.NewSheet ex sheet with
  | (x1, some err) => (x1, some err)
  | (x1, none) => SetDataToSheet.rows ex sheet data 0 x1

/-- Source: `Xls.DeleteSheet` (pkg/xls/xls.go). -/
def Xls.DeleteSheet (ex : api.Excelize) (x : Xls) (sheet : String) : Xls × Option String :=
  match ex.DeleteSheet x.file sheet with
  | some err => (x, some err)
  | none => (⟨x.file ++ [.deleteSheet sheet]⟩, none)

/-- Source: `Xls.GetBytes` (pkg/xls/xls.go). -/
def Xls.GetBytes (ex : api.Excelize) (x : Xls) : Except String (List Nat) :=
  match ex.WriteToBuffer x.file with
  | .error err => .error err
  | .ok buffer => .ok buffer

end xls

namespace gcp_inventory_exporter

/-- Everything outside the program that one run of `processInventory` meets:
`cfg` is `config.DefaultConfig`, `now` is
`time.Now().Format("2006-01-02-15-04-05")`, `sched` gives, per inventory
function, the schedule of its goroutines. -/
structure World where
  openFile : String → Option String
  cfg : config.Config
  ctx : api.Context
  directory : api.Directory
  newClient : Except String api.StorageClient
  backend : api.StorageBackend
  excelize : api.Excelize
  now : String
  sched : String → List Nat

/-- What `setResponse` and `setErrorResponse` write: status code and body. -/
structure Response where
  status : Nat
  body : String

/-- Source: `setResponse` (functions.go). -/
def setResponse (code : Nat) (msg : String) : Response := ⟨code, msg⟩

/-- Source: `setErrorResponse` (functions.go); `err` is `err.Error()`. -/
def setErrorResponse (code : Nat) (err : String) : Response := ⟨code, err⟩

/-- Where a run stands: the inventory functions called so far, in order, and
the export file. -/
structure Progress where
  collected : List String
  xlsFile : xls.Xls

/-- What a finished run of `processInventory` did: the response, the inventory
functions called, the export file, whether `CreateBucket` was called, the
`SaveFile` calls made (bucket, object, data), and whether the deferred
`storageClient.Close()` ran. -/
structure Run where
  response : Response
  collected : List String
  xlsFile : xls.Xls
  bucketCreated : Bool
  saved : List (String × String × List Nat)
  closed : Bool

/-- Source: an error return of `processInventory` after the storage client
exists: `setErrorResponse(w, http.StatusInternalServerError, err); return`,
followed by the deferred `Close`. -/
def failed (bucketCreated : Bool) (p : Progress) (err : String) : Run :=
  ⟨setErrorResponse 500 err, p.collected, p.xlsFile, bucketCreated, [], true⟩

/-- Source: one inventory call of `processInventory` with the
`SetDataToSheet` that follows it. `none` is a panic, `.error run` an early
return, `.ok p` goes on. -/
def inventoryToSheet (w : World) (bucketCreated : Bool) (p : Progress) (fn sheet : String)
    (result : Option (Except String (List (List String)))) : Option (Except Run Progress) :=
  match result with
  | none => none
  | some (.error err) => some (.error (failed bucketCreated ⟨p.collected ++ [fn], p.xlsFile⟩ err))
  | some (.ok data) =>
    match p.xlsFile.SetDataToSheet w.excelize sheet data with
    | (x1, some err) => some (.error (failed bucketCreated ⟨p.collected ++ [fn], x1⟩ err))
    | (x1, none) => some (.ok ⟨p.collected ++ [fn], x1⟩)

/-- Sequencing of the steps of `processInventory`: a panic or an early return
ends the run, otherwise the next step runs. -/
def andThen (r : Option (Except Run Progress))
    (k : Progress → Option (Except Run Progress)) : Option (Except Run Progress) :=
  match r with
  | none => none
  | some (.error run) => some (.error run)
  | some (.ok p) => k p

/-- Source: `processInventory` (functions.go) from the compute inventory to
the "Cloud Storage" sheet. -/
def processInventory.sheets (w : World) (bucketCreated : Bool) (storageClient : storage.Storage)
    (projects : List project.Project) : Option (Except Run Progress) :=
  andThen (inventoryToSheet w bucketCreated ⟨[], xls.NewXls⟩ "GetComputeInventory" "Compute"
    (compute.GetComputeInventory w.ctx (w.sched "GetComputeInventory") projects w.cfg.Zones))
  fun p =>
  andThen (inventoryToSheet w bucketCreated p "GetVPCInventory" "VPC"
    (network.GetVPCInventory w.ctx (w.sched "GetVPCInventory") projects w.cfg.Regions))
  fun p =>
  andThen (inventoryToSheet w bucketCreated p "GetIPAddressInventory" "IP Addresses"
    (network.GetIPAddressInventory w.ctx (w.sched "GetIPAddressInventory") projects
      w.cfg.Zones))
  fun p =>
  andThen (inventoryToSheet w bucketCreated p "GetRoutesInventory" "Routes"
    (network.GetRoutesInventory w.ctx (w.sched "GetRoutesInventory") projects))
  fun p =>
  andThen (inventoryToSheet w bucketCreated p "GetPreeingInventory" "VPC Peering"
    (network.GetPreeingInventory w.ctx (w.sched "GetPreeingInventory") projects))
  fun p =>
  andThen (inventoryToSheet w bucketCreated p "GetFirewallInventory" "Firewall"
    (network.GetFirewallInventory w.ctx (w.sched "GetFirewallInventory") projects))
  fun p =>
  andThen
    (match p.xlsFile.DeleteSheet w.excelize "Sheet1" with
      | (x1, some err) => some (.error (failed bucketCreated ⟨p.collected, x1⟩ err))
      | (x1, none) => some (.ok ⟨p.collected, x1⟩))
  fun p =>
  inventoryToSheet w bucketCreated p "GetStorageInventory" "Cloud Storage"
    (storage.GetStorageInventory storageClient (w.sched "GetStorageInventory") projects)

/-- Source: `processInventory` (functions.go). `none` is a panic. -/
def processInventory (w : World) : Option Run :=
  match logger.NewLogger w.openFile "ExportInventory" "debug" with
  | none => none
  | some _ =>
    match w.cfg.Validate with
    | some err => some ⟨setErrorResponse 500 err, [], xls.NewXls, false, [], false⟩
    | none =>
      match storage.NewStorage w.newClient w.cfg.ExportProjectId with
      | .error err => some ⟨setErrorResponse 500 err, [], xls.NewXls, false, [], false⟩
      | .ok storageClient =>
        let bucketCreated : Bool :=
          match w.backend.Attrs w.cfg.ExportBucketName with
          | .notExist => true
          | _ => false
        match storageClient.BucketExistsOrCreate w.backend w.cfg.ExportBucketName with
        | some err => some (failed bucketCreated ⟨[], xls.NewXls⟩ err)
        | none =>
          match project.GetProjects w.directory with
          | none => none
          | some (.error err) => some (failed bucketCreated ⟨[], xls.NewXls⟩ err)
          | some (.ok projects) =>
            match processInventory.sheets w bucketCreated storageClient projects with
            | none => none
            | some (.error run) => some run
            | some (.ok p) =>
              let objectName := "inventory-" ++ w.now ++ ".xlsx"
              match p.xlsFile.GetBytes w.excelize with
              | .error err => some (failed bucketCreated p err)
              | .ok objectData =>
                match storage.Storage.SaveFile w.backend w.cfg.ExportBucketName objectName
                  objectData with
                | some err =>
                  some ⟨setErrorResponse 500 err, p.collected, p.xlsFile, bucketCreated,
                    [(w.cfg.ExportBucketName, objectName, objectData)], true⟩
                | none =>
                  some ⟨setResponse 200
                      ("Inventory exported to gs://" ++ w.cfg.ExportBucketName ++ "/" ++
                        objectName),
                    p.collected, p.xlsFile, bucketCreated,
                    [(w.cfg.ExportBucketName, objectName, objectData)], true⟩

end gcp_inventory_exporter

namespace sample

/-- Sample directory: one page with two projects, then a failing request. -/
def directory : api.Directory :=
  ⟨.ok ⟨.more ⟨[⟨"Project A", "pa"⟩, ⟨"Project C", "pc"⟩]⟩ (.fail "directory unavailable")⟩⟩

/-- Sample directory whose listing succeeds with one project. -/
def directoryOk : api.Directory := ⟨.ok ⟨.last ⟨[⟨"Project A", "pa"⟩]⟩⟩⟩

/-- Sample world: a valid configuration, an existing bucket, a spreadsheet
library and a storage backend that never fail, and the failing directory. -/
def world : gcp_inventory_exporter.World where
  openFile := fun _ => none
  cfg := ⟨"org", ["r1"], ["zone-a"], "export", "bucket"⟩
  ctx := sample.ctx
  directory := sample.directory
  newClient := .ok sample.store.client
  backend := ⟨fun _ => .ok, fun _ _ => none, fun _ _ _ => none, fun _ _ => none, none⟩
  excelize := ⟨fun _ _ => none, fun _ _ _ _ => none, fun _ _ => none, fun _ => .ok [80, 75],
    fun j => toString j⟩
  now := "2023-01-01-00-00-00"
  sched := fun _ => []

end sample

/-! ## The goroutines, the mutex and the WaitGroup, step by step -/

namespace golang

/-- A state of the fan-out/fan-in code every inventory function repeats
(`wg.Add(len(projects))`, a loop of `go func(p) {...}(p)`, `wg.Wait()`,
`return inventory, nil`), with the goroutines sorted by where they stand:
`todo` are the projects whose goroutine the loop has not started yet,
`running` the goroutines still building their local inventory, `ready` those
that have built it and are before `mutex.Lock()`, `locked` the holder of the
mutex (with its local inventory before the append, without it after),
`unlocked` those after `mutex.Unlock()` and before the deferred `wg.Done()`,
`finished` those that have called `wg.Done()`. `counter` is the WaitGroup
counter, `inventory` the shared slice, `returned` the table the function has
returned, if it has. -/
structure FanState (α : Type) where
  todo : List α
  running : List α
  ready : List (α × List (List String))
  locked : Option (α × Option (List (List String)))
  unlocked : List α
  finished : List α
  counter : Int
  inventory : List (List String)
  returned : Option (List (List String))
  panicked : Bool

/-- The state after `inventory = append(inventory, header)` and
`wg.Add(len(projects))`, before the loop. -/
def FanState.start {α : Type} (projects : List α) (header : List String) : FanState α :=
  { todo := projects, running := [], ready := [], locked := none, unlocked := [],
    finished := [], counter := projects.length, inventory := [header], returned := none,
    panicked := false }

/-- One step of one thread, any thread that can move. `goroutine p` is the
local inventory the goroutine of `p` builds, `none` if it panics. -/
inductive FanStep {α : Type} (goroutine : α → Option (List (List String))) :
    FanState α → FanState α → Prop where
  /-- The main loop starts the goroutine of the next project. -/
  | launch (s : FanState α) (p : α) (rest : List α) (hp : s.panicked = false)
      (hr : s.returned = none) (ht : s.todo = p :: rest) :
      FanStep goroutine s { s with todo := rest, running := s.running ++ [p] }
  /-- A goroutine finishes building its local inventory. -/
  | compute (s : FanState α) (p : α) (before after : List α) (loc : List (List String))
      (hp : s.panicked = false) (hrun : s.running = before ++ p :: after)
      (hloc : goroutine p = some loc) :
      FanStep goroutine s
        { s with running := before ++ after, ready := s.ready ++ [(p, loc)] }
  /-- A goroutine panics: the program dies. -/
  | crash (s : FanState α) (p : α) (before after : List α)
      (hp : s.panicked = false) (hrun : s.running = before ++ p :: after)
      (hloc : goroutine p = none) :
      FanStep goroutine s { s with panicked := true }
  /-- `mutex.Lock()` succeeds for a goroutine: the mutex is free. -/
  | lock (s : FanState α) (p : α) (loc : List (List String))
      (before after : List (α × List (List String)))
      (hp : s.panicked = false) (hready : s.ready = before ++ (p, loc) :: after)
      (hfree : s.locked = none) :
      FanStep goroutine s { s with ready := before ++ after, locked := some (p, some loc) }
  /-- The holder of the mutex runs `inventory = append(inventory, localInventory...)`. -/
  | append (s : FanState α) (p : α) (loc : List (List String))
      (hp : s.panicked = false) (hl : s.locked = some (p, some loc)) :
      FanStep goroutine s
        { s with inventory := s.inventory ++ loc, locked := some (p, none) }
  /-- The holder of the mutex runs `mutex.Unlock()`. -/
  | unlock (s : FanState α) (p : α)
      (hp : s.panicked = false) (hl : s.locked = some (p, none)) :
      FanStep goroutine s { s with locked := none, unlocked := s.unlocked ++ [p] }
  /-- A goroutine returns and its deferred `wg.Done()` runs. -/
  | done (s : FanState α) (p : α) (before after : List α)
      (hp : s.panicked = false) (hu : s.unlocked = before ++ p :: after) :
      FanStep goroutine s
        { s with unlocked := before ++ after, finished := s.finished ++ [p],
                 counter := s.counter - 1 }
  /-- After the loop `wg.Wait()` returns, the counter being zero, and the
  function returns `inventory`. -/
  | ret (s : FanState α) (hp : s.panicked = false) (hr : s.returned = none)
      (ht : s.todo = []) (hc : s.counter = 0) :
      FanStep goroutine s { s with returned := some s.inventory }

/-- The states the code can reach from its start, in any interleaving. -/
def FanReachable {α : Type} (goroutine : α → Option (List (List String)))
    (projects : List α) (header : List String) (s : FanState α) : Prop :=
  Relation.ReflTransGen (FanStep goroutine) (FanState.start projects header) s

end golang

namespace spec

/-- Specification: an inventory function returns only after all its
goroutines have finished. In every reachable state in which the function has
returned a table `t`: every project's goroutine has finished (has called
`wg.Done()`) and none is in any earlier phase; `t` is the shared inventory,
and it is the header followed by the local inventories of all projects in some
order; and no thread can take a further step, so the inventory is not
appended to after the return. Moreover the tables the code can return in this
way are exactly those the functional model `fanIn` returns for some
schedule. -/
def ReturnsAfterAllFinished {α : Type} (goroutine : α → Option (List (List String)))
    (projects : List α) (header : List String) : Prop :=
  (∀ s t, golang.FanReachable goroutine projects header s → s.returned = some t →
    s.finished.Perm projects ∧ s.todo = [] ∧ s.running = [] ∧ s.ready = [] ∧
    s.locked = none ∧ s.unlocked = [] ∧ s.counter = 0 ∧ s.inventory = t ∧
    (∃ order : List α, order.Perm projects ∧
      t = header :: order.flatMap (fun p => (goroutine p).getD [])) ∧
    (∀ s1, ¬ golang.FanStep goroutine s s1)) ∧
  (∀ t, (∃ s, golang.FanReachable goroutine projects header s ∧ s.returned = some t) ↔
    ∃ sched, golang.fanIn sched projects goroutine [header] = some t)

end spec

namespace golang

/-- The goroutine holding the mutex, as a list. -/
def FanState.holder {α : Type} (s : FanState α) : List α :=
  match s.locked with
  | some (p, _) => [p]
  | none => []

/-- The goroutine holding the mutex after its append, as a list. -/
def FanState.appended {α : Type} (s : FanState α) : List α :=
  match s.locked with
  | some (p, none) => [p]
  | _ => []

/-- The invariant of the fan-out/fan-in code: every project is in exactly one
phase; the WaitGroup counter is the number of projects whose goroutine has not
called `wg.Done()`; the shared inventory is the header followed by the local
inventories of the goroutines that have appended, in the order of their
appends; a local inventory held by a goroutine is what the goroutine computes;
and a returned table is the inventory, returned with the counter at zero. -/
structure FanInv {α : Type} (goroutine : α → Option (List (List String)))
    (projects : List α) (header : List String) (s : FanState α) : Prop where
  all : (s.todo ++ s.running ++ s.ready.map Prod.fst ++ s.holder ++ s.unlocked ++
    s.finished).Perm projects
  count : s.counter = ((s.todo.length + s.running.length + s.ready.length +
    s.holder.length + s.unlocked.length : Nat) : Int)
  merged : ∃ order : List α, order.Perm (s.appended ++ s.unlocked ++ s.finished) ∧
    s.inventory = header :: order.flatMap (fun p => (goroutine p).getD [])
  localReady : ∀ p loc, (p, loc) ∈ s.ready → goroutine p = some loc
  localLocked : ∀ p loc, s.locked = some (p, some loc) → goroutine p = some loc
  atReturn : ∀ t, s.returned = some t → t = s.inventory ∧ s.todo = [] ∧ s.counter = 0

end golang

namespace golang

/-- A state in which no goroutine is between the end of its computation and
its `wg.Done()`, and the function has not returned. -/
def FanState.quiet {α : Type} (todo running finished : List α) (counter : Int)
    (inventory : List (List String)) : FanState α :=
  { todo := todo, running := running, ready := [], locked := none, unlocked := [],
    finished := finished, counter := counter, inventory := inventory, returned := none,
    panicked := false }

end golang

namespace spec

/-- Specification: the tables an inventory function returns in the functional
model, over all schedules, are exactly the tables the step-by-step code can
return. -/
def ReturnsWhatTheCodeReturns {α : Type}
    (result : List Nat → Option (Except String (List (List String))))
    (goroutine : α → Option (List (List String))) (projects : List α)
    (header : List String) : Prop :=
  ∀ t, (∃ sched, result sched = some (.ok t)) ↔
    ∃ s, golang.FanReachable goroutine projects header s ∧ s.returned = some t

end spec

/-! ## Validation of the configuration and closing of the export file -/

namespace config

/-- Source: `Config.Validate` (config/config.go) seen through its pointer
receiver: the Config `c` points to when the call returns, and the returned
error (`none` is nil). The body only reads the fields; it has no assignment. -/
def Config.ValidateState (c : Config) : Config × Option String :=
  if c.OrgId = "" then (c, some "ORG_ID is missing")
  else if c.Regions.length = 0 then (c, some "REGIONS is missing")
  else if c.Zones.length = 0 then (c, some "ZONES is missing")
  else if c.ExportProjectId = "" then (c, some "EXPORT_PROJECT_ID is missing")
  else if c.ExportBucketName = "" then (c, some "EXPORT_BUCKET_NAME is missing")
  else (c, none)

end config

namespace spec

/-- Specification: the five required settings in their fixed order, each with
whether it is missing in `c`. -/
def requiredSettings (c : config.Config) : List (String × Bool) :=
  [("ORG_ID", decide (c.OrgId = "")), ("REGIONS", decide (c.Regions = [])),
    ("ZONES", decide (c.Zones = [])), ("EXPORT_PROJECT_ID", decide (c.ExportProjectId = "")),
    ("EXPORT_BUCKET_NAME", decide (c.ExportBucketName = ""))]

/-- Specification: the error naming the first missing setting, `none` when no
setting is missing. -/
def firstMissing (c : config.Config) : Option String :=
  ((requiredSettings c).find? (fun setting => setting.2)).map
    (fun setting => setting.1 ++ " is missing")

end spec

namespace xls

/-- Source: `Xls.Close` (pkg/xls/xls.go), whose body is `return x.Close()`: a
call of the method itself. `fuel` bounds the depth of nested calls; the result
is `none` when the bound is reached before any call has returned, and
`some err` when the call returns the error `err` (`none` for nil). -/
def Xls.Close (x : Xls) : Nat → Option (Option String)
  | 0 => none
  | fuel + 1 => x.Close fuel

/-- Source: `Xls.Close` as a relation, without a bound: `CloseReturns x err`
says that the call `x.Close()` returns `err`. The body `return x.Close()`
gives the one rule: the call returns what the nested call returns. -/
inductive CloseReturns : Xls → Option String → Prop where
  | nested (x : Xls) (err : Option String) (h : CloseReturns x err) : CloseReturns x err

end xls

namespace sample

/-- Sample configuration with every setting present. -/
def config : config.Config := ⟨"org", ["r1"], ["zone-a"], "export", "bucket"⟩

/-- Sample configuration in which REGIONS and EXPORT_BUCKET_NAME are missing. -/
def configMissing : config.Config := ⟨"org", [], ["zone-a"], "export", ""⟩

end sample

/-! ## What the claims say of listings that take several pages -/

namespace spec

/-- Specification: the instances an instance listing yields: none when the
listing fails, else the instances of every page it delivers, in
provider-return order. -/
def listedInstances (listing : api.Paged api.InstanceList) : List api.Instance :=
  match failure listing with
  | some _ => []
  | none => (delivered listing).flatMap (fun page => page.Items)

/-- Specification: the number of instances a project yields in total over the
zones. -/
def instancesYielded (service : api.Service) (zones : config.Zones)
    (projectId : project.Project) : Nat :=
  (zones.map (fun zone =>
    (listedInstances (service.InstancesList projectId.ID zone)).length)).sum

/-- Specification: the local buffer of one project in the compute inventory:
the concatenation over the zones in configuration order of one row per
instance in provider-return order. -/
def listedComputeRows (ctx : api.Context) (service : api.Service) (zones : config.Zones)
    (projectId : project.Project) : List (List String) :=
  zones.flatMap (fun zone =>
    (listedInstances (service.InstancesList projectId.ID zone)).map
      (instanceRow (compute.FetchMachineTypes ctx projectId.ID zone) projectId zone))

/-- Specification: the "INTERNAL" rows of one (project, zone): one row per
network interface of every instance of the zone when its listing succeeded,
none otherwise. -/
def listedInterfaceRows (service : api.Service) (projectId : project.Project)
    (zone : String) : List (List String) :=
  (listedInstances (service.InstancesList projectId.ID zone)).flatMap
    (fun inst => inst.NetworkInterfaces.map (interfaceRow projectId zone inst))

/-- Specification: the address rows of one project: the "INTERNAL" rows of the
zones in zone order, then one row per address of the aggregated listing, then
one row per address of the global listing. -/
def listedAddressRows (service : api.Service) (zones : config.Zones)
    (projectId : project.Project) : List (List String) :=
  zones.flatMap (listedInterfaceRows service projectId) ++
    aggregatedAddressRows projectId (delivered (service.AddressesAggregatedList projectId.ID)) ++
    globalAddressRows projectId (delivered (service.GlobalAddressesList projectId.ID))

/-- Specification: the machine types a machine-type listing contains: those of
every page it delivers. -/
def listedMachineTypes (listing : api.Paged api.MachineTypeList) : List api.MachineType :=
  (delivered listing).flatMap (fun page => page.Items)

/-- Specification: whether the pattern of a filter matches a file name: an
empty pattern matches every file, any other pattern is matched by
`filepath.Match` against the base name of the file. -/
def patternMatches (fp : logger.Filepath) (f : logger.filter) (filename : String) : Bool :=
  f.Pattern = "" || fp.Match f.Pattern (fp.Base filename)

/-- Specification: `name` has the non-nil entry `t` in the map: the latest
write to the key `name` stored a pointer to `t`. -/
def HasEntry (m : compute.MachineTypes) (name : String) (t : compute.machineType) : Prop :=
  ∃ later earlier, m.entries = later ++ (name, some t) :: earlier ∧
    ∀ e ∈ later, e.1 ≠ name

end spec

namespace sample

/-- Sample provider of the two-project scenario with a machine-type catalogue
of two pages: project "p1" has the one instance `vm2` (machine type
n1-standard-1) in every zone, any other project has none; the machine-type
listing delivers e2-medium on its first page and n1-standard-1, with 1 CPU and
3840 MB, on its second and last page. -/
def pagedScenarioService : api.Service :=
  { sample.scenarioService with
    MachineTypesList := fun _ _ =>
      .more ⟨[⟨"e2-medium", 2, 4096⟩]⟩ (.last ⟨[⟨"n1-standard-1", 1, 3840⟩]⟩) }

/-- Sample provider in which no listing fails: the instance listings have two
pages (`vm1`, then `vm2`), the aggregated and the global address listing one
page each. -/
def addressService : api.Service :=
  { sample.service with
    InstancesList := fun _ _ => .more ⟨[vm1]⟩ (.last ⟨[vm2]⟩)
    AddressesAggregatedList := fun _ => .last ⟨[⟨[address1]⟩]⟩ }

/-- Sample stand-in for `filepath.Match` and `filepath.Base` on patterns
without metacharacters and paths without a trailing "/": such a pattern matches
exactly the name equal to it, and the base name is the last path segment. -/
def filepath : logger.Filepath :=
  ⟨fun pattern name => pattern == name, spec.trailingSegment⟩

end sample

/-! ## Lemmas on the Go library model -/

theorem strings.Split_ne_nil (s : String) (sep : Char) : strings.Split s sep ≠ [] := by
  unfold strings.Split
  intro h
  exact List.splitOnP_ne_nil _ _ (List.map_eq_nil_iff.mp h)

theorem spec.afterLast_of_not_mem (c : Char) (l : List Char) (h : c ∉ l) :
    spec.afterLast c l = l := by
  cases l with
  | nil => rfl
  | cons x xs =>
    have hx : ¬ x = c := fun e => h (by simp [e])
    have hxs : c ∉ xs := fun e => h (by simp [e])
    simp [spec.afterLast, hx, hxs]

theorem spec.not_mem_afterLast (c : Char) (l : List Char) : c ∉ spec.afterLast c l := by
  induction l with
  | nil => simp [spec.afterLast]
  | cons x xs ih =>
    unfold spec.afterLast
    by_cases hm : c ∈ xs
    · simpa [hm] using ih
    · by_cases hx : x = c
      · simp [hm, hx]
      · simp only [hm, hx, if_false]
        intro h
        rcases List.mem_cons.mp h with h1 | h1
        · exact hx h1.symm
        · exact hm h1

theorem spec.afterLast_suffix (c : Char) (l : List Char) (h : c ∈ l) :
    ∃ pre, l = pre ++ c :: spec.afterLast c l := by
  induction l with
  | nil => simp at h
  | cons x xs ih =>
    unfold spec.afterLast
    by_cases hm : c ∈ xs
    · obtain ⟨pre, hpre⟩ := ih hm
      refine ⟨x :: pre, ?_⟩
      simp only [hm, if_true, List.cons_append]
      exact congrArg (List.cons x) hpre
    · have hx : x = c := by
        rcases List.mem_cons.mp h with h1 | h1
        · exact h1.symm
        · exact absurd h1 hm
      exact ⟨[], by simp [hm, hx]⟩

theorem spec.splitOn_of_mem (c : Char) (l : List Char) (h : c ∈ l) :
    ∃ first middle, l.splitOn c = first :: (middle ++ [spec.afterLast c l]) := by
  induction l with
  | nil => simp at h
  | cons x xs ih =>
    by_cases hm : c ∈ xs
    · obtain ⟨first, middle, hs⟩ := ih hm
      have hs1 : List.splitOnP (fun y => y == c) xs = first :: (middle ++ [spec.afterLast c xs]) := hs
      by_cases hx : x = c
      · refine ⟨[], first :: middle, ?_⟩
        simp [List.splitOn, List.splitOnP_cons, hx, hs1, spec.afterLast, hm]
      · refine ⟨x :: first, middle, ?_⟩
        simp [List.splitOn, List.splitOnP_cons, hx, hs1, spec.afterLast, hm, List.modifyHead]
    · have hx : x = c := by
        rcases List.mem_cons.mp h with h1 | h1
        · exact h1.symm
        · exact absurd h1 hm
      have hs1 : List.splitOnP (fun y => y == c) xs = [xs] :=
        List.splitOnP_eq_single _ _ (by
          intro y hy hyc
          have : y = c := by simpa using hyc
          exact hm (this ▸ hy))
      refine ⟨[], [], ?_⟩
      simp [List.splitOn, List.splitOnP_cons, hx, hs1, spec.afterLast, hm]

theorem spec.getLast_splitOn (c : Char) (l : List Char) :
    (l.splitOn c).getLast? = some (spec.afterLast c l) := by
  by_cases h : c ∈ l
  · obtain ⟨first, middle, hs⟩ := spec.splitOn_of_mem c l h
    rw [hs, ← List.cons_append, List.getLast?_append]
    simp
  · have hs : l.splitOn c = [l] :=
      List.splitOnP_eq_single _ _ (by
        intro y hy hyc
        have : y = c := by simpa using hyc
        exact h (this ▸ hy))
    rw [hs, spec.afterLast_of_not_mem c l h]
    rfl

theorem golang.index_last {α : Type} (a : List α) :
    golang.index a (golang.len a - 1) = a.getLast? := by
  cases a with
  | nil => simp [golang.index, golang.len]
  | cons x xs =>
    have h0 : (0 : Int) ≤ ((x :: xs).length : Int) - 1 := by
      simp only [List.length_cons]; push_cast; omega
    have h1 : (((x :: xs).length : Int) - 1).toNat = (x :: xs).length - 1 := by
      simp only [List.length_cons]; push_cast; omega
    rw [List.getLast?_eq_getElem?]
    unfold golang.index golang.len
    rw [if_pos h0, h1]

theorem compute.removeUrlPrefix_compute_eq (url : String) :
    compute.removeUrlPrefix url = some (spec.trailingSegment url) := by
  unfold compute.removeUrlPrefix
  rw [golang.index_last]
  unfold strings.Split
  rw [List.getLast?_map, spec.getLast_splitOn]
  rfl

theorem network.removeUrlPrefix_network_eq (url : String) :
    network.removeUrlPrefix url = some (spec.trailingSegment url) := by
  unfold network.removeUrlPrefix
  rw [golang.index_last]
  unfold strings.Split
  rw [List.getLast?_map, spec.getLast_splitOn]
  rfl

/-! ## Lemmas on loops, paging and the fan-in -/

theorem golang.foldlM_rows {α β : Type} (f : List β → α → Option (List β)) (h : α → List β)
    (hf : ∀ acc x, f acc x = some (acc ++ h x)) (xs : List α) (init : List β) :
    xs.foldlM f init = some (init ++ xs.flatMap h) := by
  induction xs generalizing init with
  | nil => simp
  | cons x xs ih => simp [List.foldlM_cons, hf, ih, List.append_assoc]

theorem golang.foldlM_row {α β : Type} (f : List β → α → Option (List β)) (g : α → β)
    (hf : ∀ acc x, f acc x = some (acc ++ [g x])) (xs : List α) (init : List β) :
    xs.foldlM f init = some (init ++ xs.map g) := by
  induction xs generalizing init with
  | nil => simp
  | cons x xs ih => simp [List.foldlM_cons, hf, ih, List.append_assoc]

theorem golang.foldl_row {α β : Type} (g : α → β) (xs : List α) (init : List β) :
    xs.foldl (fun acc x => acc ++ [g x]) init = init ++ xs.map g := by
  induction xs generalizing init with
  | nil => simp
  | cons x xs ih => simp [ih, List.append_assoc]

theorem api.Pages_rows {β ρ : Type} (f : β → List ρ → Option (List ρ × Option String))
    (h : β → List ρ) (hf : ∀ page s, f page s = some (s ++ h page, none))
    (listing : api.Paged β) (s : List ρ) :
    listing.Pages f s = some (s ++ (spec.delivered listing).flatMap h, spec.failure listing) := by
  induction listing generalizing s with
  | fail err => simp [api.Paged.Pages, spec.delivered, spec.failure]
  | last page => simp [api.Paged.Pages, spec.delivered, spec.failure, hf]
  | more page rest ih =>
    simp [api.Paged.Pages, spec.delivered, spec.failure, hf, ih, List.append_assoc]

theorem golang.getElem_cons_eraseIdx_perm {α : Type} (l : List α) (i : Nat) (y : α)
    (h : l[i]? = some y) : (y :: l.eraseIdx i).Perm l := by
  induction l generalizing i with
  | nil => simp at h
  | cons x xs ih =>
    cases i with
    | zero =>
      have hx : x = y := by simpa using h
      simp [hx]
    | succ j =>
      have hj : xs[j]? = some y := by simpa using h
      have h1 : (y :: xs.eraseIdx j).Perm xs := ih j hj
      have h2 : (y :: x :: xs.eraseIdx j).Perm (x :: y :: xs.eraseIdx j) := List.Perm.swap x y _
      exact h2.trans (List.Perm.cons x h1)

theorem golang.completionOrder_perm {α : Type} (sched : List Nat) (xs : List α) :
    (golang.completionOrder sched xs).Perm xs := by
  induction sched generalizing xs with
  | nil => cases xs <;> simp [golang.completionOrder]
  | cons k ks ih =>
    cases xs with
    | nil => simp [golang.completionOrder]
    | cons x xs =>
      unfold golang.completionOrder
      cases hy : (x :: xs)[k % (xs.length + 1)]? with
      | none => exact List.Perm.refl _
      | some y =>
        exact (List.Perm.cons y (ih _)).trans (golang.getElem_cons_eraseIdx_perm _ _ _ hy)

theorem golang.completionOrder_onto {α : Type} (order xs : List α) (h : order.Perm xs) :
    ∃ sched, golang.completionOrder sched xs = order := by
  induction order generalizing xs with
  | nil =>
    have hx : xs = [] := List.Perm.eq_nil h.symm
    exact ⟨[], by simp [golang.completionOrder, hx]⟩
  | cons y rest ih =>
    have hy : y ∈ xs := h.subset (List.mem_cons_self y rest)
    obtain ⟨i, hi, hget⟩ := List.getElem_of_mem hy
    cases xs with
    | nil => simp at hy
    | cons x xs =>
      have hi1 : i < xs.length + 1 := by simpa using hi
      have hsome : (x :: xs)[i]? = some y := by
        rw [List.getElem?_eq_getElem hi, hget]
      have hp : (y :: (x :: xs).eraseIdx i).Perm (x :: xs) :=
        golang.getElem_cons_eraseIdx_perm _ _ _ hsome
      have hrest : rest.Perm ((x :: xs).eraseIdx i) :=
        List.Perm.cons_inv (h.trans hp.symm)
      obtain ⟨ks, hks⟩ := ih _ hrest
      refine ⟨i :: ks, ?_⟩
      unfold golang.completionOrder
      rw [Nat.mod_eq_of_lt hi1, hsome]
      simp [hks]

theorem golang.fanIn_eq {α : Type} (sched : List Nat) (projects : List α)
    (goroutine : α → Option (List (List String))) (rows : α → List (List String))
    (hg : ∀ p, goroutine p = some (rows p)) (inventory : List (List String)) :
    golang.fanIn sched projects goroutine inventory =
      some (inventory ++ (golang.completionOrder sched projects).flatMap rows) := by
  unfold golang.fanIn
  exact golang.foldlM_rows _ rows (by intro acc p; simp [hg]) _ _

/-! ## What each goroutine computes -/

theorem compute.compute_goroutine_eq (ctx : api.Context) (service : api.Service) (zones : config.Zones)
    (projectId : project.Project) :
    compute.GetComputeInventory.goroutine ctx service zones projectId =
      some (spec.computeBuffer ctx service zones projectId) := by
  unfold compute.GetComputeInventory.goroutine spec.computeBuffer
  rw [golang.foldlM_rows _ (spec.computeZoneRows ctx service projectId)]
  · simp
  · intro acc zone
    unfold spec.computeZoneRows
    cases (service.InstancesList projectId.ID zone).Do with
    | error e => simp
    | ok instances =>
      simp only
      exact golang.foldlM_row _ _ (by
        intro acc inst
        simp [compute.removeUrlPrefix_compute_eq, spec.instanceRow]) _ _

theorem network.removeUrlPrefixes_eq (urls : List String) :
    network.removeUrlPrefixes urls = some (urls.map spec.trailingSegment) := by
  unfold network.removeUrlPrefixes
  rw [golang.foldlM_row _ spec.trailingSegment (by
    intro acc url
    simp [network.removeUrlPrefix_network_eq])]
  simp

theorem network.vpc_page_eq (projectId : project.Project) (region : String)
    (page : api.SubnetworkList) (s : List (List String)) :
    network.GetVPCInventory.page projectId region page s =
      some (s ++ page.Items.map (spec.subnetworkRow projectId region), none) := by
  unfold network.GetVPCInventory.page
  rw [golang.foldlM_row _ (spec.subnetworkRow projectId region) (by
    intro acc subnetwork
    simp [network.removeUrlPrefix_network_eq, spec.subnetworkRow])]
  rfl

theorem network.vpc_goroutine_eq (service : api.Service) (regions : config.Regions)
    (projectId : project.Project) :
    network.GetVPCInventory.goroutine service regions projectId =
      some (regions.flatMap (fun region =>
        spec.subnetworkRows projectId region
          (spec.delivered (service.SubnetworksList projectId.ID region)))) := by
  unfold network.GetVPCInventory.goroutine
  rw [golang.foldlM_rows _ (fun region =>
    spec.subnetworkRows projectId region
      (spec.delivered (service.SubnetworksList projectId.ID region)))]
  · simp
  · intro acc region
    rw [api.Pages_rows _ _ (network.vpc_page_eq projectId region)]
    rfl

theorem network.ip_zoneLoop_eq (service : api.Service) (zones : config.Zones)
    (projectId : project.Project) (s : List (List String)) :
    network.GetIPAddressInventory.zoneLoop service zones projectId s =
      some (s ++ zones.flatMap (network.GetIPAddressInventory.zoneRows service projectId)) := by
  unfold network.GetIPAddressInventory.zoneLoop
  refine golang.foldlM_rows _ (network.GetIPAddressInventory.zoneRows service projectId) ?_ _ _
  intro acc zone
  unfold network.GetIPAddressInventory.zoneRows
  cases (service.InstancesList projectId.ID zone).Do with
  | error e => simp
  | ok instances =>
    simp only
    refine golang.foldlM_rows _ _ ?_ _ _
    intro acc inst
    exact golang.foldlM_row _ (spec.interfaceRow projectId zone inst) (by
      intro acc networkInterface
      simp [network.removeUrlPrefix_network_eq, spec.interfaceRow]) _ _

theorem network.aggregatedRow_eq (projectId : project.Project) (address : api.Address) :
    network.GetIPAddressInventory.aggregatedRow projectId address =
      some (spec.aggregatedAddressRow projectId address) := by
  simp [network.GetIPAddressInventory.aggregatedRow, network.removeUrlPrefix_network_eq,
    network.removeUrlPrefixes_eq, spec.aggregatedAddressRow, spec.usedBy]

theorem network.globalRow_eq (projectId : project.Project) (address : api.Address) :
    network.GetIPAddressInventory.globalRow projectId address =
      some (spec.globalAddressRow projectId address) := by
  simp [network.GetIPAddressInventory.globalRow, network.removeUrlPrefix_network_eq,
    network.removeUrlPrefixes_eq, spec.globalAddressRow, spec.usedBy]

theorem network.aggregatedPage_eq (projectId : project.Project)
    (page : api.AddressAggregatedList) (s : List (List String)) :
    network.GetIPAddressInventory.aggregatedPage projectId page s =
      some (s ++ page.Items.flatMap (fun item =>
        item.Addresses.map (spec.aggregatedAddressRow projectId)), none) := by
  unfold network.GetIPAddressInventory.aggregatedPage
  rw [golang.foldlM_rows _ (fun item =>
    item.Addresses.map (spec.aggregatedAddressRow projectId)) (by
      intro acc item
      exact golang.foldlM_row _ (spec.aggregatedAddressRow projectId) (by
        intro acc address
        simp [network.aggregatedRow_eq]) _ _)]
  rfl

theorem network.globalPage_eq (projectId : project.Project)
    (page : api.AddressList) (s : List (List String)) :
    network.GetIPAddressInventory.globalPage projectId page s =
      some (s ++ page.Items.map (spec.globalAddressRow projectId), none) := by
  unfold network.GetIPAddressInventory.globalPage
  rw [golang.foldlM_row _ (spec.globalAddressRow projectId) (by
    intro acc address
    simp [network.globalRow_eq])]
  rfl

theorem network.ip_goroutine_eq (service : api.Service) (zones : config.Zones)
    (projectId : project.Project) :
    network.GetIPAddressInventory.goroutine service zones projectId =
      some (zones.flatMap (network.GetIPAddressInventory.zoneRows service projectId) ++
        spec.aggregatedAddressRows projectId
          (spec.delivered (service.AddressesAggregatedList projectId.ID)) ++
        spec.globalAddressRows projectId
          (spec.delivered (service.GlobalAddressesList projectId.ID))) := by
  unfold network.GetIPAddressInventory.goroutine
  simp [network.ip_zoneLoop_eq, api.Pages_rows _ _ (network.aggregatedPage_eq projectId),
    api.Pages_rows _ _ (network.globalPage_eq projectId), spec.aggregatedAddressRows,
    spec.globalAddressRows]

theorem network.routes_page_eq (projectId : project.Project)
    (page : api.RouteList) (s : List (List String)) :
    network.GetRoutesInventory.page projectId page s =
      some (s ++ page.Items.map (spec.routeRow projectId), none) := by
  unfold network.GetRoutesInventory.page
  rw [golang.foldlM_row _ (spec.routeRow projectId) (by
    intro acc route
    simp [network.removeUrlPrefix_network_eq, spec.routeRow])]
  rfl

theorem network.routes_goroutine_eq (service : api.Service) (projectId : project.Project) :
    network.GetRoutesInventory.goroutine service projectId =
      some (spec.routeRows projectId (spec.delivered (service.RoutesList projectId.ID))) := by
  unfold network.GetRoutesInventory.goroutine
  rw [api.Pages_rows _ _ (network.routes_page_eq projectId)]
  simp [spec.routeRows]

theorem network.peering_page_eq (projectId : project.Project)
    (page : api.NetworkList) (s : List (List String)) :
    network.GetPreeingInventory.page projectId page s =
      some (s ++ page.Items.flatMap (fun network =>
        network.Peerings.map (spec.peeringRow projectId network)), none) := by
  unfold network.GetPreeingInventory.page
  rw [golang.foldlM_rows _ (fun nw =>
    nw.Peerings.map (spec.peeringRow projectId nw)) (by
      intro acc nw
      exact golang.foldlM_row _ (spec.peeringRow projectId nw) (by
        intro acc peering
        simp [network.removeUrlPrefix_network_eq, spec.peeringRow]) _ _)]
  rfl

theorem network.peering_goroutine_eq (service : api.Service) (projectId : project.Project) :
    network.GetPreeingInventory.goroutine service projectId =
      some (spec.peeringRows projectId (spec.delivered (service.NetworksList projectId.ID))) := by
  unfold network.GetPreeingInventory.goroutine
  rw [api.Pages_rows _ _ (network.peering_page_eq projectId)]
  simp [spec.peeringRows]

theorem network.firewall_page_eq (projectId : project.Project)
    (page : api.FirewallList) (s : List (List String)) :
    network.GetFirewallInventory.page projectId page s =
      some (s ++ page.Items.map (spec.firewallRow projectId), none) := by
  unfold network.GetFirewallInventory.page
  rw [golang.foldlM_row _ (spec.firewallRow projectId) (by
    intro acc route
    simp [network.removeUrlPrefix_network_eq, spec.firewallRow])]
  rfl

theorem network.firewall_goroutine_eq (service : api.Service) (projectId : project.Project) :
    network.GetFirewallInventory.goroutine service projectId =
      some (spec.firewallRows projectId
        (spec.delivered (service.FirewallsList projectId.ID))) := by
  unfold network.GetFirewallInventory.goroutine
  rw [api.Pages_rows _ _ (network.firewall_page_eq projectId)]
  simp [spec.firewallRows]

theorem storage.loop_eq (projectId : project.Project) (it : api.Iterator api.BucketAttrs)
    (s : List (List String)) :
    storage.GetStorageInventory.loop projectId it s =
      s ++ (spec.entries it).map (spec.bucketRow projectId) := by
  induction it generalizing s with
  | done => simp [storage.GetStorageInventory.loop, spec.entries]
  | fail err => simp [storage.GetStorageInventory.loop, spec.entries]
  | item a rest ih =>
    simp [storage.GetStorageInventory.loop, spec.entries, ih, spec.bucketRow]

theorem storage.bucket_goroutine_eq (s : storage.Storage) (projectId : project.Project) :
    storage.GetStorageInventory.goroutine s projectId =
      some ((spec.entries (s.client.Buckets projectId.ID)).map (spec.bucketRow projectId)) := by
  simp [storage.GetStorageInventory.goroutine, storage.loop_eq]

/-! ## What each inventory function returns -/

theorem compute.GetComputeInventory_eq (ctx : api.Context) (service : api.Service)
    (sched : List Nat) (projectsId : List project.Project) (zones : config.Zones)
    (hs : ctx.NewService = .ok service) :
    compute.GetComputeInventory ctx sched projectsId zones =
      some (.ok (compute.computeHeader ::
        (golang.completionOrder sched projectsId).flatMap
          (spec.computeBuffer ctx service zones))) := by
  unfold compute.GetComputeInventory
  rw [hs]
  simp only
  rw [golang.fanIn_eq _ _ _ _ (compute.compute_goroutine_eq ctx service zones)]
  rfl

theorem network.GetVPCInventory_eq (ctx : api.Context) (service : api.Service)
    (sched : List Nat) (projectsId : List project.Project) (regions : config.Regions)
    (hs : ctx.NewService = .ok service) :
    network.GetVPCInventory ctx sched projectsId regions =
      some (.ok (network.networkHeader ::
        (golang.completionOrder sched projectsId).flatMap (fun projectId =>
          regions.flatMap (fun region =>
            spec.subnetworkRows projectId region
              (spec.delivered (service.SubnetworksList projectId.ID region)))))) := by
  unfold network.GetVPCInventory
  rw [hs]
  simp only
  rw [golang.fanIn_eq _ _ _ _ (network.vpc_goroutine_eq service regions)]
  rfl

theorem network.GetIPAddressInventory_eq (ctx : api.Context) (service : api.Service)
    (sched : List Nat) (projectsId : List project.Project) (zones : config.Zones)
    (hs : ctx.NewService = .ok service) :
    network.GetIPAddressInventory ctx sched projectsId zones =
      some (.ok (network.ipAddressHeader ::
        (golang.completionOrder sched projectsId).flatMap (fun projectId =>
          zones.flatMap (network.GetIPAddressInventory.zoneRows service projectId) ++
          spec.aggregatedAddressRows projectId
            (spec.delivered (service.AddressesAggregatedList projectId.ID)) ++
          spec.globalAddressRows projectId
            (spec.delivered (service.GlobalAddressesList projectId.ID))))) := by
  unfold network.GetIPAddressInventory
  rw [hs]
  simp only
  rw [golang.fanIn_eq _ _ _ _ (network.ip_goroutine_eq service zones)]
  rfl

theorem network.GetRoutesInventory_eq (ctx : api.Context) (service : api.Service)
    (sched : List Nat) (projectsId : List project.Project)
    (hs : ctx.NewService = .ok service) :
    network.GetRoutesInventory ctx sched projectsId =
      some (.ok (network.routesHeader ::
        (golang.completionOrder sched projectsId).flatMap (fun projectId =>
          spec.routeRows projectId (spec.delivered (service.RoutesList projectId.ID))))) := by
  unfold network.GetRoutesInventory
  rw [hs]
  simp only
  rw [golang.fanIn_eq _ _ _ _ (network.routes_goroutine_eq service)]
  rfl

theorem network.GetPreeingInventory_eq (ctx : api.Context) (service : api.Service)
    (sched : List Nat) (projectsId : List project.Project)
    (hs : ctx.NewService = .ok service) :
    network.GetPreeingInventory ctx sched projectsId =
      some (.ok (network.peeringHeader ::
        (golang.completionOrder sched projectsId).flatMap (fun projectId =>
          spec.peeringRows projectId (spec.delivered (service.NetworksList projectId.ID))))) := by
  unfold network.GetPreeingInventory
  rw [hs]
  simp only
  rw [golang.fanIn_eq _ _ _ _ (network.peering_goroutine_eq service)]
  rfl

theorem network.GetFirewallInventory_eq (ctx : api.Context) (service : api.Service)
    (sched : List Nat) (projectsId : List project.Project)
    (hs : ctx.NewService = .ok service) :
    network.GetFirewallInventory ctx sched projectsId =
      some (.ok (network.firewallHeader ::
        (golang.completionOrder sched projectsId).flatMap (fun projectId =>
          spec.firewallRows projectId
            (spec.delivered (service.FirewallsList projectId.ID))))) := by
  unfold network.GetFirewallInventory
  rw [hs]
  simp only
  rw [golang.fanIn_eq _ _ _ _ (network.firewall_goroutine_eq service)]
  rfl

theorem storage.GetStorageInventory_eq (s : storage.Storage) (sched : List Nat)
    (projectsId : List project.Project) :
    storage.GetStorageInventory s sched projectsId =
      some (.ok (storage.bucketHeader ::
        (golang.completionOrder sched projectsId).flatMap (fun projectId =>
          (spec.entries (s.client.Buckets projectId.ID)).map (spec.bucketRow projectId)))) := by
  unfold storage.GetStorageInventory
  rw [golang.fanIn_eq _ _ _ _ (storage.bucket_goroutine_eq s)]
  rfl

theorem spec.wellFormed_cons (header : List String) (rows : List (List String))
    (h : ∀ r ∈ rows, r.length = header.length) : spec.WellFormed header (header :: rows) := by
  refine ⟨by simp, ?_⟩
  intro i row hi hrow
  cases i with
  | zero => exact absurd hi (Nat.lt_irrefl 0)
  | succ j =>
    rw [List.getElem?_cons_succ] at hrow
    exact h row (List.mem_iff_getElem?.mpr ⟨j, hrow⟩)

theorem spec.returns_wellFormed (header : List String) (err : Except String api.Service)
    (result : Option (Except String (List (List String))))
    (herr : ∀ e, err = .error e → result = some (.error e))
    (hok : ∀ service, err = .ok service →
      ∃ rows, result = some (.ok (header :: rows)) ∧ ∀ r ∈ rows, r.length = header.length) :
    ∃ r, result = some r ∧ r.toBool = err.toBool ∧
      ∀ t, r = .ok t → spec.WellFormed header t := by
  cases h : err with
  | error e =>
    refine ⟨.error e, herr e h, rfl, ?_⟩
    intro t ht
    cases ht
  | ok service =>
    obtain ⟨rows, hres, hrows⟩ := hok service h
    refine ⟨.ok (header :: rows), hres, rfl, ?_⟩
    intro t ht
    cases ht
    exact spec.wellFormed_cons header rows hrows

theorem spec.computeBuffer_length (ctx : api.Context) (service : api.Service)
    (zones : config.Zones) (projectId : project.Project) :
    ∀ r ∈ spec.computeBuffer ctx service zones projectId, r.length = 10 := by
  intro r hr
  unfold spec.computeBuffer at hr
  obtain ⟨zone, _, hz⟩ := List.mem_flatMap.mp hr
  unfold spec.computeZoneRows at hz
  cases hd : (service.InstancesList projectId.ID zone).Do with
  | error e => simp [hd] at hz
  | ok instances =>
    simp only [hd, List.mem_map] at hz
    obtain ⟨inst, _, rfl⟩ := hz
    rfl

theorem network.zoneRows_length (service : api.Service) (projectId : project.Project)
    (zone : String) : ∀ r ∈ network.GetIPAddressInventory.zoneRows service projectId zone, r.length = 9 := by
  intro r hr
  unfold network.GetIPAddressInventory.zoneRows at hr
  cases hd : (service.InstancesList projectId.ID zone).Do with
  | error e => simp [hd] at hr
  | ok instances =>
    simp only [hd, List.mem_flatMap, List.mem_map] at hr
    obtain ⟨inst, _, ni, _, rfl⟩ := hr
    rfl

/-! ## The claims -/

/-- C1 (header invariant). Each of the seven inventory functions, for every
call context, schedule of the goroutines, project list (the empty one
included), scope list and provider response, returns without a panic; it
returns a table exactly when the service was created (`GetStorageInventory`,
which creates none, always); and whenever it returns a table, row 0 of the
table is the header of its kind and every later row has exactly as many fields
as that header. -/
theorem C1_header_invariant :
    (∀ ctx sched projectsId zones, ∃ r,
      compute.GetComputeInventory ctx sched projectsId zones = some r ∧
      r.toBool = ctx.NewService.toBool ∧
      ∀ t, r = .ok t → spec.WellFormed compute.computeHeader t) ∧
    (∀ ctx sched projectsId regions, ∃ r,
      network.GetVPCInventory ctx sched projectsId regions = some r ∧
      r.toBool = ctx.NewService.toBool ∧
      ∀ t, r = .ok t → spec.WellFormed network.networkHeader t) ∧
    (∀ ctx sched projectsId zones, ∃ r,
      network.GetIPAddressInventory ctx sched projectsId zones = some r ∧
      r.toBool = ctx.NewService.toBool ∧
      ∀ t, r = .ok t → spec.WellFormed network.ipAddressHeader t) ∧
    (∀ ctx sched projectsId, ∃ r,
      network.GetRoutesInventory ctx sched projectsId = some r ∧
      r.toBool = ctx.NewService.toBool ∧
      ∀ t, r = .ok t → spec.WellFormed network.routesHeader t) ∧
    (∀ ctx sched projectsId, ∃ r,
      network.GetPreeingInventory ctx sched projectsId = some r ∧
      r.toBool = ctx.NewService.toBool ∧
      ∀ t, r = .ok t → spec.WellFormed network.peeringHeader t) ∧
    (∀ ctx sched projectsId, ∃ r,
      network.GetFirewallInventory ctx sched projectsId = some r ∧
      r.toBool = ctx.NewService.toBool ∧
      ∀ t, r = .ok t → spec.WellFormed network.firewallHeader t) ∧
    (∀ s sched projectsId, ∃ r,
      storage.GetStorageInventory s sched projectsId = some r ∧
      r.toBool = true ∧
      ∀ t, r = .ok t → spec.WellFormed storage.bucketHeader t) := by
  refine ⟨?_, ?_, ?_, ?_, ?_, ?_, ?_⟩
  · intro ctx sched projectsId zones
    refine spec.returns_wellFormed _ ctx.NewService _ ?_ ?_
    · intro e he
      simp [compute.GetComputeInventory, he]
    · intro service hs
      refine ⟨_, compute.GetComputeInventory_eq ctx service sched projectsId zones hs, ?_⟩
      intro r hr
      obtain ⟨p, _, hp⟩ := List.mem_flatMap.mp hr
      exact spec.computeBuffer_length ctx service zones p r hp
  · intro ctx sched projectsId regions
    refine spec.returns_wellFormed _ ctx.NewService _ ?_ ?_
    · intro e he
      simp [network.GetVPCInventory, he]
    · intro service hs
      refine ⟨_, network.GetVPCInventory_eq ctx service sched projectsId regions hs, ?_⟩
      intro r hr
      simp only [List.mem_flatMap, spec.subnetworkRows, List.mem_map] at hr
      obtain ⟨p, _, region, _, page, _, subnetwork, _, rfl⟩ := hr
      rfl
  · intro ctx sched projectsId zones
    refine spec.returns_wellFormed _ ctx.NewService _ ?_ ?_
    · intro e he
      simp [network.GetIPAddressInventory, he]
    · intro service hs
      refine ⟨_, network.GetIPAddressInventory_eq ctx service sched projectsId zones hs, ?_⟩
      intro r hr
      obtain ⟨p, _, hp⟩ := List.mem_flatMap.mp hr
      rcases List.mem_append.mp hp with h1 | h1
      · rcases List.mem_append.mp h1 with h2 | h2
        · obtain ⟨zone, _, hz⟩ := List.mem_flatMap.mp h2
          exact network.zoneRows_length service p zone r hz
        · simp only [spec.aggregatedAddressRows, List.mem_flatMap, List.mem_map] at h2
          obtain ⟨page, _, item, _, address, _, rfl⟩ := h2
          rfl
      · simp only [spec.globalAddressRows, List.mem_flatMap, List.mem_map] at h1
        obtain ⟨page, _, address, _, rfl⟩ := h1
        rfl
  · intro ctx sched projectsId
    refine spec.returns_wellFormed _ ctx.NewService _ ?_ ?_
    · intro e he
      simp [network.GetRoutesInventory, he]
    · intro service hs
      refine ⟨_, network.GetRoutesInventory_eq ctx service sched projectsId hs, ?_⟩
      intro r hr
      simp only [List.mem_flatMap, spec.routeRows, List.mem_map] at hr
      obtain ⟨p, _, page, _, route, _, rfl⟩ := hr
      rfl
  · intro ctx sched projectsId
    refine spec.returns_wellFormed _ ctx.NewService _ ?_ ?_
    · intro e he
      simp [network.GetPreeingInventory, he]
    · intro service hs
      refine ⟨_, network.GetPreeingInventory_eq ctx service sched projectsId hs, ?_⟩
      intro r hr
      simp only [List.mem_flatMap, spec.peeringRows, List.mem_map] at hr
      obtain ⟨p, _, page, _, nw, _, peering, _, rfl⟩ := hr
      rfl
  · intro ctx sched projectsId
    refine spec.returns_wellFormed _ ctx.NewService _ ?_ ?_
    · intro e he
      simp [network.GetFirewallInventory, he]
    · intro service hs
      refine ⟨_, network.GetFirewallInventory_eq ctx service sched projectsId hs, ?_⟩
      intro r hr
      simp only [List.mem_flatMap, spec.firewallRows, List.mem_map] at hr
      obtain ⟨p, _, page, _, route, _, rfl⟩ := hr
      rfl
  · intro s sched projectsId
    refine ⟨_, storage.GetStorageInventory_eq s sched projectsId, rfl, ?_⟩
    intro t ht
    cases ht
    refine spec.wellFormed_cons _ _ ?_
    intro r hr
    simp only [List.mem_flatMap, List.mem_map] at hr
    obtain ⟨p, _, bucketAttrs, _, rfl⟩ := hr
    rfl

theorem spec.computeBuffer_project (ctx : api.Context) (service : api.Service)
    (zones : config.Zones) (projectId : project.Project) :
    ∀ r ∈ spec.computeBuffer ctx service zones projectId, r[0]? = some projectId.Name := by
  intro r hr
  unfold spec.computeBuffer at hr
  obtain ⟨zone, _, hz⟩ := List.mem_flatMap.mp hr
  unfold spec.computeZoneRows at hz
  cases hd : (service.InstancesList projectId.ID zone).Do with
  | error e => simp [hd] at hz
  | ok instances =>
    simp only [hd, List.mem_map] at hz
    obtain ⟨inst, _, rfl⟩ := hz
    rfl

theorem spec.computeBuffer_of_fail (ctx : api.Context) (service : api.Service)
    (zones : config.Zones) (projectId : project.Project)
    (h : ∀ z ∈ zones, ∃ e, (service.InstancesList projectId.ID z).Do = .error e) :
    spec.computeBuffer ctx service zones projectId = [] := by
  unfold spec.computeBuffer
  rw [List.flatMap_eq_nil_iff]
  intro z hz
  obtain ⟨e, he⟩ := h z hz
  simp [spec.computeZoneRows, he]

/-- C2 (isolation). With the service created and projects A, B, C, for every
zone list and every completion order of the goroutines: if every call that
lists the instances of B fails, `GetComputeInventory` returns a table and a
nil error; the rows after the header are, up to the order of the projects,
exactly the rows A and C produce when run on their own, and (B's name being
different from A's and C's) no row has B's name in its Project field. The
listings of A and C need not be assumed to succeed. -/
theorem C2_isolation (ctx : api.Context) (service : api.Service) (sched : List Nat)
    (zones : config.Zones) (A B C : project.Project)
    (hs : ctx.NewService = .ok service)
    (hB : ∀ z ∈ zones, ∃ e, (service.InstancesList B.ID z).Do = .error e)
    (hAB : B.Name ≠ A.Name) (hCB : B.Name ≠ C.Name) :
    ∃ rowsA rowsC rows,
      compute.GetComputeInventory ctx [] [A] zones =
        some (.ok (compute.computeHeader :: rowsA)) ∧
      compute.GetComputeInventory ctx [] [C] zones =
        some (.ok (compute.computeHeader :: rowsC)) ∧
      compute.GetComputeInventory ctx sched [A, B, C] zones =
        some (.ok (compute.computeHeader :: rows)) ∧
      rows.Perm (rowsA ++ rowsC) ∧
      (∀ r ∈ rowsA ++ rowsC, r ∈ rows) ∧
      (∀ r ∈ rows, r[0]? ≠ some B.Name) := by
  have hperm : ((golang.completionOrder sched [A, B, C]).flatMap
      (spec.computeBuffer ctx service zones)).Perm
      (spec.computeBuffer ctx service zones A ++ spec.computeBuffer ctx service zones C) := by
    have h1 := List.Perm.flatMap_right (spec.computeBuffer ctx service zones)
      (golang.completionOrder_perm sched [A, B, C])
    simpa [spec.computeBuffer_of_fail ctx service zones B hB] using h1
  refine ⟨spec.computeBuffer ctx service zones A, spec.computeBuffer ctx service zones C,
    (golang.completionOrder sched [A, B, C]).flatMap (spec.computeBuffer ctx service zones),
    ?_, ?_, compute.GetComputeInventory_eq ctx service sched [A, B, C] zones hs, hperm, ?_, ?_⟩
  · rw [compute.GetComputeInventory_eq ctx service [] [A] zones hs]
    simp [golang.completionOrder]
  · rw [compute.GetComputeInventory_eq ctx service [] [C] zones hs]
    simp [golang.completionOrder]
  · intro r hr
    exact hperm.symm.subset hr
  · intro r hr hB0
    have hr1 := hperm.subset hr
    rcases List.mem_append.mp hr1 with h | h
    · rw [spec.computeBuffer_project ctx service zones A r h] at hB0
      exact hAB (Option.some.inj hB0).symm
    · rw [spec.computeBuffer_project ctx service zones C r h] at hB0
      exact hCB (Option.some.inj hB0).symm

/-- Witness of C2 on the sample provider: project "pb" fails in both zones,
"pa" and "pc" have instances, and the goroutines finish in the order C, A, B. -/
theorem C2_isolation_witness :
    ∃ rowsA rowsC rows,
      compute.GetComputeInventory sample.ctx [] [sample.pa] ["zone-a", "zone-b"] =
        some (.ok (compute.computeHeader :: rowsA)) ∧
      compute.GetComputeInventory sample.ctx [] [sample.pc] ["zone-a", "zone-b"] =
        some (.ok (compute.computeHeader :: rowsC)) ∧
      compute.GetComputeInventory sample.ctx [2, 0] [sample.pa, sample.pb, sample.pc]
        ["zone-a", "zone-b"] = some (.ok (compute.computeHeader :: rows)) ∧
      rows.Perm (rowsA ++ rowsC) ∧
      (∀ r ∈ rowsA ++ rowsC, r ∈ rows) ∧
      (∀ r ∈ rows, r[0]? ≠ some sample.pb.Name) :=
  C2_isolation sample.ctx sample.service [2, 0] ["zone-a", "zone-b"] sample.pa sample.pb
    sample.pc rfl (fun _ _ => ⟨"permission denied", rfl⟩) (by decide) (by decide)

/-- C3, counterexample. On the sample provider the subnetwork listing of
(pa, r1) delivers one page and then fails, and the bucket iterator of pa
delivers one bucket and then fails; both calls return no error, but the tables
do contain the row delivered before the failure, not zero rows from the failed
listing. -/
theorem C3_rows_before_failure_are_kept :
    spec.failure (sample.service.SubnetworksList sample.pa.ID "r1") = some "backend error" ∧
    network.GetVPCInventory sample.ctx [] [sample.pa] ["r1"] =
      some (.ok [network.networkHeader,
        ["Project A", "r1", "default", "sub-1", "10.0.0.0/24", "10.0.0.1", "2023-01-01"]]) ∧
    spec.iteratorFailure (sample.store.client.Buckets sample.pa.ID) = some "backend error" ∧
    storage.GetStorageInventory sample.store [] [sample.pa] =
      some (.ok [storage.bucketHeader,
        ["Project A", "bucket-1", "US", "STANDARD", "2023-01-01 00:00:00 +0000 UTC"]]) :=
  ⟨rfl, rfl, rfl, rfl⟩

/-- C3, amended. With the service created, every inventory function that
lists through a paged request or an iterator returns a table and no error,
whatever listing fails and wherever; what a (project, scope) listing
contributes is exactly the rows of the pages (bucket entries) delivered before
it ended or failed, in delivery order. A listing whose first request fails
delivers no page (no entry) and so contributes zero rows; a listing that fails
after a page (an entry) keeps that page (entry) and what was delivered between
it and the failure. -/
theorem C3_failed_listing_keeps_delivered_pages (ctx : api.Context) (service : api.Service)
    (s : storage.Storage) (sched : List Nat) (projectsId : List project.Project)
    (regions : config.Regions) (zones : config.Zones)
    (hs : ctx.NewService = .ok service) :
    network.GetVPCInventory ctx sched projectsId regions =
      some (.ok (network.networkHeader ::
        (golang.completionOrder sched projectsId).flatMap (fun projectId =>
          regions.flatMap (fun region =>
            spec.subnetworkRows projectId region
              (spec.delivered (service.SubnetworksList projectId.ID region)))))) ∧
    network.GetIPAddressInventory ctx sched projectsId zones =
      some (.ok (network.ipAddressHeader ::
        (golang.completionOrder sched projectsId).flatMap (fun projectId =>
          zones.flatMap (network.GetIPAddressInventory.zoneRows service projectId) ++
          spec.aggregatedAddressRows projectId
            (spec.delivered (service.AddressesAggregatedList projectId.ID)) ++
          spec.globalAddressRows projectId
            (spec.delivered (service.GlobalAddressesList projectId.ID))))) ∧
    network.GetRoutesInventory ctx sched projectsId =
      some (.ok (network.routesHeader ::
        (golang.completionOrder sched projectsId).flatMap (fun projectId =>
          spec.routeRows projectId (spec.delivered (service.RoutesList projectId.ID))))) ∧
    network.GetPreeingInventory ctx sched projectsId =
      some (.ok (network.peeringHeader ::
        (golang.completionOrder sched projectsId).flatMap (fun projectId =>
          spec.peeringRows projectId (spec.delivered (service.NetworksList projectId.ID))))) ∧
    network.GetFirewallInventory ctx sched projectsId =
      some (.ok (network.firewallHeader ::
        (golang.completionOrder sched projectsId).flatMap (fun projectId =>
          spec.firewallRows projectId
            (spec.delivered (service.FirewallsList projectId.ID))))) ∧
    storage.GetStorageInventory s sched projectsId =
      some (.ok (storage.bucketHeader ::
        (golang.completionOrder sched projectsId).flatMap (fun projectId =>
          (spec.entries (s.client.Buckets projectId.ID)).map (spec.bucketRow projectId)))) ∧
    (∀ (β : Type) (err : String), spec.delivered (.fail err : api.Paged β) = []) ∧
    (∀ (β : Type) (page : β) (rest : api.Paged β),
      spec.delivered (.more page rest) = page :: spec.delivered rest ∧
      spec.delivered (.last page) = [page]) ∧
    (∀ (α : Type) (err : String), spec.entries (.fail err : api.Iterator α) = []) ∧
    (∀ (α : Type) (a : α) (rest : api.Iterator α),
      spec.entries (.item a rest) = a :: spec.entries rest) ∧
    (∀ (projectId : project.Project) (region err : String),
      spec.subnetworkRows projectId region (spec.delivered (.fail err)) = [] ∧
      spec.aggregatedAddressRows projectId (spec.delivered (.fail err)) = [] ∧
      spec.globalAddressRows projectId (spec.delivered (.fail err)) = [] ∧
      spec.routeRows projectId (spec.delivered (.fail err)) = [] ∧
      spec.peeringRows projectId (spec.delivered (.fail err)) = [] ∧
      spec.firewallRows projectId (spec.delivered (.fail err)) = [] ∧
      (spec.entries (.fail err : api.Iterator api.BucketAttrs)).map
        (spec.bucketRow projectId) = []) := by
  refine ⟨network.GetVPCInventory_eq ctx service sched projectsId regions hs,
    network.GetIPAddressInventory_eq ctx service sched projectsId zones hs,
    network.GetRoutesInventory_eq ctx service sched projectsId hs,
    network.GetPreeingInventory_eq ctx service sched projectsId hs,
    network.GetFirewallInventory_eq ctx service sched projectsId hs,
    storage.GetStorageInventory_eq s sched projectsId, ?_, ?_, ?_, ?_, ?_⟩
  · intro β err
    rfl
  · intro β page rest
    exact ⟨rfl, rfl⟩
  · intro α err
    rfl
  · intro α a rest
    rfl
  · intro projectId region err
    exact ⟨rfl, rfl, rfl, rfl, rfl, rfl, rfl⟩

/-- Witness of the amended C3 on the sample provider, whose route listing
delivers one page (one route) and then fails: the table keeps the row of that
route. -/
theorem C3_failed_listing_keeps_delivered_pages_witness :
    spec.failure (sample.service.RoutesList sample.pa.ID) = some "backend error" ∧
    spec.delivered (sample.service.RoutesList sample.pa.ID) = [⟨[sample.route1]⟩] ∧
    (golang.completionOrder [] [sample.pa]).flatMap (fun projectId =>
      spec.routeRows projectId (spec.delivered (sample.service.RoutesList projectId.ID))) =
      [spec.routeRow sample.pa sample.route1] ∧
    network.GetRoutesInventory sample.ctx [] [sample.pa] =
      some (.ok (network.routesHeader ::
        (golang.completionOrder [] [sample.pa]).flatMap (fun projectId =>
          spec.routeRows projectId
            (spec.delivered (sample.service.RoutesList projectId.ID))))) :=
  ⟨rfl, rfl, rfl, (C3_failed_listing_keeps_delivered_pages sample.ctx sample.service
    sample.store [] [sample.pa] ["r1"] ["zone-a"] rfl).2.2.1⟩

/-- C4, the code at the failing input. On the sample provider the instance
listing of (pa, zone-a) has two pages (vm-1, then vm-2) and the machine-type
listing has two pages (n1-standard-1, then e2-medium). `GetComputeInventory`
has a row for vm-1 only, with empty CPU and memory although e2-medium is in
the provider's catalogue, and `GetIPAddressInventory` has the interface of
vm-1 only: the `Do()` calls read the first page and nothing else. -/
theorem C4_do_reads_only_the_first_page :
    spec.laterPages (sample.service.InstancesList sample.pa.ID "zone-a") = [⟨[sample.vm2]⟩] ∧
    spec.laterPages (sample.service.MachineTypesList sample.pa.ID "zone-a") =
      [⟨[⟨"e2-medium", 2, 4096⟩]⟩] ∧
    compute.GetComputeInventory sample.ctx [] [sample.pa] ["zone-a"] =
      some (.ok [compute.computeHeader,
        ["Project A", "zone-a", "vm-1", "RUNNING", "e2-medium", "", "", "10.0.0.2",
          "10GB, 200GB", "2023-01-01"]]) ∧
    (compute.FetchMachineTypes sample.ctx sample.pa.ID "zone-a").GetCPU "e2-medium" = "" ∧
    (compute.FetchMachineTypes sample.ctx sample.pa.ID "zone-a").GetCPU "n1-standard-1" = "1" ∧
    network.GetIPAddressInventory sample.ctx [] [sample.pa] ["zone-a"] =
      some (.ok [network.ipAddressHeader,
        ["Project A", "zone-a", "nic0", "10.0.0.2", "default", "sub-1", "INTERNAL", "vm-1",
          "2023-01-01"],
        ["Project A", "r1", "addr-1", "34.1.2.3", "", "", "EXTERNAL", "vm-1,fr-1",
          "2023-03-03"],
        ["Project A", "global", "addr-2", "35.4.5.6", "default", "", "INTERNAL", "",
          "2023-04-04"]]) :=
  ⟨rfl, rfl, rfl, rfl, rfl, rfl⟩

theorem spec.computeZoneRows_of_fail (ctx : api.Context) (service : api.Service)
    (projectId : project.Project) (zone : String)
    (h : (service.InstancesList projectId.ID zone).Do.toBool = false) :
    spec.computeZoneRows ctx service projectId zone = [] := by
  unfold spec.computeZoneRows
  cases hd : (service.InstancesList projectId.ID zone).Do with
  | error e => rfl
  | ok instances => simp [hd, Except.toBool] at h

theorem spec.flatMap_filter_nonempty {α β : Type} (keep : α → Bool) (f : α → List β)
    (h : ∀ x, keep x = false → f x = []) (xs : List α) :
    (xs.filter keep).flatMap f = xs.flatMap f := by
  induction xs with
  | nil => rfl
  | cons x xs ih =>
    cases hk : keep x with
    | true => simp [List.filter_cons, hk, ih]
    | false => simp [List.filter_cons, hk, ih, h x hk]

/-- C5 (a zone failure stays in its zone). For every project and zone list,
the goroutine of `GetComputeInventory` ends with, as the project's rows,
exactly the rows of the zones whose instance listing succeeded, in zone order;
the rows of one zone are those the goroutine produces for that zone alone,
none for a failed listing and one per returned instance otherwise. In
particular a failure in zone `zi` leaves the rows of the zones before and
after it in place, and with the service created the table for that project is
the header followed by these rows. -/
theorem C5_zone_failure_skips_only_that_zone (ctx : api.Context) (service : api.Service)
    (zones : config.Zones) (projectId : project.Project) :
    compute.GetComputeInventory.goroutine ctx service zones projectId =
      some ((zones.filter (fun z => (service.InstancesList projectId.ID z).Do.toBool)).flatMap
        (spec.computeZoneRows ctx service projectId)) ∧
    (∀ z, compute.GetComputeInventory.goroutine ctx service [z] projectId =
      some (spec.computeZoneRows ctx service projectId z)) ∧
    (∀ z e, (service.InstancesList projectId.ID z).Do = .error e →
      spec.computeZoneRows ctx service projectId z = []) ∧
    (∀ z instances, (service.InstancesList projectId.ID z).Do = .ok instances →
      spec.computeZoneRows ctx service projectId z =
        instances.Items.map
          (spec.instanceRow (compute.FetchMachineTypes ctx projectId.ID z) projectId z)) ∧
    (∀ before zi after e, zones = before ++ zi :: after →
      (service.InstancesList projectId.ID zi).Do = .error e →
      compute.GetComputeInventory.goroutine ctx service zones projectId =
        some (before.flatMap (spec.computeZoneRows ctx service projectId) ++
          after.flatMap (spec.computeZoneRows ctx service projectId))) ∧
    (∀ sched, ctx.NewService = .ok service →
      compute.GetComputeInventory ctx sched [projectId] zones =
        some (.ok (compute.computeHeader ::
          (zones.filter (fun z => (service.InstancesList projectId.ID z).Do.toBool)).flatMap
            (spec.computeZoneRows ctx service projectId)))) := by
  have hfilter : (zones.filter (fun z => (service.InstancesList projectId.ID z).Do.toBool)).flatMap
      (spec.computeZoneRows ctx service projectId) = spec.computeBuffer ctx service zones projectId :=
    spec.flatMap_filter_nonempty _ _
      (fun z hz => spec.computeZoneRows_of_fail ctx service projectId z hz) zones
  refine ⟨?_, ?_, ?_, ?_, ?_, ?_⟩
  · rw [compute.compute_goroutine_eq, hfilter]
  · intro z
    rw [compute.compute_goroutine_eq]
    simp [spec.computeBuffer]
  · intro z e he
    simp [spec.computeZoneRows, he]
  · intro z instances hi
    simp [spec.computeZoneRows, hi]
  · intro before zi after e hz he
    rw [compute.compute_goroutine_eq, hz]
    simp [spec.computeBuffer, spec.computeZoneRows, he]
  · intro sched hs
    rw [compute.GetComputeInventory_eq ctx service sched [projectId] zones hs, hfilter]
    have hone : golang.completionOrder sched [projectId] = [projectId] :=
      List.perm_singleton.mp (golang.completionOrder_perm sched [projectId])
    simp [hone]

theorem spec.computeBuffer_count (ctx : api.Context) (service : api.Service)
    (zones : config.Zones) (projectId : project.Project) :
    (spec.computeBuffer ctx service zones projectId).length =
      compute.GetComputeInventory.instancesReturned service zones projectId := by
  unfold spec.computeBuffer compute.GetComputeInventory.instancesReturned
  rw [List.length_flatMap]
  congr 1
  apply List.map_congr_left
  intro zone _
  simp only [Function.comp, spec.computeZoneRows]
  cases (service.InstancesList projectId.ID zone).Do with
  | error e => rfl
  | ok instances => simp

theorem spec.sum_map_const {α : Type} (f : α → Nat) (R : Nat) (xs : List α)
    (h : ∀ x ∈ xs, f x = R) : (xs.map f).sum = xs.length * R := by
  induction xs with
  | nil => simp
  | cons x xs ih =>
    have hx : f x = R := h x (List.mem_cons_self x xs)
    have hxs : (xs.map f).sum = xs.length * R := ih (fun y hy => h y (List.mem_cons_of_mem x hy))
    simp only [List.map_cons, List.sum_cons, List.length_cons, hx, hxs]
    ring

/-- Row count of the compute table in terms of what the `Do()` calls return.
With the service created, if for each of the N projects the
`Instances.List(...).Do()` calls return exactly R instances in total over the
zones (a failed call returns none), then for every completion order of the
goroutines the call returns a table and a nil error, and the table has exactly
1 + N*R rows; for the empty project list the table is exactly
`[computeHeader]`. -/
theorem compute.row_count_of_returned_instances (ctx : api.Context) (service : api.Service)
    (sched : List Nat)
    (projectsId : List project.Project) (zones : config.Zones) (R : Nat)
    (hs : ctx.NewService = .ok service)
    (hR : ∀ p ∈ projectsId, compute.GetComputeInventory.instancesReturned service zones p = R) :
    (∃ t, compute.GetComputeInventory ctx sched projectsId zones = some (.ok t) ∧
      t.length = 1 + projectsId.length * R) ∧
    compute.GetComputeInventory ctx sched [] zones = some (.ok [compute.computeHeader]) := by
  constructor
  · refine ⟨_, compute.GetComputeInventory_eq ctx service sched projectsId zones hs, ?_⟩
    have hperm := golang.completionOrder_perm sched projectsId
    rw [List.length_cons, List.length_flatMap,
      spec.sum_map_const _ R _ (by
        intro p hp
        simp only [Function.comp]
        rw [spec.computeBuffer_count]
        exact hR p (hperm.subset hp)),
      hperm.length_eq]
    omega
  · rw [compute.GetComputeInventory_eq ctx service sched [] zones hs]
    cases sched <;> simp [golang.completionOrder]

/-- C6, the code at the failing input. On the sample provider no instance
listing of the projects pa and pc fails and each delivers two pages of one
instance, so over the zones zone-a and zone-b each of the N = 2 projects
yields R = 4 instances in total and the claim gives 1 + 2*4 = 9 rows. For
every completion order `GetComputeInventory` returns a table of 5 rows, the
header and one row per first page: the four instances of the second pages have
no row. For the empty project list the table is `[computeHeader]`, as
claimed. -/
theorem C6_instances_of_later_pages_are_not_counted :
    (∀ p ∈ [sample.pa, sample.pc], ∀ zone ∈ ["zone-a", "zone-b"],
      spec.failure (sample.service.InstancesList p.ID zone) = none ∧
      spec.listedInstances (sample.service.InstancesList p.ID zone) =
        [sample.vm1, sample.vm2]) ∧
    (∀ p ∈ [sample.pa, sample.pc],
      spec.instancesYielded sample.service ["zone-a", "zone-b"] p = 4) ∧
    compute.GetComputeInventory sample.ctx [] [sample.pa, sample.pc] ["zone-a", "zone-b"] =
      some (.ok [compute.computeHeader,
        ["Project A", "zone-a", "vm-1", "RUNNING", "e2-medium", "", "", "10.0.0.2",
          "10GB, 200GB", "2023-01-01"],
        ["Project A", "zone-b", "vm-1", "RUNNING", "e2-medium", "", "", "10.0.0.2",
          "10GB, 200GB", "2023-01-01"],
        ["Project C", "zone-a", "vm-1", "RUNNING", "e2-medium", "", "", "10.0.0.2",
          "10GB, 200GB", "2023-01-01"],
        ["Project C", "zone-b", "vm-1", "RUNNING", "e2-medium", "", "", "10.0.0.2",
          "10GB, 200GB", "2023-01-01"]]) ∧
    (∀ sched : List Nat, ∃ table,
      compute.GetComputeInventory sample.ctx sched [sample.pa, sample.pc]
        ["zone-a", "zone-b"] = some (.ok table) ∧
      table.length = 5 ∧ table.length ≠ 1 + [sample.pa, sample.pc].length * 4) ∧
    (∀ sched : List Nat,
      compute.GetComputeInventory sample.ctx sched [] ["zone-a", "zone-b"] =
        some (.ok [compute.computeHeader])) := by
  refine ⟨?_, ?_, rfl, ?_, ?_⟩
  · intro p hp zone hz
    simp only [List.mem_cons, List.mem_singleton, List.not_mem_nil, or_false] at hp hz
    rcases hp with h | h <;> rcases hz with h1 | h1 <;> subst h <;> subst h1 <;> exact ⟨rfl, rfl⟩
  · intro p hp
    simp only [List.mem_cons, List.mem_singleton, List.not_mem_nil, or_false] at hp
    rcases hp with h | h <;> subst h <;> rfl
  · intro sched
    obtain ⟨table, ht, hlen⟩ := (compute.row_count_of_returned_instances sample.ctx
      sample.service sched [sample.pa, sample.pc] ["zone-a", "zone-b"] 2 rfl (by
        intro p hp
        simp only [List.mem_cons, List.mem_singleton, List.not_mem_nil, or_false] at hp
        rcases hp with h | h <;> subst h <;> rfl)).1
    refine ⟨table, ht, ?_, ?_⟩
    · rw [hlen]
      rfl
    · rw [hlen]
      decide
  · intro sched
    exact (compute.row_count_of_returned_instances sample.ctx sample.service sched []
      ["zone-a", "zone-b"] 0 rfl (by simp)).2

/-- Order of the compute table. With the service created, the table
`GetComputeInventory` returns is `computeHeader` followed by the concatenation
of the projects' local buffers in the completion order of the goroutines; that
order is a permutation of the project list and every permutation of the
project list is the completion order of some schedule. The local buffer of a
project is what its goroutine computes; it is the concatenation over the zones
in configuration order of one row per instance of the one page the `Do()` call
of the zone returns, in provider-return order (no row for a zone whose call
fails), and the schedule does not occur in it. -/
theorem compute.table_is_header_then_buffers (ctx : api.Context) (service : api.Service)
    (sched : List Nat) (projectsId : List project.Project) (zones : config.Zones)
    (hs : ctx.NewService = .ok service) :
    compute.GetComputeInventory ctx sched projectsId zones =
      some (.ok (compute.computeHeader ::
        (golang.completionOrder sched projectsId).flatMap
          (spec.computeBuffer ctx service zones))) ∧
    (golang.completionOrder sched projectsId).Perm projectsId ∧
    (∀ order : List project.Project, order.Perm projectsId →
      ∃ sched1, compute.GetComputeInventory ctx sched1 projectsId zones =
        some (.ok (compute.computeHeader ::
          order.flatMap (spec.computeBuffer ctx service zones)))) ∧
    (∀ p, compute.GetComputeInventory.goroutine ctx service zones p =
      some (spec.computeBuffer ctx service zones p)) ∧
    (∀ p, spec.computeBuffer ctx service zones p =
      zones.flatMap (fun zone =>
        match (service.InstancesList p.ID zone).Do with
        | .error _ => []
        | .ok instances =>
          instances.Items.map
            (spec.instanceRow (compute.FetchMachineTypes ctx p.ID zone) p zone))) := by
  refine ⟨compute.GetComputeInventory_eq ctx service sched projectsId zones hs,
    golang.completionOrder_perm sched projectsId, ?_,
    compute.compute_goroutine_eq ctx service zones, fun p => rfl⟩
  intro order horder
  obtain ⟨sched1, h1⟩ := golang.completionOrder_onto order projectsId horder
  exact ⟨sched1, by rw [compute.GetComputeInventory_eq ctx service sched1 projectsId zones hs, h1]⟩

/-- C7, the code at the failing input. On the sample provider the instance
listing of (pa, zone-a) does not fail and returns vm-1 and then, on its second
page, vm-2, so the local buffer the claim describes for pa has a row for vm-1
followed by a row for vm-2. The goroutine of pa builds a buffer with the row
of vm-1 only, and for every completion order the table `GetComputeInventory`
returns is `computeHeader` followed by that one row: no row of the table is
the row of vm-2. The order claimed is kept: with projects pa, pb, pc finishing
in the order pc, pa, pb the table is the header, the buffer of pc, then the
buffer of pa. -/
theorem C7_local_buffer_lacks_later_pages :
    spec.failure (sample.service.InstancesList sample.pa.ID "zone-a") = none ∧
    spec.listedInstances (sample.service.InstancesList sample.pa.ID "zone-a") =
      [sample.vm1, sample.vm2] ∧
    spec.listedComputeRows sample.ctx sample.service ["zone-a"] sample.pa =
      [["Project A", "zone-a", "vm-1", "RUNNING", "e2-medium", "", "", "10.0.0.2",
          "10GB, 200GB", "2023-01-01"],
        ["Project A", "zone-a", "vm-2", "TERMINATED", "n1-standard-1", "1", "3840",
          "10.0.0.3", "", "2023-02-02"]] ∧
    compute.GetComputeInventory.goroutine sample.ctx sample.service ["zone-a"] sample.pa =
      some [["Project A", "zone-a", "vm-1", "RUNNING", "e2-medium", "", "", "10.0.0.2",
        "10GB, 200GB", "2023-01-01"]] ∧
    (∀ sched : List Nat,
      compute.GetComputeInventory sample.ctx sched [sample.pa] ["zone-a"] =
        some (.ok [compute.computeHeader,
          ["Project A", "zone-a", "vm-1", "RUNNING", "e2-medium", "", "", "10.0.0.2",
            "10GB, 200GB", "2023-01-01"]])) ∧
    golang.completionOrder [2, 0] [sample.pa, sample.pb, sample.pc] =
      [sample.pc, sample.pa, sample.pb] ∧
    compute.GetComputeInventory sample.ctx [2, 0] [sample.pa, sample.pb, sample.pc] ["zone-a"] =
      some (.ok [compute.computeHeader,
        ["Project C", "zone-a", "vm-1", "RUNNING", "e2-medium", "", "", "10.0.0.2",
          "10GB, 200GB", "2023-01-01"],
        ["Project A", "zone-a", "vm-1", "RUNNING", "e2-medium", "", "", "10.0.0.2",
          "10GB, 200GB", "2023-01-01"]]) := by
  refine ⟨rfl, rfl, rfl, rfl, ?_, rfl, rfl⟩
  intro sched
  rw [(compute.table_is_header_then_buffers sample.ctx sample.service sched [sample.pa]
    ["zone-a"] rfl).1]
  have hone : golang.completionOrder sched [sample.pa] = [sample.pa] :=
    List.perm_singleton.mp (golang.completionOrder_perm sched [sample.pa])
  rw [hone]
  rfl

theorem spec.trailingSegment_idem (x : String) :
    spec.trailingSegment (spec.trailingSegment x) = spec.trailingSegment x := by
  unfold spec.trailingSegment
  simp only
  rw [spec.afterLast_of_not_mem _ _ (spec.not_mem_afterLast '/' x.data)]

/-- C8 (idempotence of normalization). For every string x, both
`removeUrlPrefix` functions (package compute and package network) return a
value y on x without a panic, and applied to y they return y again:
removeUrlPrefix(removeUrlPrefix(x)) = removeUrlPrefix(x). -/
theorem C8_removeUrlPrefix_idempotent (x : String) :
    (∃ y, compute.removeUrlPrefix x = some y ∧ compute.removeUrlPrefix y = some y) ∧
    (∃ y, network.removeUrlPrefix x = some y ∧ network.removeUrlPrefix y = some y) ∧
    (compute.removeUrlPrefix x).bind compute.removeUrlPrefix = compute.removeUrlPrefix x ∧
    (network.removeUrlPrefix x).bind network.removeUrlPrefix = network.removeUrlPrefix x := by
  refine ⟨⟨_, compute.removeUrlPrefix_compute_eq x, ?_⟩, ⟨_, network.removeUrlPrefix_network_eq x, ?_⟩, ?_, ?_⟩
  · rw [compute.removeUrlPrefix_compute_eq, spec.trailingSegment_idem]
  · rw [network.removeUrlPrefix_network_eq, spec.trailingSegment_idem]
  · rw [compute.removeUrlPrefix_compute_eq]
    show compute.removeUrlPrefix (spec.trailingSegment x) = _
    rw [compute.removeUrlPrefix_compute_eq, spec.trailingSegment_idem]
  · rw [network.removeUrlPrefix_network_eq]
    show network.removeUrlPrefix (spec.trailingSegment x) = _
    rw [network.removeUrlPrefix_network_eq, spec.trailingSegment_idem]

/-- C9 (trailing segment). For every string x, the empty string and strings
ending in "/" included, the index `len(strings.Split(x, "/")) - 1` is in range,
so both `removeUrlPrefix` functions return a value r without a panic; r has no
"/"; r is x itself when x has no "/", and otherwise x is some text, then "/",
then r, that is r is the part of x after its last "/". -/
theorem C9_removeUrlPrefix_is_trailing_segment (x : String) :
    0 ≤ golang.len (strings.Split x '/') - 1 ∧
    golang.len (strings.Split x '/') - 1 < golang.len (strings.Split x '/') ∧
    ∃ r, compute.removeUrlPrefix x = some r ∧ network.removeUrlPrefix x = some r ∧
      '/' ∉ r.data ∧
      ('/' ∉ x.data → r = x) ∧
      ('/' ∈ x.data → ∃ before, x.data = before ++ '/' :: r.data) := by
  have hlen : 0 < (strings.Split x '/').length :=
    List.length_pos.mpr (strings.Split_ne_nil x '/')
  refine ⟨?_, ?_, spec.trailingSegment x, compute.removeUrlPrefix_compute_eq x,
    network.removeUrlPrefix_network_eq x, spec.not_mem_afterLast '/' x.data, ?_, ?_⟩
  · unfold golang.len
    omega
  · unfold golang.len
    omega
  · intro h
    unfold spec.trailingSegment
    rw [spec.afterLast_of_not_mem _ _ h]
  · intro h
    exact spec.afterLast_suffix '/' x.data h

/-- C10 (lists of references). For every list of strings urls,
`removeUrlPrefixes` returns, without a panic, a list of the same length whose
i-th element is `removeUrlPrefix(urls[i])`; and for every project and address,
the row of the aggregated listing and the row of the global listing have, in
the "Used By" column (index 7 of `ipAddressHeader`), the elements of
`removeUrlPrefixes(address.Users)` joined with ",", which is the empty string
when the address has no users. -/
theorem C10_removeUrlPrefixes_elementwise (urls : List String) :
    (∃ out, network.removeUrlPrefixes urls = some out ∧ out.length = urls.length ∧
      ∀ (i : Nat) (h : i < urls.length), network.removeUrlPrefix (urls[i]) = out[i]?) ∧
    network.ipAddressHeader[7]? = some "Used By" ∧
    (∀ (projectId : project.Project) (address : api.Address),
      ∃ users aggregated global,
        network.removeUrlPrefixes address.Users = some users ∧
        network.GetIPAddressInventory.aggregatedRow projectId address = some aggregated ∧
        network.GetIPAddressInventory.globalRow projectId address = some global ∧
        aggregated[7]? = some (strings.Join users ",") ∧
        global[7]? = some (strings.Join users ",") ∧
        (address.Users = [] → strings.Join users "," = "")) := by
  refine ⟨⟨_, network.removeUrlPrefixes_eq urls, by simp, ?_⟩, rfl, ?_⟩
  · intro i h
    rw [network.removeUrlPrefix_network_eq]
    simp [h]
  · intro projectId address
    refine ⟨_, _, _, network.removeUrlPrefixes_eq address.Users,
      network.aggregatedRow_eq projectId address, network.globalRow_eq projectId address,
      rfl, rfl, ?_⟩
    intro h
    rw [h]
    rfl

/-! ## Rendering of numbers and lists -/

theorem strings.Join_nil (sep : String) : strings.Join [] sep = "" := rfl

/-- C15 (list-valued fields). Whatever the length of the list,
`getNetworkInterfaces` is the interfaces' NetworkIP values joined with ", ",
`getDisksSizes` is the disks rendered as "<size>GB" joined with ", ", and
`allowToString` and `denyToString` are the rules rendered as
"<protocol>:<ports joined with ','>" joined with ","; each is the empty string
for an empty list; and each occupies exactly one cell of the row: the compute
row of an instance has the 10 fields of `computeHeader` with these two strings
in columns 7 and 8, the firewall row has the 8 fields of `firewallHeader` with
the two rule strings in columns 5 and 6. -/
theorem C15_list_fields_are_joined :
    (∀ inst : api.Instance, compute.getNetworkInterfaces inst =
      strings.Join (inst.NetworkInterfaces.map (fun ni => ni.NetworkIP)) ", ") ∧
    (∀ inst : api.Instance, compute.getDisksSizes inst =
      strings.Join (inst.Disks.map (fun d => golang.sprintfD d.DiskSizeGb ++ "GB")) ", ") ∧
    (∀ allowed : List api.FirewallAllowed, network.allowToString allowed =
      strings.Join (allowed.map (fun r => r.IPProtocol ++ ":" ++ strings.Join r.Ports ",")) ",") ∧
    (∀ denied : List api.FirewallDenied, network.denyToString denied =
      strings.Join (denied.map (fun r => r.IPProtocol ++ ":" ++ strings.Join r.Ports ",")) ",") ∧
    (∀ inst : api.Instance, inst.NetworkInterfaces = [] → compute.getNetworkInterfaces inst = "") ∧
    (∀ inst : api.Instance, inst.Disks = [] → compute.getDisksSizes inst = "") ∧
    network.allowToString [] = "" ∧ network.denyToString [] = "" ∧
    (∀ (inst : api.Instance) (projectId : project.Project) (zone : String),
      ∃ row, compute.GetComputeInventory.goroutine ⟨.ok (sample.serviceWith [inst] [])⟩
          (sample.serviceWith [inst] []) [zone] projectId = some [row] ∧
        row.length = compute.computeHeader.length ∧
        row[7]? = some (compute.getNetworkInterfaces inst) ∧
        row[8]? = some (compute.getDisksSizes inst)) ∧
    (∀ (route : api.Firewall) (projectId : project.Project),
      ∃ row, network.GetFirewallInventory.page projectId ⟨[route]⟩ [] = some ([row], none) ∧
        row.length = network.firewallHeader.length ∧
        row[5]? = some (network.allowToString route.Allowed) ∧
        row[6]? = some (network.denyToString route.Denied)) := by
  refine ⟨?_, ?_, ?_, ?_, ?_, ?_, rfl, rfl, ?_, ?_⟩
  · intro inst
    unfold compute.getNetworkInterfaces
    rw [golang.foldl_row (fun ni : api.NetworkInterface => ni.NetworkIP)]
    rfl
  · intro inst
    unfold compute.getDisksSizes
    rw [golang.foldl_row (fun d : api.AttachedDisk => golang.sprintfD d.DiskSizeGb ++ "GB")]
    rfl
  · intro allowed
    unfold network.allowToString
    rw [golang.foldl_row
      (fun r : api.FirewallAllowed => r.IPProtocol ++ ":" ++ strings.Join r.Ports ",")]
    rfl
  · intro denied
    unfold network.denyToString
    rw [golang.foldl_row
      (fun r : api.FirewallDenied => r.IPProtocol ++ ":" ++ strings.Join r.Ports ",")]
    rfl
  · intro inst h
    unfold compute.getNetworkInterfaces
    rw [h]
    rfl
  · intro inst h
    unfold compute.getDisksSizes
    rw [h]
    rfl
  · intro inst projectId zone
    refine ⟨spec.instanceRow
      (compute.FetchMachineTypes ⟨.ok (sample.serviceWith [inst] [])⟩ projectId.ID zone)
      projectId zone inst, ?_, rfl, rfl, rfl⟩
    rw [compute.compute_goroutine_eq]
    simp [spec.computeBuffer, spec.computeZoneRows, sample.serviceWith, api.Paged.Do]
  · intro route projectId
    refine ⟨spec.firewallRow projectId route, ?_, rfl, rfl, rfl⟩
    rw [network.firewall_page_eq]
    rfl

theorem golang.digitChar_isDigit (k : Nat) (h : k < 10) : (Nat.digitChar k).isDigit = true := by
  interval_cases k <;> rfl

theorem golang.digitChar_value (k : Nat) (h : k < 10) : (Nat.digitChar k).toNat - 48 = k := by
  interval_cases k <;> rfl

theorem golang.toDigitsCore_append (fuel n : Nat) (ds : List Char) :
    Nat.toDigitsCore 10 fuel n ds = Nat.toDigitsCore 10 fuel n [] ++ ds := by
  induction fuel generalizing n ds with
  | zero => simp [Nat.toDigitsCore]
  | succ fuel ih =>
    simp only [Nat.toDigitsCore]
    by_cases h : n / 10 = 0
    · simp [h]
    · simp only [h, if_false]
      rw [ih (n / 10) (Nat.digitChar (n % 10) :: ds), ih (n / 10) [Nat.digitChar (n % 10)]]
      simp

theorem golang.toDigitsCore_spec (fuel n : Nat) (h : n < fuel) :
    Nat.toDigitsCore 10 fuel n [] ≠ [] ∧
    (∀ c ∈ Nat.toDigitsCore 10 fuel n [], c.isDigit = true) ∧
    strconv.digitsValue (Nat.toDigitsCore 10 fuel n []) = n := by
  induction fuel generalizing n with
  | zero => omega
  | succ fuel ih =>
    have hmod : n % 10 < 10 := Nat.mod_lt n (by decide)
    simp only [Nat.toDigitsCore]
    by_cases hq : n / 10 = 0
    · simp only [hq, if_true]
      refine ⟨by simp, ?_, ?_⟩
      · intro c hc
        rw [List.mem_singleton.mp hc]
        exact golang.digitChar_isDigit _ hmod
      · simp only [strconv.digitsValue, List.foldl_cons, List.foldl_nil]
        rw [golang.digitChar_value _ hmod]
        omega
    · simp only [hq, if_false]
      rw [golang.toDigitsCore_append]
      have hlt : n / 10 < fuel := by omega
      obtain ⟨_, hdig, hval⟩ := ih (n / 10) hlt
      refine ⟨by simp, ?_, ?_⟩
      · intro c hc
        rcases List.mem_append.mp hc with h1 | h1
        · exact hdig c h1
        · rw [List.mem_singleton.mp h1]
          exact golang.digitChar_isDigit _ hmod
      · unfold strconv.digitsValue at hval ⊢
        rw [List.foldl_append, hval]
        simp only [List.foldl_cons, List.foldl_nil]
        rw [golang.digitChar_value _ hmod]
        omega

theorem golang.repr_spec (n : Nat) :
    (Nat.repr n).data ≠ [] ∧ (∀ c ∈ (Nat.repr n).data, c.isDigit = true) ∧
    strconv.digitsValue (Nat.repr n).data = n :=
  golang.toDigitsCore_spec (n + 1) n (Nat.lt_succ_self n)

theorem golang.sprintfD_ofNat (n : Nat) : golang.sprintfD (Int.ofNat n) = Nat.repr n := rfl

theorem golang.sprintfD_negSucc (n : Nat) :
    (golang.sprintfD (Int.negSucc n)).data = '-' :: (Nat.repr (n + 1)).data := rfl

theorem golang.sprintfD_ne_empty (n : Int) : golang.sprintfD n ≠ "" := by
  intro h
  have hd : (golang.sprintfD n).data = [] := by rw [h]
  cases n with
  | ofNat m => exact (golang.repr_spec m).1 hd
  | negSucc m =>
    rw [golang.sprintfD_negSucc] at hd
    exact List.cons_ne_nil _ _ hd

theorem strconv.parseDigits_repr (neg : Bool) (n : Nat)
    (h : -9223372036854775808 ≤ (if neg then -(n : Int) else (n : Int)) ∧
      (if neg then -(n : Int) else (n : Int)) ≤ 9223372036854775807) :
    strconv.parseDigits neg (Nat.repr n).data = .ok (if neg then -(n : Int) else (n : Int)) := by
  obtain ⟨hne, hdig, hval⟩ := golang.repr_spec n
  unfold strconv.parseDigits
  rw [if_neg hne, if_pos (List.all_eq_true.mpr hdig)]
  simp only [hval]
  rw [if_pos h]

theorem strconv.Atoi_sprintfD (n : Int)
    (h : -9223372036854775808 ≤ n ∧ n ≤ 9223372036854775807) :
    strconv.Atoi (golang.sprintfD n) = .ok n := by
  cases n with
  | ofNat m =>
    obtain ⟨hne, hdig, hval⟩ := golang.repr_spec m
    rw [golang.sprintfD_ofNat]
    unfold strconv.Atoi
    cases hd : (Nat.repr m).data with
    | nil => exact absurd hd hne
    | cons c rest =>
      have hc : c.isDigit = true := hdig c (by rw [hd]; exact List.mem_cons_self c rest)
      have h1 : c ≠ '-' := by
        intro e
        rw [e] at hc
        exact absurd hc (by decide)
      have h2 : c ≠ '+' := by
        intro e
        rw [e] at hc
        exact absurd hc (by decide)
      simp only [h1, h2, if_false]
      rw [← hd]
      exact strconv.parseDigits_repr false m h
  | negSucc m =>
    unfold strconv.Atoi
    rw [golang.sprintfD_negSucc]
    simp only [if_true]
    have := strconv.parseDigits_repr true (m + 1) (by
      simp only [if_true]
      have e : Int.negSucc m = -((m + 1 : Nat) : Int) := rfl
      rw [e] at h
      exact h)
    rw [this]
    rfl

theorem spec.computeBuffer_eq_map (ctx : api.Context) (service : api.Service)
    (zones : config.Zones) (projectId : project.Project) :
    spec.computeBuffer ctx service zones projectId =
      (compute.GetComputeInventory.returnedInstances service zones projectId).map (fun zi =>
        spec.instanceRow (compute.FetchMachineTypes ctx projectId.ID zi.1) projectId zi.1 zi.2) := by
  unfold spec.computeBuffer compute.GetComputeInventory.returnedInstances
  induction zones with
  | nil => rfl
  | cons z zs ih =>
    simp only [List.flatMap_cons, List.map_append, ih]
    congr 1
    unfold spec.computeZoneRows
    cases (service.InstancesList projectId.ID z).Do with
    | error e => rfl
    | ok instances => simp [List.map_map, Function.comp]

theorem spec.instanceRow_cells (m1 m2 : compute.MachineTypes) (projectId : project.Project)
    (zone : String) (inst : api.Instance) (i : Nat) (h5 : i ≠ 5) (h6 : i ≠ 6) :
    (spec.instanceRow m1 projectId zone inst)[i]? =
      (spec.instanceRow m2 projectId zone inst)[i]? := by
  unfold spec.instanceRow
  rcases i with _ | _ | _ | _ | _ | _ | _ | _ | _ | _ | i <;> simp_all

theorem compute.get_set (m : compute.MachineTypes) (k name : String)
    (v : Option compute.machineType) :
    (m.set k v).get name = if k = name then v else m.get name := by
  unfold compute.MachineTypes.get compute.MachineTypes.set
  by_cases h : k = name
  · subst h
    simp [List.lookup]
  · have h1 : (name == k) = false := by
      simp only [beq_eq_false_iff_ne, ne_eq]
      exact fun e => h e.symm
    simp [List.lookup, h, h1]

theorem compute.foldl_set_get (items : List api.MachineType) (m0 : compute.MachineTypes)
    (name : String) (cpu mem : Int)
    (hex : m0.get name = some ⟨name, cpu, mem⟩ ∨ ∃ item ∈ items, item.Name = name)
    (hall : ∀ item ∈ items, item.Name = name → item.GuestCpus = cpu ∧ item.MemoryMb = mem) :
    (items.foldl
      (fun machineTypes item =>
        machineTypes.set item.Name (some ⟨item.Name, item.GuestCpus, item.MemoryMb⟩))
      m0).get name = some ⟨name, cpu, mem⟩ := by
  induction items generalizing m0 with
  | nil =>
    rcases hex with h | ⟨item, hi, _⟩
    · exact h
    · simp at hi
  | cons x xs ih =>
    simp only [List.foldl_cons]
    apply ih
    · by_cases hx : x.Name = name
      · left
        obtain ⟨hc, hm⟩ := hall x (List.mem_cons_self x xs) hx
        rw [compute.get_set, if_pos hx, hx, hc, hm]
      · rcases hex with h | ⟨item, hi, hn⟩
        · left
          rw [compute.get_set, if_neg hx]
          exact h
        · right
          rcases List.mem_cons.mp hi with h1 | h1
          · exact absurd (h1 ▸ hn) hx
          · exact ⟨item, h1, hn⟩
    · intro item hi hn
      exact hall item (List.mem_cons_of_mem x hi) hn

theorem compute.foldl_set_get_none (items : List api.MachineType) (m0 : compute.MachineTypes)
    (name : String) (h0 : m0.get name = none) (hall : ∀ item ∈ items, item.Name ≠ name) :
    (items.foldl
      (fun machineTypes item =>
        machineTypes.set item.Name (some ⟨item.Name, item.GuestCpus, item.MemoryMb⟩))
      m0).get name = none := by
  induction items generalizing m0 with
  | nil => exact h0
  | cons x xs ih =>
    simp only [List.foldl_cons]
    apply ih
    · rw [compute.get_set, if_neg (hall x (List.mem_cons_self x xs))]
      exact h0
    · intro item hi
      exact hall item (List.mem_cons_of_mem x hi)

theorem compute.get_eq_some_iff (m : compute.MachineTypes) (name : String)
    (t : compute.machineType) : m.get name = some t ↔ spec.HasEntry m name t := by
  obtain ⟨es⟩ := m
  induction es with
  | nil =>
    constructor
    · intro h
      simp [compute.MachineTypes.get, List.lookup] at h
    · rintro ⟨later, earlier, h, _⟩
      simp at h
  | cons kv es ih =>
    obtain ⟨k, v⟩ := kv
    have hget : (⟨(k, v) :: es⟩ : compute.MachineTypes).get name =
        if k = name then v else (⟨es⟩ : compute.MachineTypes).get name :=
      compute.get_set ⟨es⟩ k name v
    rw [hget]
    by_cases hk : k = name
    · rw [if_pos hk]
      constructor
      · intro hv
        exact ⟨[], es, by simp [hk, hv], by simp⟩
      · rintro ⟨later, earlier, h, hl⟩
        cases later with
        | nil =>
          simp only [List.nil_append, List.cons.injEq, Prod.mk.injEq] at h
          exact h.1.2
        | cons e l =>
          simp only [List.cons_append, List.cons.injEq] at h
          have := hl e (List.mem_cons_self e l)
          rw [← h.1] at this
          exact absurd hk this
    · rw [if_neg hk, ih]
      constructor
      · rintro ⟨later, earlier, h, hl⟩
        refine ⟨(k, v) :: later, earlier, ?_, ?_⟩
        · show (k, v) :: es = (k, v) :: later ++ (name, some t) :: earlier
          rw [show es = later ++ (name, some t) :: earlier from h]
          rfl
        · intro e he
          rcases List.mem_cons.mp he with h1 | h1
          · rw [h1]
            exact hk
          · exact hl e h1
      · rintro ⟨later, earlier, h, hl⟩
        cases later with
        | nil =>
          simp only [List.nil_append, List.cons.injEq, Prod.mk.injEq] at h
          exact absurd h.1.1 hk
        | cons e l =>
          simp only [List.cons_append, List.cons.injEq] at h
          exact ⟨l, earlier, h.2, fun e1 he1 => hl e1 (List.mem_cons_of_mem e he1)⟩

/-- C11 (cache-miss degradation). For every `MachineTypes` map, the nil and
the empty map included, and every name, `GetCPU` and `GetMemory` are total;
each is the empty string exactly when the map has no non-nil entry for the
name, and is otherwise the base-10 rendering of the entry's CPU, respectively
Memory. "Has the non-nil entry t" is said of the content of the map (the
latest write to the key stored t) and agrees with the lookup `m[name]`, which
finds what was stored last under the key and nothing under a key never
written. After `FetchMachineTypes` a name on the page the listing call returns
is a hit and a name not on it a miss. Replacing the machine-type listing of
the provider by any other one (so turning hits into misses or back) leaves the
number of rows of a project unchanged and changes nothing in a row but the
cells of the columns "CPU" and "Memory (MB)", columns 5 and 6. -/
theorem C11_cache_miss_degrades :
    (∀ (m : compute.MachineTypes) (name : String),
      (m.GetCPU name = "" ↔ m.get name = none) ∧
      (m.GetMemory name = "" ↔ m.get name = none)) ∧
    (∀ (m : compute.MachineTypes) (name : String) (t : compute.machineType),
      m.get name = some t →
        m.GetCPU name = golang.sprintfD t.CPU ∧ m.GetMemory name = golang.sprintfD t.Memory) ∧
    (∀ name : String, (⟨[]⟩ : compute.MachineTypes).GetCPU name = "" ∧
      (⟨[]⟩ : compute.MachineTypes).GetMemory name = "") ∧
    (∀ (m : compute.MachineTypes) (name : String),
      (m.set name none).GetCPU name = "" ∧ (m.set name none).GetMemory name = "") ∧
    compute.computeHeader[5]? = some "CPU" ∧
    compute.computeHeader[6]? = some "Memory (MB)" ∧
    (∀ (service : api.Service) (machineTypes : String → String → api.Paged api.MachineTypeList)
        (zones : config.Zones) (projectId : project.Project),
      ∃ t1 t2,
        compute.GetComputeInventory.goroutine ⟨.ok service⟩ service zones projectId = some t1 ∧
        compute.GetComputeInventory.goroutine
          ⟨.ok { service with MachineTypesList := machineTypes }⟩
          { service with MachineTypesList := machineTypes } zones projectId = some t2 ∧
        t1.length = t2.length ∧
        ∀ (k : Nat) (r1 r2 : List String), t1[k]? = some r1 → t2[k]? = some r2 →
          r1.length = r2.length ∧ ∀ i : Nat, i ≠ 5 → i ≠ 6 → r1[i]? = r2[i]?) ∧
    (∀ (m : compute.MachineTypes) (name : String),
      (m.GetCPU name = "" ↔ ¬ ∃ t, spec.HasEntry m name t) ∧
      (m.GetMemory name = "" ↔ ¬ ∃ t, spec.HasEntry m name t)) ∧
    (∀ (m : compute.MachineTypes) (name : String) (t : compute.machineType),
      spec.HasEntry m name t →
        m.GetCPU name = golang.sprintfD t.CPU ∧ m.GetMemory name = golang.sprintfD t.Memory) ∧
    (∀ (m : compute.MachineTypes) (name : String) (t : compute.machineType),
      m.get name = some t ↔ spec.HasEntry m name t) ∧
    (∀ name : String, (⟨[]⟩ : compute.MachineTypes).get name = none) ∧
    (∀ (m : compute.MachineTypes) (k name : String) (v : Option compute.machineType),
      (m.set k v).get name = if k = name then v else m.get name) ∧
    (∀ (m : compute.MachineTypes) (name : String) (t : compute.machineType),
      (m.set name (some t)).GetCPU name = golang.sprintfD t.CPU ∧
      (m.set name (some t)).GetMemory name = golang.sprintfD t.Memory) ∧
    (∀ n : Int, golang.sprintfD n ≠ "") ∧
    (∀ (ctx : api.Context) (service : api.Service) (projectsId zone : String)
        (mts : api.MachineTypeList) (name : String),
      ctx.NewService = .ok service →
      (service.MachineTypesList projectsId zone).Do = .ok mts →
      (∀ (cpu mem : Int), (∃ item ∈ mts.Items, item.Name = name) →
        (∀ item ∈ mts.Items, item.Name = name → item.GuestCpus = cpu ∧ item.MemoryMb = mem) →
        (compute.FetchMachineTypes ctx projectsId zone).GetCPU name = golang.sprintfD cpu ∧
        (compute.FetchMachineTypes ctx projectsId zone).GetMemory name =
          golang.sprintfD mem) ∧
      ((∀ item ∈ mts.Items, item.Name ≠ name) →
        (compute.FetchMachineTypes ctx projectsId zone).GetCPU name = "" ∧
        (compute.FetchMachineTypes ctx projectsId zone).GetMemory name = "")) := by
  have hcells : ∀ (m : compute.MachineTypes) (name : String) (t : compute.machineType),
      m.get name = some t →
        m.GetCPU name = golang.sprintfD t.CPU ∧ m.GetMemory name = golang.sprintfD t.Memory := by
    intro m name t h
    unfold compute.MachineTypes.GetCPU compute.MachineTypes.GetMemory
    rw [h]
    exact ⟨rfl, rfl⟩
  have hempty : ∀ (m : compute.MachineTypes) (name : String),
      (m.GetCPU name = "" ↔ m.get name = none) ∧
      (m.GetMemory name = "" ↔ m.get name = none) := by
    intro m name
    unfold compute.MachineTypes.GetCPU compute.MachineTypes.GetMemory
    cases h : m.get name with
    | none => simp
    | some t => simp [golang.sprintfD_ne_empty]
  have hnone : ∀ (m : compute.MachineTypes) (name : String),
      m.get name = none ↔ ¬ ∃ t, spec.HasEntry m name t := by
    intro m name
    constructor
    · rintro h ⟨t, ht⟩
      rw [(compute.get_eq_some_iff m name t).mpr ht] at h
      cases h
    · intro h
      cases hg : m.get name with
      | none => rfl
      | some t => exact absurd ⟨t, (compute.get_eq_some_iff m name t).mp hg⟩ h
  refine ⟨hempty, hcells, ?_, ?_, rfl, rfl, ?_, ?_, ?_, compute.get_eq_some_iff, fun _ => rfl,
    compute.get_set, ?_, golang.sprintfD_ne_empty, ?_⟩
  · intro name
    exact ⟨rfl, rfl⟩
  · intro m name
    simp [compute.MachineTypes.GetCPU, compute.MachineTypes.GetMemory, compute.MachineTypes.get,
      compute.MachineTypes.set, List.lookup]
  · intro service machineTypes zones projectId
    refine ⟨_, _, compute.compute_goroutine_eq _ _ _ _, compute.compute_goroutine_eq _ _ _ _, ?_, ?_⟩
    · rw [spec.computeBuffer_eq_map, spec.computeBuffer_eq_map]
      simp [compute.GetComputeInventory.returnedInstances]
    · intro k r1 r2 h1 h2
      rw [spec.computeBuffer_eq_map, List.getElem?_map] at h1 h2
      have hy : compute.GetComputeInventory.returnedInstances
          { service with MachineTypesList := machineTypes } zones
          projectId = compute.GetComputeInventory.returnedInstances service zones projectId := rfl
      rw [hy] at h2
      cases hk : (compute.GetComputeInventory.returnedInstances service zones projectId)[k]? with
      | none => simp [hk] at h1
      | some zi =>
        simp only [hk, Option.map_some', Option.some.injEq] at h1 h2
        subst h1
        subst h2
        exact ⟨rfl, fun i h5 h6 => spec.instanceRow_cells _ _ _ _ _ i h5 h6⟩
  · intro m name
    rw [← hnone m name]
    exact hempty m name
  · intro m name t ht
    exact hcells m name t ((compute.get_eq_some_iff m name t).mpr ht)
  · intro m name t
    exact hcells (m.set name (some t)) name t (by rw [compute.get_set, if_pos rfl])
  · intro ctx service projectsId zone mts name hs hl
    constructor
    · intro cpu mem hex hall
      have hget : (compute.FetchMachineTypes ctx projectsId zone).get name =
          some ⟨name, cpu, mem⟩ := by
        unfold compute.FetchMachineTypes
        rw [hs]
        simp only [hl]
        exact compute.foldl_set_get _ _ _ _ _ (Or.inr hex) hall
      exact hcells _ name ⟨name, cpu, mem⟩ hget
    · intro hall
      have hget : (compute.FetchMachineTypes ctx projectsId zone).get name = none := by
        unfold compute.FetchMachineTypes
        rw [hs]
        simp only [hl]
        exact compute.foldl_set_get_none _ _ _ rfl hall
      exact ⟨((hempty _ name).1).mpr hget, ((hempty _ name).2).mpr hget⟩

/-- Example of C11 on the scenario provider, whose machine-type listing is the
one page [n1-standard-1 with 1 CPU and 3840 MB]: after `FetchMachineTypes`
the map has that entry for "n1-standard-1", which is found ("1", "3840"), and
has no entry for "e2-medium", which gives the empty string twice. -/
theorem C11_cache_miss_degrades_example :
    spec.HasEntry (compute.FetchMachineTypes ⟨.ok sample.scenarioService⟩ "p1" "zone-a")
      "n1-standard-1" ⟨"n1-standard-1", 1, 3840⟩ ∧
    (compute.FetchMachineTypes ⟨.ok sample.scenarioService⟩ "p1" "zone-a").GetCPU
      "n1-standard-1" = "1" ∧
    (compute.FetchMachineTypes ⟨.ok sample.scenarioService⟩ "p1" "zone-a").GetMemory
      "n1-standard-1" = "3840" ∧
    (¬ ∃ t, spec.HasEntry (compute.FetchMachineTypes ⟨.ok sample.scenarioService⟩ "p1" "zone-a")
      "e2-medium" t) ∧
    (compute.FetchMachineTypes ⟨.ok sample.scenarioService⟩ "p1" "zone-a").GetCPU
      "e2-medium" = "" ∧
    (compute.FetchMachineTypes ⟨.ok sample.scenarioService⟩ "p1" "zone-a").GetMemory
      "e2-medium" = "" :=
  ⟨(C11_cache_miss_degrades.2.2.2.2.2.2.2.2.2.1 _ _ _).mp rfl, rfl, rfl,
    ((C11_cache_miss_degrades.2.2.2.2.2.2.2.1 _ _).1).mp rfl, rfl, rfl⟩

theorem spec.afterLast_append (c : Char) (before s : List Char) (h : c ∉ s) :
    spec.afterLast c (before ++ c :: s) = s := by
  induction before with
  | nil => simp [spec.afterLast, h]
  | cons x xs ih =>
    have hm : c ∈ xs ++ c :: s := by simp
    show spec.afterLast c (x :: (xs ++ c :: s)) = s
    unfold spec.afterLast
    rw [if_pos hm]
    exact ih

/-- The two-project scenario when n1-standard-1 is on the page the
machine-type call returns. With the service created, projects P1 and P2 and
zones ["zone-a"]: if the `Do()` call of the instance listing of P1 returns the
one instance `inst` whose MachineType is "n1-standard-1" or ends in
"/n1-standard-1", the page the `Do()` call of the machine-type listing of
(P1, zone-a) returns contains n1-standard-1, with GuestCpus 1 and MemoryMb
3840, and the `Do()` call of the instance listing of P2 returns no instance,
then for every completion order `GetComputeInventory` returns exactly two
rows: `computeHeader` and the row of `inst` for P1, with "n1-standard-1" in
column "Machine Type", "1" in column "CPU" and "3840" in column
"Memory (MB)". -/
theorem compute.scenario_on_returned_page (ctx : api.Context) (service : api.Service)
    (sched : List Nat)
    (P1 P2 : project.Project) (inst : api.Instance) (mts : api.MachineTypeList)
    (base : List Char)
    (hs : ctx.NewService = .ok service)
    (h1 : (service.InstancesList P1.ID "zone-a").Do = .ok ⟨[inst]⟩)
    (hmt : inst.MachineType.data = base ++ "n1-standard-1".data)
    (hbase : base = [] ∨ ∃ b, base = b ++ ['/'])
    (hl : (service.MachineTypesList P1.ID "zone-a").Do = .ok mts)
    (hex : ∃ item ∈ mts.Items, item.Name = "n1-standard-1")
    (hall : ∀ item ∈ mts.Items, item.Name = "n1-standard-1" →
      item.GuestCpus = 1 ∧ item.MemoryMb = 3840)
    (h2 : (service.InstancesList P2.ID "zone-a").Do = .ok ⟨[]⟩) :
    compute.GetComputeInventory ctx sched [P1, P2] ["zone-a"] =
      some (.ok [compute.computeHeader,
        [P1.Name, "zone-a", inst.Name, inst.Status, "n1-standard-1", "1", "3840",
          compute.getNetworkInterfaces inst, compute.getDisksSizes inst,
          inst.CreationTimestamp]]) ∧
    compute.computeHeader[4]? = some "Machine Type" ∧
    compute.computeHeader[5]? = some "CPU" ∧
    compute.computeHeader[6]? = some "Memory (MB)" := by
  refine ⟨?_, rfl, rfl, rfl⟩
  have hseg : spec.trailingSegment inst.MachineType = "n1-standard-1" := by
    have hno : '/' ∉ "n1-standard-1".data := by decide
    unfold spec.trailingSegment
    rw [hmt]
    rcases hbase with hb | ⟨b, hb⟩
    · rw [hb, List.nil_append, spec.afterLast_of_not_mem _ _ hno]
    · rw [hb, List.append_assoc, List.singleton_append, spec.afterLast_append _ _ _ hno]
  have hget : (compute.FetchMachineTypes ctx P1.ID "zone-a").get "n1-standard-1" =
      some ⟨"n1-standard-1", 1, 3840⟩ := by
    unfold compute.FetchMachineTypes
    rw [hs]
    simp only [hl]
    exact compute.foldl_set_get _ _ _ _ _ (Or.inr hex) hall
  have hb1 : spec.computeBuffer ctx service ["zone-a"] P1 =
      [[P1.Name, "zone-a", inst.Name, inst.Status, "n1-standard-1", "1", "3840",
        compute.getNetworkInterfaces inst, compute.getDisksSizes inst,
        inst.CreationTimestamp]] := by
    simp only [spec.computeBuffer, List.flatMap_cons, List.flatMap_nil, List.append_nil,
      spec.computeZoneRows, h1, List.map_cons, List.map_nil, spec.instanceRow, hseg,
      compute.MachineTypes.GetCPU, compute.MachineTypes.GetMemory, hget]
    rfl
  have hb2 : spec.computeBuffer ctx service ["zone-a"] P2 = [] := by
    simp [spec.computeBuffer, spec.computeZoneRows, h2]
  rw [compute.GetComputeInventory_eq ctx service sched [P1, P2] ["zone-a"] hs]
  have hperm := List.Perm.flatMap_right (spec.computeBuffer ctx service ["zone-a"])
    (golang.completionOrder_perm sched [P1, P2])
  simp only [List.flatMap_cons, List.flatMap_nil, hb1, hb2, List.append_nil] at hperm
  rw [List.perm_singleton.mp hperm]

/-- C12, the code at the failing input. On the scenario provider with a
machine-type catalogue of two pages, the instance listing of P1 returns the
one instance vm-2, whose MachineType ends in "n1-standard-1"; the machine-type
listing of (P1, zone-a) does not fail and contains n1-standard-1 with
GuestCpus 1 and MemoryMb 3840, on its second page; the instance listing of P2
returns no instance. For every completion order `GetComputeInventory` returns
two rows, `computeHeader` and a row for P1 with "n1-standard-1" in column
"Machine Type", but the cells "CPU" and "Memory (MB)" of that row are empty,
not "1" and "3840". With the same catalogue on one page the table is the one
the scenario expects. -/
theorem C12_machine_type_on_a_later_page :
    spec.listedInstances (sample.pagedScenarioService.InstancesList sample.p1.ID "zone-a") =
      [sample.vm2] ∧
    sample.vm2.MachineType = "projects/pa/zones/zone-a/machineTypes/n1-standard-1" ∧
    spec.failure (sample.pagedScenarioService.MachineTypesList sample.p1.ID "zone-a") = none ∧
    spec.listedMachineTypes
        (sample.pagedScenarioService.MachineTypesList sample.p1.ID "zone-a") =
      [⟨"e2-medium", 2, 4096⟩, ⟨"n1-standard-1", 1, 3840⟩] ∧
    spec.listedInstances (sample.pagedScenarioService.InstancesList sample.p2.ID "zone-a") =
      [] ∧
    (∀ sched : List Nat,
      compute.GetComputeInventory ⟨.ok sample.pagedScenarioService⟩ sched
          [sample.p1, sample.p2] ["zone-a"] =
        some (.ok [compute.computeHeader,
          ["P1", "zone-a", "vm-2", "TERMINATED", "n1-standard-1", "", "", "10.0.0.3", "",
            "2023-02-02"]])) ∧
    compute.computeHeader[4]? = some "Machine Type" ∧
    compute.computeHeader[5]? = some "CPU" ∧
    compute.computeHeader[6]? = some "Memory (MB)" ∧
    (∀ sched : List Nat,
      compute.GetComputeInventory ⟨.ok sample.scenarioService⟩ sched
          [sample.p1, sample.p2] ["zone-a"] =
        some (.ok [compute.computeHeader,
          ["P1", "zone-a", "vm-2", "TERMINATED", "n1-standard-1", "1", "3840", "10.0.0.3", "",
            "2023-02-02"]])) := by
  refine ⟨rfl, rfl, rfl, rfl, rfl, ?_, rfl, rfl, rfl, ?_⟩
  · intro sched
    rw [compute.GetComputeInventory_eq ⟨.ok sample.pagedScenarioService⟩
      sample.pagedScenarioService sched [sample.p1, sample.p2] ["zone-a"] rfl]
    have hb1 : spec.computeBuffer ⟨.ok sample.pagedScenarioService⟩
        sample.pagedScenarioService ["zone-a"] sample.p1 =
        [["P1", "zone-a", "vm-2", "TERMINATED", "n1-standard-1", "", "", "10.0.0.3", "",
          "2023-02-02"]] := rfl
    have hb2 : spec.computeBuffer ⟨.ok sample.pagedScenarioService⟩
        sample.pagedScenarioService ["zone-a"] sample.p2 = [] := rfl
    have hperm := List.Perm.flatMap_right
      (spec.computeBuffer ⟨.ok sample.pagedScenarioService⟩ sample.pagedScenarioService
        ["zone-a"])
      (golang.completionOrder_perm sched [sample.p1, sample.p2])
    simp only [List.flatMap_cons, List.flatMap_nil, hb1, hb2, List.append_nil] at hperm
    rw [List.perm_singleton.mp hperm]
  · intro sched
    exact (compute.scenario_on_returned_page ⟨.ok sample.scenarioService⟩
      sample.scenarioService sched sample.p1 sample.p2 sample.vm2
      ⟨[⟨"n1-standard-1", 1, 3840⟩]⟩ "projects/pa/zones/zone-a/machineTypes/".data
      rfl rfl rfl (Or.inr ⟨"projects/pa/zones/zone-a/machineTypes".data, rfl⟩) rfl
      ⟨⟨"n1-standard-1", 1, 3840⟩, List.mem_singleton.mpr rfl, rfl⟩
      (by
        intro item hi _
        rw [List.mem_singleton.mp hi]
        exact ⟨rfl, rfl⟩)
      rfl).1

/-- The three address enumerations of the code. For every project the
goroutine of `GetIPAddressInventory` ends with, in this order and without
removing any duplicate: (1) for every zone in zone order, nothing when the
`Do()` call of the instance listing of the zone fails and otherwise one
"INTERNAL" row per network interface of every instance of the one page that
call returns; (2) one row per address of the pages the
aggregated listing delivers; (3) one row per address of the pages the global
listing delivers, with "global" in column Region/Zone. A failure of the zone
listings or of the aggregated listing does not stop the later enumerations:
when every zone fails the rows are (2) then (3), and when the aggregated
listing fails at its first request they are (1) then (3). -/
theorem network.address_rows_are_three_enumerations (service : api.Service)
    (zones : config.Zones) (projectId : project.Project) :
    network.GetIPAddressInventory.goroutine service zones projectId =
      some (zones.flatMap (network.GetIPAddressInventory.zoneRows service projectId) ++
        ((spec.delivered (service.AddressesAggregatedList projectId.ID)).flatMap
          (fun page => page.Items.flatMap (fun item => item.Addresses))).map
            (spec.aggregatedAddressRow projectId) ++
        ((spec.delivered (service.GlobalAddressesList projectId.ID)).flatMap
          (fun page => page.Items)).map (spec.globalAddressRow projectId)) ∧
    (∀ zone e, (service.InstancesList projectId.ID zone).Do = .error e →
      network.GetIPAddressInventory.zoneRows service projectId zone = []) ∧
    (∀ zone instances, (service.InstancesList projectId.ID zone).Do = .ok instances →
      network.GetIPAddressInventory.zoneRows service projectId zone =
        instances.Items.flatMap (fun inst =>
          inst.NetworkInterfaces.map (spec.interfaceRow projectId zone inst))) ∧
    (∀ zone inst networkInterface,
      (spec.interfaceRow projectId zone inst networkInterface)[6]? = some "INTERNAL") ∧
    (∀ address,
      network.GetIPAddressInventory.aggregatedRow projectId address =
        some (spec.aggregatedAddressRow projectId address) ∧
      network.GetIPAddressInventory.globalRow projectId address =
        some (spec.globalAddressRow projectId address) ∧
      (spec.globalAddressRow projectId address)[1]? = some "global") ∧
    network.ipAddressHeader[1]? = some "Region/Zone" ∧
    network.ipAddressHeader[6]? = some "Address Type" ∧
    ((∀ zone ∈ zones, ∃ e, (service.InstancesList projectId.ID zone).Do = .error e) →
      network.GetIPAddressInventory.goroutine service zones projectId =
        some (spec.aggregatedAddressRows projectId
            (spec.delivered (service.AddressesAggregatedList projectId.ID)) ++
          spec.globalAddressRows projectId
            (spec.delivered (service.GlobalAddressesList projectId.ID)))) ∧
    (∀ e, service.AddressesAggregatedList projectId.ID = .fail e →
      network.GetIPAddressInventory.goroutine service zones projectId =
        some (zones.flatMap (network.GetIPAddressInventory.zoneRows service projectId) ++
          spec.globalAddressRows projectId
            (spec.delivered (service.GlobalAddressesList projectId.ID)))) := by
  refine ⟨?_, ?_, ?_, ?_, ?_, rfl, rfl, ?_, ?_⟩
  · rw [network.ip_goroutine_eq]
    simp only [spec.aggregatedAddressRows, spec.globalAddressRows, List.map_flatMap]
  · intro zone e he
    simp [network.GetIPAddressInventory.zoneRows, he]
  · intro zone instances hi
    simp [network.GetIPAddressInventory.zoneRows, hi]
  · intro zone inst networkInterface
    rfl
  · intro address
    exact ⟨network.aggregatedRow_eq projectId address, network.globalRow_eq projectId address, rfl⟩
  · intro hfail
    rw [network.ip_goroutine_eq]
    have hnil : zones.flatMap (network.GetIPAddressInventory.zoneRows service projectId) = [] := by
      rw [List.flatMap_eq_nil_iff]
      intro z hz
      obtain ⟨e, he⟩ := hfail z hz
      simp [network.GetIPAddressInventory.zoneRows, he]
    rw [hnil, List.nil_append]
  · intro e he
    rw [network.ip_goroutine_eq, he]
    simp [spec.delivered, spec.aggregatedAddressRows]

/-- C13, the code at the failing input. On the sample provider in which no
listing fails, the instance listing of (pa, zone-a) returns vm-1 and then, on
its second page, vm-2, each with one network interface; the rows the claim
lists for pa are the "INTERNAL" row of vm-1's interface, the "INTERNAL" row of
vm-2's interface, the row of the aggregated address and the row of the global
address. The goroutine of `GetIPAddressInventory` builds the row of vm-1's
interface, the aggregated row and the global row, in the claimed order, and
for every completion order the table is the header followed by these three
rows: the interface 10.0.0.3 of vm-2 has no row. -/
theorem C13_interfaces_of_later_pages_have_no_row :
    spec.failure (sample.addressService.InstancesList sample.pa.ID "zone-a") = none ∧
    spec.failure (sample.addressService.AddressesAggregatedList sample.pa.ID) = none ∧
    spec.failure (sample.addressService.GlobalAddressesList sample.pa.ID) = none ∧
    spec.listedInstances (sample.addressService.InstancesList sample.pa.ID "zone-a") =
      [sample.vm1, sample.vm2] ∧
    spec.listedAddressRows sample.addressService ["zone-a"] sample.pa =
      [["Project A", "zone-a", "nic0", "10.0.0.2", "default", "sub-1", "INTERNAL", "vm-1",
          "2023-01-01"],
        ["Project A", "zone-a", "nic0", "10.0.0.3", "default", "sub-1", "INTERNAL", "vm-2",
          "2023-02-02"],
        ["Project A", "r1", "addr-1", "34.1.2.3", "", "", "EXTERNAL", "vm-1,fr-1",
          "2023-03-03"],
        ["Project A", "global", "addr-2", "35.4.5.6", "default", "", "INTERNAL", "",
          "2023-04-04"]] ∧
    network.GetIPAddressInventory.goroutine sample.addressService ["zone-a"] sample.pa =
      some [["Project A", "zone-a", "nic0", "10.0.0.2", "default", "sub-1", "INTERNAL", "vm-1",
          "2023-01-01"],
        ["Project A", "r1", "addr-1", "34.1.2.3", "", "", "EXTERNAL", "vm-1,fr-1",
          "2023-03-03"],
        ["Project A", "global", "addr-2", "35.4.5.6", "default", "", "INTERNAL", "",
          "2023-04-04"]] ∧
    (∀ sched : List Nat,
      network.GetIPAddressInventory ⟨.ok sample.addressService⟩ sched [sample.pa] ["zone-a"] =
        some (.ok [network.ipAddressHeader,
          ["Project A", "zone-a", "nic0", "10.0.0.2", "default", "sub-1", "INTERNAL", "vm-1",
            "2023-01-01"],
          ["Project A", "r1", "addr-1", "34.1.2.3", "", "", "EXTERNAL", "vm-1,fr-1",
            "2023-03-03"],
          ["Project A", "global", "addr-2", "35.4.5.6", "default", "", "INTERNAL", "",
            "2023-04-04"]])) := by
  refine ⟨rfl, rfl, rfl, rfl, rfl, rfl, ?_⟩
  intro sched
  rw [network.GetIPAddressInventory_eq ⟨.ok sample.addressService⟩ sample.addressService sched
    [sample.pa] ["zone-a"] rfl]
  have hone : golang.completionOrder sched [sample.pa] = [sample.pa] :=
    List.perm_singleton.mp (golang.completionOrder_perm sched [sample.pa])
  rw [hone]
  rfl

theorem golang.sprintfD_chars (n : Int) :
    ∃ ds : List Char, ds ≠ [] ∧ (∀ c ∈ ds, c.isDigit = true) ∧
      ((0 ≤ n ∧ (golang.sprintfD n).data = ds) ∨
        (n < 0 ∧ (golang.sprintfD n).data = '-' :: ds)) := by
  cases n with
  | ofNat m =>
    obtain ⟨hne, hdig, _⟩ := golang.repr_spec m
    exact ⟨(Nat.repr m).data, hne, hdig, Or.inl ⟨Int.ofNat_nonneg m, rfl⟩⟩
  | negSucc m =>
    obtain ⟨hne, hdig, _⟩ := golang.repr_spec (m + 1)
    exact ⟨(Nat.repr (m + 1)).data, hne, hdig,
      Or.inr ⟨Int.negSucc_lt_zero m, golang.sprintfD_negSucc m⟩⟩

/-- C14 (canonical rendering). In the row of every peering record the six
columns "Auto Create Routes" to "Import Subnet Routes With Public IP" (columns
5 to 10) are exactly "true" when the provider flag is true and "false"
otherwise. In the row of every route (column 4) and of every firewall rule
(column 3) the "Priority" field is the base-10 rendering of the integer
priority: decimal digits only, preceded by "-" for a negative number, no
grouping separator; for a priority in the range of Go's 64-bit integers,
`strconv.Atoi` of the field gives the priority back. -/
theorem C14_canonical_rendering :
    (∀ (projectId : project.Project) (name created : String) (peering : api.NetworkPeering),
      ∃ row, network.GetPreeingInventory.page projectId ⟨[⟨name, [peering], created⟩]⟩ [] =
          some ([row], none) ∧
        row[5]? = some (if peering.AutoCreateRoutes then "true" else "false") ∧
        row[6]? = some (if peering.ExchangeSubnetRoutes then "true" else "false") ∧
        row[7]? = some (if peering.ExportCustomRoutes then "true" else "false") ∧
        row[8]? = some (if peering.ImportCustomRoutes then "true" else "false") ∧
        row[9]? = some (if peering.ExportSubnetRoutesWithPublicIp then "true" else "false") ∧
        row[10]? = some (if peering.ImportSubnetRoutesWithPublicIp then "true" else "false")) ∧
    network.peeringHeader.drop 5 =
      ["Auto Create Routes", "Exchange Subnet Routes", "Export Custom Routes",
        "Import Custom Routes", "Export Subnet Routes With Public IP",
        "Import Subnet Routes With Public IP", "Creation Timestamp"] ∧
    (∀ (projectId : project.Project) (route : api.Route),
      ∃ row, network.GetRoutesInventory.page projectId ⟨[route]⟩ [] = some ([row], none) ∧
        row[4]? = some (golang.sprintfD route.Priority)) ∧
    network.routesHeader[4]? = some "Priority" ∧
    (∀ (projectId : project.Project) (route : api.Firewall),
      ∃ row, network.GetFirewallInventory.page projectId ⟨[route]⟩ [] = some ([row], none) ∧
        row[3]? = some (golang.sprintfD route.Priority)) ∧
    network.firewallHeader[3]? = some "Priority" ∧
    (∀ n : Int, ∃ ds : List Char, ds ≠ [] ∧ (∀ c ∈ ds, c.isDigit = true) ∧
      ((0 ≤ n ∧ (golang.sprintfD n).data = ds) ∨
        (n < 0 ∧ (golang.sprintfD n).data = '-' :: ds))) ∧
    (∀ n : Int, -9223372036854775808 ≤ n ∧ n ≤ 9223372036854775807 →
      strconv.Atoi (golang.sprintfD n) = .ok n) := by
  refine ⟨?_, rfl, ?_, rfl, ?_, rfl, golang.sprintfD_chars, strconv.Atoi_sprintfD⟩
  · intro projectId name created peering
    refine ⟨spec.peeringRow projectId ⟨name, [peering], created⟩ peering, ?_,
      rfl, rfl, rfl, rfl, rfl, rfl⟩
    rw [network.peering_page_eq]
    rfl
  · intro projectId route
    refine ⟨spec.routeRow projectId route, ?_, rfl⟩
    rw [network.routes_page_eq]
    rfl
  · intro projectId route
    refine ⟨spec.firewallRow projectId route, ?_, rfl⟩
    rw [network.firewall_page_eq]
    rfl

/-- Example for C14: the priority 1000 of the sample route is rendered "1000"
and parsed back, and the most negative 64-bit integer survives the round
trip. -/
theorem C14_canonical_rendering_example :
    golang.sprintfD sample.route1.Priority = "1000" ∧
    strconv.Atoi (golang.sprintfD sample.route1.Priority) = .ok 1000 ∧
    strconv.Atoi (golang.sprintfD (-9223372036854775808)) = .ok (-9223372036854775808) :=
  ⟨rfl, C14_canonical_rendering.2.2.2.2.2.2.2 1000 (by decide),
    C14_canonical_rendering.2.2.2.2.2.2.2 (-9223372036854775808) (by decide)⟩

/-! ## The log filter -/

/-- C18, the code at the failing inputs. The two log-level specifications the
doc comment of `fromString` gives as examples, "DEBUG" and
"client.go=ERROR,INFO,ip*=WARN", are rejected with "Illegal log level", for
every default level, because `levelNumbers` has lower-case keys only; the same
specifications in lower case give what the comment describes. -/
theorem C18_upper_case_levels_are_rejected (d : Int) :
    (logger.filterSpec.mk []).fromString "DEBUG" false d =
      (⟨[]⟩, some "Illegal log level 'DEBUG'.") ∧
    (logger.filterSpec.mk []).fromString "client.go=ERROR,INFO,ip*=WARN" false d =
      (⟨[]⟩, some "Illegal log level 'ERROR'.") ∧
    logger.levelNumbers "DEBUG" = none ∧
    (logger.filterSpec.mk []).fromString "debug" false d =
      (⟨[⟨"", logger.levelDebug⟩]⟩, none) ∧
    (logger.filterSpec.mk []).fromString "client.go=error,info,ip*=warn" false d =
      (⟨[⟨"client.go", logger.levelErr⟩, ⟨"ip*", logger.levelWarn⟩, ⟨"", logger.levelInfo⟩]⟩,
        none) :=
  ⟨rfl, rfl, rfl, rfl, rfl⟩

theorem spec.levelOf_of_filterLevel (isTraceLevels : Bool) (levelToken : String)
    (o : Option Int) (h : logger.fromString.filterLevel isTraceLevels levelToken = .ok o) :
    spec.levelOf isTraceLevels levelToken = o := by
  unfold logger.fromString.filterLevel at h
  unfold spec.levelOf
  cases isTraceLevels with
  | true =>
    simp only [if_true] at h ⊢
    cases ha : strconv.Atoi levelToken with
    | error e =>
      rw [ha] at h
      by_cases hl : levelToken = ""
      · simp only [hl, ne_eq, not_true_eq_false, if_false] at h
        cases h
        rfl
      · simp only [hl, ne_eq, not_false_eq_true, if_true] at h
        cases h
    | ok v =>
      rw [ha] at h
      cases h
      rfl
  | false =>
    simp only [Bool.false_eq_true, if_false] at h ⊢
    cases hn : logger.levelNumbers levelToken with
    | none =>
      rw [hn] at h
      by_cases hl : levelToken = ""
      · simp only [hl, ne_eq, not_true_eq_false, if_false] at h
        cases h
        rfl
      · simp only [hl, ne_eq, not_false_eq_true, if_true] at h
        cases h
    | some v =>
      rw [hn] at h
      by_cases hv : v = logger.levelTrace
      · by_cases hl : levelToken = ""
        · rw [hl] at hn
          have hnone : logger.levelNumbers "" = none := rfl
          rw [hnone] at hn
          cases hn
        · simp only [hv, if_true, hl, ne_eq, not_false_eq_true] at h
          cases h
      · simp only [hv, if_false] at h
        cases h
        rfl

theorem spec.getLast_getD_cons (v g : Int) (l : List Int) :
    (v :: l).getLast?.getD g = l.getLast?.getD v := by
  cases l with
  | nil => rfl
  | cons x xs =>
    rw [List.getLast?_cons_cons]
    have hx : (x :: xs).getLast? = some ((x :: xs).getLast (List.cons_ne_nil x xs)) :=
      List.getLast?_eq_getLast _ _
    rw [hx]
    rfl

theorem logger.loop_ok (isTraceLevels : Bool) (fields : List String) (g : Int)
    (fs fs1 : List logger.filter) (g1 : Int)
    (h : logger.fromString.loop isTraceLevels fields g fs = (fs1, .ok g1)) :
    fs1 = fs ++ spec.patternFilters isTraceLevels fields ∧
    g1 = (spec.globalLevels isTraceLevels fields).getLast?.getD g := by
  induction fields generalizing g fs with
  | nil =>
    simp only [logger.fromString.loop, Prod.mk.injEq, Except.ok.injEq] at h
    obtain ⟨h1, h2⟩ := h
    subst h1
    subst h2
    simp [spec.patternFilters, spec.globalLevels]
  | cons f rest ih =>
    unfold logger.fromString.loop at h
    cases ht : logger.fromString.tokens f with
    | error e =>
      rw [ht] at h
      simp at h
    | ok pl =>
      obtain ⟨p, l⟩ := pl
      rw [ht] at h
      simp only at h
      cases hl : logger.fromString.filterLevel isTraceLevels l with
      | error e =>
        rw [hl] at h
        simp at h
      | ok o =>
        have ho := spec.levelOf_of_filterLevel isTraceLevels l o hl
        rw [hl] at h
        cases o with
        | none =>
          simp only at h
          obtain ⟨h1, h2⟩ := ih g fs h
          refine ⟨?_, ?_⟩
          · rw [h1]
            simp [spec.patternFilters, ht, ho]
          · rw [h2]
            simp [spec.globalLevels, ht, ho]
        | some v =>
          simp only at h
          by_cases hp : p = ""
          · rw [if_pos hp] at h
            obtain ⟨h1, h2⟩ := ih v fs h
            refine ⟨?_, ?_⟩
            · rw [h1]
              simp [spec.patternFilters, ht, hp]
            · rw [h2]
              simp only [spec.globalLevels, List.filterMap_cons, ht, hp, if_true, ho]
              rw [spec.getLast_getD_cons]
          · rw [if_neg hp] at h
            obtain ⟨h1, h2⟩ := ih g (fs ++ [⟨p, v⟩]) h
            refine ⟨?_, ?_⟩
            · rw [h1]
              simp [spec.patternFilters, ht, hp, ho]
            · rw [h2]
              simp [spec.globalLevels, ht, hp]

theorem spec.patternFilters_pattern (isTraceLevels : Bool) (fields : List String) :
    ∀ f ∈ spec.patternFilters isTraceLevels fields, f.Pattern ≠ "" := by
  intro f hf
  unfold spec.patternFilters at hf
  obtain ⟨field, _, hfield⟩ := List.mem_filterMap.mp hf
  cases ht : logger.fromString.tokens field with
  | error e => simp [ht] at hfield
  | ok pl =>
    obtain ⟨p, l⟩ := pl
    simp only [ht] at hfield
    by_cases hp : p = ""
    · simp [hp] at hfield
    · simp only [hp, if_false, Option.map_eq_some'] at hfield
      obtain ⟨v, _, hv⟩ := hfield
      rw [← hv]
      exact hp

/-- C19 (shape of the filter list). For every string s and default d: when
`fromString(s, false, d)` succeeds on an empty filterSpec, the filters it
leaves are the pattern filters of s, in their order of appearance, followed by
exactly one filter with the empty pattern, the global filter, whose level is
the level of the last pattern-less level token of s, d when s has none; so the
list is non-empty, the global filter is its last element, and no other filter
has an empty pattern. When `fromString(s, true, d)` succeeds, the same holds
except that a global level of -1 is not stored: the list is then the pattern
filters alone, and empty when s gives no pattern filter. -/
theorem C19_filters_end_with_global (s : String) (d : Int) :
    (∀ spec1, (logger.filterSpec.mk []).fromString s false d = (spec1, none) →
      spec1.filters = spec.patternFilters false (strings.Split s ',') ++
        [⟨"", spec.globalLevel false s d⟩] ∧
      spec1.filters ≠ [] ∧
      spec1.filters.getLast? = some ⟨"", spec.globalLevel false s d⟩ ∧
      (∀ f ∈ spec.patternFilters false (strings.Split s ','), f.Pattern ≠ "") ∧
      (spec1.filters.filter (fun f => f.Pattern = "")).length = 1) ∧
    (∀ spec2, (logger.filterSpec.mk []).fromString s true d = (spec2, none) →
      spec2.filters = spec.patternFilters true (strings.Split s ',') ++
        (if spec.globalLevel true s d = -1 then []
          else [⟨"", spec.globalLevel true s d⟩]) ∧
      (∀ f ∈ spec.patternFilters true (strings.Split s ','), f.Pattern ≠ "") ∧
      (spec.globalLevel true s d = -1 →
        spec.patternFilters true (strings.Split s ',') = [] → spec2.filters = [])) := by
  constructor
  · intro spec1 h
    unfold logger.filterSpec.fromString at h
    cases hloop : logger.fromString.loop false (strings.Split s ',') d [] with
    | mk fs r =>
      rw [hloop] at h
      cases r with
      | error e => simp at h
      | ok g =>
        obtain ⟨h1, h2⟩ := logger.loop_ok false _ d [] fs g hloop
        simp only [Bool.not_false, Bool.true_or, if_true, Prod.mk.injEq, and_true] at h
        have hf : spec1.filters = spec.patternFilters false (strings.Split s ',') ++
            [⟨"", spec.globalLevel false s d⟩] := by
          rw [← h, h1, h2]
          simp [spec.globalLevel]
        have hpat := spec.patternFilters_pattern false (strings.Split s ',')
        refine ⟨hf, ?_, ?_, hpat, ?_⟩
        · rw [hf]
          simp
        · rw [hf]
          simp
        · rw [hf, List.filter_append]
          have hnil : (spec.patternFilters false (strings.Split s ',')).filter
              (fun f => decide (f.Pattern = "")) = [] := by
            rw [List.filter_eq_nil_iff]
            intro f hfm
            simpa using hpat f hfm
          rw [hnil]
          simp
  · intro spec2 h
    unfold logger.filterSpec.fromString at h
    cases hloop : logger.fromString.loop true (strings.Split s ',') d [] with
    | mk fs r =>
      rw [hloop] at h
      cases r with
      | error e => simp at h
      | ok g =>
        obtain ⟨h1, h2⟩ := logger.loop_ok true _ d [] fs g hloop
        have hg : g = spec.globalLevel true s d := h2
        have hf : spec2.filters = spec.patternFilters true (strings.Split s ',') ++
            (if spec.globalLevel true s d = -1 then []
              else [⟨"", spec.globalLevel true s d⟩]) := by
          rw [← hg]
          by_cases hm : g = -1
          · simp only [hm, logger.noTraceOutput, Bool.not_true, Bool.false_or, ne_eq,
              not_true_eq_false, decide_False, Bool.false_eq_true, if_false, Prod.mk.injEq,
              and_true, if_true] at h ⊢
            rw [← h, h1]
            simp
          · simp only [logger.noTraceOutput, Bool.not_true, Bool.false_or, ne_eq, hm,
              not_false_eq_true, decide_True, if_true, Prod.mk.injEq, and_true,
              if_false] at h ⊢
            rw [← h, h1]
            simp
        refine ⟨hf, spec.patternFilters_pattern true _, ?_⟩
        intro hm hp
        rw [hf, hp, if_pos hm]
        rfl

/-- Example for C19: a log specification with two pattern filters and two
global tokens, and a trace specification whose global level is -1. -/
theorem C19_filters_end_with_global_example :
    (logger.filterSpec.mk []).fromString "warn,client.go=error,,ip*=debug,=fatal" false 4 =
      (⟨[⟨"client.go", 2⟩, ⟨"ip*", 5⟩, ⟨"", 1⟩]⟩, none) ∧
    spec.globalLevel false "warn,client.go=error,,ip*=debug,=fatal" 4 = 1 ∧
    (logger.filterSpec.mk []).fromString "-1" true 3 = (⟨[]⟩, none) ∧
    (logger.filterSpec.mk []).fromString "client.go=1,ip*=5,3" true (-1) =
      (⟨[⟨"client.go", 1⟩, ⟨"ip*", 5⟩, ⟨"", 3⟩]⟩, none) ∧
    ((logger.filterSpec.mk []).fromString "warn,client.go=error,,ip*=debug,=fatal" false
      4).1.filters.getLast? = some ⟨"", spec.globalLevel false
        "warn,client.go=error,,ip*=debug,=fatal" 4⟩ :=
  ⟨rfl, rfl, rfl, rfl,
    ((C19_filters_end_with_global "warn,client.go=error,,ip*=debug,=fatal" 4).1 _ rfl).2.2.1⟩

theorem logger.matchfilters_loop_eq (fp : logger.Filepath) (filename : String) (level : Int)
    (fs : List logger.filter) :
    logger.matchfilters.loop fp filename level fs =
      match fs.find? (fun f => (f.match_ fp filename level).1) with
      | some f => (f.match_ fp filename level).2
      | none => false := by
  induction fs with
  | nil => rfl
  | cons f rest ih =>
    unfold logger.matchfilters.loop
    by_cases h : (f.match_ fp filename level).1 = true
    · simp [List.find?_cons, h]
    · have hf : (f.match_ fp filename level).1 = false := by simpa using h
      simp only [hf, Bool.false_eq_true, if_false, List.find?_cons]
      exact ih

theorem logger.match_eq (fp : logger.Filepath) (f : logger.filter) (filename : String)
    (level : Int) :
    f.match_ fp filename level =
      (spec.patternMatches fp f filename,
        spec.patternMatches fp f filename && decide (level ≤ f.Level)) := by
  unfold logger.filter.match_ spec.patternMatches
  by_cases hp : f.Pattern = ""
  · simp [hp]
  · cases hm : fp.Match f.Pattern (fp.Base filename) <;> simp [hp, hm]

theorem logger.match_decision (fp : logger.Filepath) (f : logger.filter) (filename : String)
    (level : Int) (h : (f.match_ fp filename level).1 = true) :
    (f.match_ fp filename level).2 = decide (level ≤ f.Level) := by
  unfold logger.filter.match_ at h ⊢
  by_cases hm : (if f.Pattern ≠ "" then fp.Match f.Pattern (fp.Base filename) else true) = true
  · simp only [hm, if_true]
  · simp [hm] at h

theorem logger.NewLogger_level (openFile : String → Option String) (name s : String)
    (hs : s ∈ ["none", "fatal", "error", "warn", "info", "debug"]) :
    ∃ L, logger.levelNumbers s = some L ∧ 0 ≤ L ∧ L ≤ 5 ∧
      logger.NewLogger openFile name s = some ⟨⟨[⟨"", L⟩]⟩, some "stderr", none⟩ := by
  simp only [List.mem_cons, List.mem_singleton, List.not_mem_nil, or_false] at hs
  rcases hs with h | h | h | h | h | h <;> subst h
  · exact ⟨0, rfl, by decide, by decide, rfl⟩
  · exact ⟨1, rfl, by decide, by decide, rfl⟩
  · exact ⟨2, rfl, by decide, by decide, rfl⟩
  · exact ⟨3, rfl, by decide, by decide, rfl⟩
  · exact ⟨4, rfl, by decide, by decide, rfl⟩
  · exact ⟨5, rfl, by decide, by decide, rfl⟩

theorem logger.basicLog_global (fp : logger.Filepath) (L m : Int) (line : String) :
    logger.Logger.basicLog fp ⟨⟨[⟨"", L⟩]⟩, some "stderr", none⟩ m line =
      if m ≤ L then [("stderr", line)] else [] := by
  by_cases h : m ≤ L
  · simp [logger.Logger.basicLog, logger.filterSpec.matchfilters, logger.matchfilters.loop,
      logger.filter.match_, h]
  · simp [logger.Logger.basicLog, logger.filterSpec.matchfilters, logger.matchfilters.loop,
      logger.filter.match_, h]

/-- C20 (filter decision). `matchfilters` is false on an empty filter list
and otherwise is the decision `level <= filter.Level` of the first filter
whose pattern matches, false when none matches; a pattern matches when it is
empty or `filepath.Match` accepts the base name of the file for it, and the
filters before the first matching one and after it have no say. For a Logger
built by
`NewLogger(name, s)` with s one of "none", "fatal", "error", "warn", "info",
"debug", construction does not panic and a message of level m is written (to
stderr, the one writer) if and only if m <= levelNumbers[s]. Hence "none"
writes no message of the levels fatal to debug, "debug" writes all of them,
and a logger configured with a level at least as high writes every message a
logger with a lower level writes. -/
theorem C20_first_matching_filter_decides (fp : logger.Filepath) :
    (∀ filename level, (logger.filterSpec.mk []).matchfilters fp filename level = false) ∧
    (∀ (spec0 : logger.filterSpec) filename level,
      spec0.matchfilters fp filename level =
        match spec0.filters.find? (fun f => spec.patternMatches fp f filename) with
        | some f => decide (level ≤ f.Level)
        | none => false) ∧
    (∀ (f : logger.filter) (filename : String),
      spec.patternMatches fp f filename = true ↔
        f.Pattern = "" ∨ fp.Match f.Pattern (fp.Base filename) = true) ∧
    (∀ (f : logger.filter) (filename : String) (level : Int),
      f.match_ fp filename level =
        (spec.patternMatches fp f filename,
          spec.patternMatches fp f filename && decide (level ≤ f.Level))) ∧
    (∀ (before after : List logger.filter) (f : logger.filter) (filename : String)
        (level : Int),
      (∀ g ∈ before, spec.patternMatches fp g filename = false) →
      spec.patternMatches fp f filename = true →
      ((logger.filterSpec.mk (before ++ f :: after)).matchfilters fp filename level = true ↔
        level ≤ f.Level)) ∧
    (∀ (fs : List logger.filter) (filename : String) (level : Int),
      (∀ g ∈ fs, spec.patternMatches fp g filename = false) →
      (logger.filterSpec.mk fs).matchfilters fp filename level = false) ∧
    (∀ (openFile : String → Option String) (name s : String),
      s ∈ ["none", "fatal", "error", "warn", "info", "debug"] →
      ∃ l L, logger.NewLogger openFile name s = some l ∧ logger.levelNumbers s = some L ∧
        ∀ (m : Int) (line : String),
          (l.basicLog fp m line ≠ [] ↔ m ≤ L) ∧
          l.basicLog fp m line = if m ≤ L then [("stderr", line)] else []) ∧
    (∀ (openFile : String → Option String) (name : String),
      ∃ l, logger.NewLogger openFile name "none" = some l ∧
        ∀ (m : Int) (line : String), logger.levelFatal ≤ m → l.basicLog fp m line = []) ∧
    (∀ (openFile : String → Option String) (name : String),
      ∃ l, logger.NewLogger openFile name "debug" = some l ∧
        ∀ (m : Int) (line : String), m ≤ logger.levelDebug → l.basicLog fp m line ≠ []) ∧
    (∀ (openFile : String → Option String) (name s1 s2 : String) (L1 L2 : Int),
      s1 ∈ ["none", "fatal", "error", "warn", "info", "debug"] →
      s2 ∈ ["none", "fatal", "error", "warn", "info", "debug"] →
      logger.levelNumbers s1 = some L1 → logger.levelNumbers s2 = some L2 → L1 ≤ L2 →
      ∃ l1 l2, logger.NewLogger openFile name s1 = some l1 ∧
        logger.NewLogger openFile name s2 = some l2 ∧
        ∀ (m : Int) (line : String), l1.basicLog fp m line ≠ [] → l2.basicLog fp m line ≠ []) := by
  have hfirst : ∀ (spec0 : logger.filterSpec) (filename : String) (level : Int),
      spec0.matchfilters fp filename level =
        match spec0.filters.find? (fun f => spec.patternMatches fp f filename) with
        | some f => decide (level ≤ f.Level)
        | none => false := by
    intro spec0 filename level
    have hfun : (fun f : logger.filter => (f.match_ fp filename level).1) =
        fun f => spec.patternMatches fp f filename := by
      funext f
      rw [logger.match_eq]
    unfold logger.filterSpec.matchfilters
    by_cases h0 : spec0.filters.length = 0
    · have hnil : spec0.filters = [] := List.length_eq_zero.mp h0
      simp [hnil]
    · rw [if_neg h0, logger.matchfilters_loop_eq, hfun]
      cases hfind : spec0.filters.find? (fun f => spec.patternMatches fp f filename) with
      | none => rfl
      | some f =>
        have hm : (f.match_ fp filename level).1 = true := by
          have := List.find?_some hfind
          rw [logger.match_eq]
          simpa using this
        exact logger.match_decision fp f filename level hm
  refine ⟨fun _ _ => rfl, hfirst, ?_, logger.match_eq fp, ?_, ?_, ?_, ?_, ?_, ?_⟩
  · intro f filename
    simp [spec.patternMatches]
  · intro before after f filename level hbefore hf
    rw [hfirst]
    have hfind : (before ++ f :: after).find? (fun f => spec.patternMatches fp f filename) =
        some f := by
      rw [List.find?_append]
      have hnone : before.find? (fun f => spec.patternMatches fp f filename) = none := by
        rw [List.find?_eq_none]
        intro g hg
        simp [hbefore g hg]
      rw [hnone]
      simp [List.find?_cons, hf]
    simp only [hfind, decide_eq_true_eq]
  · intro fs filename level hfs
    rw [hfirst]
    have hnone : fs.find? (fun f => spec.patternMatches fp f filename) = none := by
      rw [List.find?_eq_none]
      intro g hg
      simp [hfs g hg]
    simp only [hnone]
  · intro openFile name s hs
    obtain ⟨L, hL, _, _, hnew⟩ := logger.NewLogger_level openFile name s hs
    refine ⟨_, L, hnew, hL, ?_⟩
    intro m line
    rw [logger.basicLog_global]
    by_cases h : m ≤ L <;> simp [h]
  · intro openFile name
    refine ⟨⟨⟨[⟨"", 0⟩]⟩, some "stderr", none⟩, rfl, ?_⟩
    intro m line hm
    rw [logger.basicLog_global]
    have : ¬ m ≤ 0 := by
      unfold logger.levelFatal at hm
      omega
    simp [this]
  · intro openFile name
    refine ⟨⟨⟨[⟨"", 5⟩]⟩, some "stderr", none⟩, rfl, ?_⟩
    intro m line hm
    rw [logger.basicLog_global]
    have : m ≤ 5 := hm
    simp [this]
  · intro openFile name s1 s2 L1 L2 h1 h2 hL1 hL2 hle
    obtain ⟨K1, hK1, _, _, hnew1⟩ := logger.NewLogger_level openFile name s1 h1
    obtain ⟨K2, hK2, _, _, hnew2⟩ := logger.NewLogger_level openFile name s2 h2
    rw [hL1] at hK1
    rw [hL2] at hK2
    cases hK1
    cases hK2
    refine ⟨_, _, hnew1, hnew2, ?_⟩
    intro m line
    rw [logger.basicLog_global, logger.basicLog_global]
    by_cases hm : m ≤ L1
    · have hm2 : m ≤ L2 := le_trans hm hle
      simp [hm, hm2]
    · simp [hm]

/-- Example of C20 with the filters client.go at level error (2) and the
global filter at level info (4), `filepath.Match` and `filepath.Base` taken on
plain names. The pattern client.go matches the file net/client.go and not
net/server.go. For net/client.go the first filter decides: a message of level
warn (3) is refused although the global filter would accept it, one of level
error (2) is accepted. For net/server.go the global filter decides: warn (3)
is accepted, debug (5) refused. With the pattern filter alone nothing of
net/server.go is accepted. -/
theorem C20_first_matching_filter_decides_example :
    spec.patternMatches sample.filepath ⟨"client.go", 2⟩ "net/client.go" = true ∧
    spec.patternMatches sample.filepath ⟨"client.go", 2⟩ "net/server.go" = false ∧
    spec.patternMatches sample.filepath ⟨"", 4⟩ "net/server.go" = true ∧
    (logger.filterSpec.mk [⟨"client.go", 2⟩, ⟨"", 4⟩]).matchfilters sample.filepath
      "net/client.go" 3 = false ∧
    (logger.filterSpec.mk [⟨"client.go", 2⟩, ⟨"", 4⟩]).matchfilters sample.filepath
      "net/client.go" 2 = true ∧
    (logger.filterSpec.mk [⟨"client.go", 2⟩, ⟨"", 4⟩]).matchfilters sample.filepath
      "net/server.go" 3 = true ∧
    (logger.filterSpec.mk [⟨"client.go", 2⟩, ⟨"", 4⟩]).matchfilters sample.filepath
      "net/server.go" 5 = false ∧
    (logger.filterSpec.mk [⟨"client.go", 2⟩]).matchfilters sample.filepath
      "net/server.go" 1 = false ∧
    ((logger.filterSpec.mk [⟨"client.go", 2⟩, ⟨"", 4⟩]).matchfilters sample.filepath
      "net/client.go" 3 = true ↔ (3 : Int) ≤ 2) :=
  ⟨rfl, rfl, rfl, rfl, rfl, rfl, rfl, rfl,
    (C20_first_matching_filter_decides sample.filepath).2.2.2.2.1 [] [⟨"", 4⟩]
      ⟨"client.go", 2⟩ "net/client.go" 3 (by simp) rfl⟩

/-! ## The project directory and the entry point -/

theorem project.GetProjects_eq (dir : api.Directory) (rm : api.ResourceManager)
    (h : dir.NewService = .ok rm) :
    project.GetProjects dir =
      some (match spec.failure rm.ProjectsList with
        | some err => .error err
        | none => .ok ((spec.delivered rm.ProjectsList).flatMap (fun page =>
            page.Projects.map (fun p => (⟨p.ProjectId, p.Name⟩ : project.Project))))) := by
  unfold project.GetProjects
  rw [h]
  simp only
  rw [api.Pages_rows _
    (fun page : api.ListProjectsResponse =>
      page.Projects.map (fun p => (⟨p.ProjectId, p.Name⟩ : project.Project)))
    (by
      intro page s
      rw [golang.foldl_row (fun p : api.DirectoryProject =>
        (⟨p.ProjectId, p.Name⟩ : project.Project))])]
  cases spec.failure rm.ProjectsList with
  | none => simp
  | some err => rfl

theorem gcp_inventory_exporter.logger_created (openFile : String → Option String) :
    logger.NewLogger openFile "ExportInventory" "debug" =
      some ⟨⟨[⟨"", 5⟩]⟩, some "stderr", none⟩ := rfl

/-- C16 (the project listing is fatal). If any page request of the project
listing fails, `GetProjects` returns that error and no project list, also when
earlier pages had delivered projects (and likewise when the service cannot be
created). Whenever `GetProjects` returns an error, `processInventory` does not
panic, answers with status 500, has called no inventory function, has written
nothing to the export file and has made no `SaveFile` call; when the steps
before the project listing succeed (valid configuration, storage client
created, bucket present or created) the body of the answer is the text of the
error of `GetProjects`. -/
theorem C16_project_listing_failure_is_fatal :
    (∀ (dir : api.Directory) (rm : api.ResourceManager) (e : String),
      dir.NewService = .ok rm → spec.failure rm.ProjectsList = some e →
      project.GetProjects dir = some (.error e)) ∧
    (∀ (dir : api.Directory) (e : String),
      dir.NewService = .error e → project.GetProjects dir = some (.error e)) ∧
    (∀ (w : gcp_inventory_exporter.World) (e : String),
      project.GetProjects w.directory = some (.error e) →
      ∃ run, gcp_inventory_exporter.processInventory w = some run ∧
        run.response.status = 500 ∧ run.collected = [] ∧ run.xlsFile.file = [] ∧
        run.saved = [] ∧
        (∀ client, w.cfg.Validate = none → w.newClient = .ok client →
          (storage.Storage.mk client w.cfg.ExportProjectId).BucketExistsOrCreate w.backend
            w.cfg.ExportBucketName = none →
          run.response.body = e)) := by
  refine ⟨?_, ?_, ?_⟩
  · intro dir rm e hs hf
    rw [project.GetProjects_eq dir rm hs, hf]
  · intro dir e hs
    unfold project.GetProjects
    rw [hs]
  · intro w e hp
    unfold gcp_inventory_exporter.processInventory
    rw [gcp_inventory_exporter.logger_created]
    simp only
    cases hv : w.cfg.Validate with
    | some err =>
      refine ⟨_, rfl, rfl, rfl, rfl, rfl, ?_⟩
      intro client h1
      cases h1
    | none =>
      simp only
      cases hc : w.newClient with
      | error err =>
        simp only [storage.NewStorage]
        refine ⟨_, rfl, rfl, rfl, rfl, rfl, ?_⟩
        intro client _ h2
        cases h2
      | ok client =>
        simp only [storage.NewStorage]
        cases hb : (storage.Storage.mk client w.cfg.ExportProjectId).BucketExistsOrCreate
            w.backend w.cfg.ExportBucketName with
        | some err =>
          refine ⟨_, rfl, rfl, rfl, rfl, rfl, ?_⟩
          intro client1 _ h2 h3
          cases h2
          rw [hb] at h3
          cases h3
        | none =>
          simp only [hp]
          exact ⟨_, rfl, rfl, rfl, rfl, rfl, fun _ _ _ _ => rfl⟩

/-- Example for C16: in the sample world the project listing delivers two
projects and then fails; `GetProjects` returns the error and
`processInventory` answers 500 with its text, no inventory collected, no sheet
written, no file saved. -/
theorem C16_project_listing_failure_is_fatal_example :
    project.GetProjects sample.directory = some (.error "directory unavailable") ∧
    (∃ run, gcp_inventory_exporter.processInventory sample.world = some run ∧
      run.response.status = 500 ∧ run.collected = [] ∧ run.xlsFile.file = [] ∧
      run.saved = [] ∧ run.response.body = "directory unavailable") := by
  refine ⟨rfl, ?_⟩
  obtain ⟨run, h1, h2, h3, h4, h5, h6⟩ :=
    C16_project_listing_failure_is_fatal.2.2 sample.world "directory unavailable" rfl
  exact ⟨run, h1, h2, h3, h4, h5, h6 sample.store.client rfl rfl rfl⟩

/-! ## The fan-out/fan-in code returns after all goroutines -/

theorem golang.fanInv_start {α : Type} (goroutine : α → Option (List (List String)))
    (projects : List α) (header : List String) :
    golang.FanInv goroutine projects header (golang.FanState.start projects header) := by
  refine ⟨?_, ?_, ⟨[], ?_, ?_⟩, ?_, ?_, ?_⟩
  · simp [golang.FanState.start, golang.FanState.holder]
  · simp [golang.FanState.start, golang.FanState.holder]
  · simp [golang.FanState.start, golang.FanState.appended]
  · simp [golang.FanState.start]
  · intro p loc h
    simp [golang.FanState.start] at h
  · intro p loc h
    simp [golang.FanState.start] at h
  · intro t h
    simp [golang.FanState.start] at h

theorem golang.fanInv_step {α : Type} (goroutine : α → Option (List (List String)))
    (projects : List α) (header : List String) (s s1 : golang.FanState α)
    (hinv : golang.FanInv goroutine projects header s)
    (hstep : golang.FanStep goroutine s s1) :
    golang.FanInv goroutine projects header s1 := by
  classical
  obtain ⟨hall, hcount, ⟨order, horder, hinventory⟩, hready, hlocked, hret⟩ := hinv
  cases hstep with
  | launch p rest hp hr ht =>
    refine ⟨?_, ?_, ⟨order, ?_, ?_⟩, ?_, ?_, ?_⟩
    · simp only [golang.FanState.holder, ht] at hall ⊢
      refine List.Perm.trans ?_ hall
      rw [List.perm_iff_count]
      intro a
      simp only [List.count_append, List.count_cons, List.count_nil]
      omega
    · simp only [golang.FanState.holder, ht, List.length_cons, List.length_append,
        List.length_nil] at hcount ⊢
      omega
    · exact horder
    · exact hinventory
    · exact hready
    · exact hlocked
    · intro t h
      rw [hr] at h
      cases h
  | compute p before after loc hp hrun hloc =>
    refine ⟨?_, ?_, ⟨order, ?_, ?_⟩, ?_, ?_, ?_⟩
    · simp only [golang.FanState.holder, hrun, List.map_append, List.map_cons,
        List.map_nil] at hall ⊢
      refine List.Perm.trans ?_ hall
      rw [List.perm_iff_count]
      intro a
      simp only [List.count_append, List.count_cons, List.count_nil]
      omega
    · simp only [golang.FanState.holder, hrun, List.length_cons, List.length_append,
        List.length_nil] at hcount ⊢
      omega
    · exact horder
    · exact hinventory
    · intro q l hq
      rcases List.mem_append.mp hq with h | h
      · exact hready q l h
      · simp only [List.mem_singleton, Prod.mk.injEq] at h
        rw [h.1, h.2]
        exact hloc
    · exact hlocked
    · intro t h
      obtain ⟨h1, h2, h3⟩ := hret t h
      rw [h3, h2, hrun] at hcount
      simp only [List.length_append, List.length_cons] at hcount
      omega
  | crash p before after hp hrun hloc =>
    exact ⟨hall, hcount, ⟨order, horder, hinventory⟩, hready, hlocked, hret⟩
  | lock p loc before after hp hrd hfree =>
    refine ⟨?_, ?_, ⟨order, ?_, ?_⟩, ?_, ?_, ?_⟩
    · simp only [golang.FanState.holder, hrd, hfree, List.map_append, List.map_cons,
        List.map_nil] at hall ⊢
      refine List.Perm.trans ?_ hall
      rw [List.perm_iff_count]
      intro a
      simp only [List.count_append, List.count_cons, List.count_nil]
      omega
    · simp only [golang.FanState.holder, hrd, hfree, List.length_cons, List.length_append,
        List.length_nil] at hcount ⊢
      omega
    · simp only [golang.FanState.appended, hfree] at horder ⊢
      exact horder
    · exact hinventory
    · intro q l hq
      apply hready q l
      rw [hrd]
      rcases List.mem_append.mp hq with h | h
      · exact List.mem_append_left _ h
      · exact List.mem_append_right _ (List.mem_cons_of_mem _ h)
    · intro q l hq
      simp only [Option.some.injEq, Prod.mk.injEq] at hq
      obtain ⟨h1, h2⟩ := hq
      apply hready
      rw [hrd, ← h1, ← h2]
      simp
    · intro t h
      obtain ⟨h1, h2, h3⟩ := hret t h
      rw [h3, h2, hrd] at hcount
      simp only [List.length_append, List.length_cons] at hcount
      omega
  | append p loc hp hl =>
    refine ⟨?_, ?_, ⟨order ++ [p], ?_, ?_⟩, ?_, ?_, ?_⟩
    · simp only [golang.FanState.holder, hl] at hall ⊢
      exact hall
    · simp only [golang.FanState.holder, hl] at hcount ⊢
      exact hcount
    · simp only [golang.FanState.appended, hl] at horder ⊢
      refine List.Perm.trans ?_ (List.Perm.append_left [p] horder)
      rw [List.perm_iff_count]
      intro a
      simp only [List.count_append, List.count_cons, List.count_nil]
      omega
    · simp only [hinventory, List.flatMap_append, List.flatMap_cons, List.flatMap_nil,
        hlocked p loc hl, Option.getD_some, List.append_nil, List.cons_append]
    · exact hready
    · intro q l hq
      simp at hq
    · intro t h
      obtain ⟨h1, h2, h3⟩ := hret t h
      simp only [h3, golang.FanState.holder, hl, List.length_cons, List.length_nil] at hcount
      omega
  | unlock p hp hl =>
    refine ⟨?_, ?_, ⟨order, ?_, ?_⟩, ?_, ?_, ?_⟩
    · simp only [golang.FanState.holder, hl] at hall ⊢
      refine List.Perm.trans ?_ hall
      rw [List.perm_iff_count]
      intro a
      simp only [List.count_append, List.count_cons, List.count_nil]
      omega
    · simp only [golang.FanState.holder, hl, List.length_cons, List.length_append,
        List.length_nil] at hcount ⊢
      omega
    · simp only [golang.FanState.appended, hl] at horder ⊢
      refine List.Perm.trans horder ?_
      rw [List.perm_iff_count]
      intro a
      simp only [List.count_append, List.count_cons, List.count_nil]
      omega
    · exact hinventory
    · exact hready
    · intro q l hq
      simp at hq
    · intro t h
      obtain ⟨h1, h2, h3⟩ := hret t h
      simp only [h3, golang.FanState.holder, hl, List.length_cons, List.length_nil] at hcount
      omega
  | done p before after hp hu =>
    refine ⟨?_, ?_, ⟨order, ?_, ?_⟩, ?_, ?_, ?_⟩
    · simp only [hu] at hall ⊢
      refine List.Perm.trans ?_ hall
      rw [List.perm_iff_count]
      intro a
      simp only [golang.FanState.holder, List.count_append, List.count_cons, List.count_nil]
      omega
    · simp only [golang.FanState.holder, hu, List.length_cons, List.length_append,
        List.length_nil] at hcount ⊢
      omega
    · simp only [golang.FanState.appended, hu] at horder ⊢
      refine List.Perm.trans horder ?_
      rw [List.perm_iff_count]
      intro a
      simp only [List.count_append, List.count_cons, List.count_nil]
      omega
    · exact hinventory
    · exact hready
    · exact hlocked
    · intro t h
      obtain ⟨h1, h2, h3⟩ := hret t h
      rw [h3, hu] at hcount
      simp only [List.length_append, List.length_cons] at hcount
      omega
  | ret hp hr ht hc =>
    refine ⟨hall, hcount, ⟨order, horder, hinventory⟩, hready, hlocked, ?_⟩
    intro t h
    simp only [Option.some.injEq] at h
    exact ⟨h.symm, ht, hc⟩

theorem golang.fanInv_reachable {α : Type} (goroutine : α → Option (List (List String)))
    (projects : List α) (header : List String) (s : golang.FanState α)
    (h : golang.FanReachable goroutine projects header s) :
    golang.FanInv goroutine projects header s := by
  unfold golang.FanReachable at h
  induction h with
  | refl => exact golang.fanInv_start goroutine projects header
  | tail _ hstep ih => exact golang.fanInv_step goroutine projects header _ _ ih hstep

theorem golang.fan_launchAll {α : Type} (goroutine : α → Option (List (List String)))
    (todo running finished : List α) (counter : Int) (inventory : List (List String)) :
    Relation.ReflTransGen (golang.FanStep goroutine)
      (golang.FanState.quiet todo running finished counter inventory)
      (golang.FanState.quiet [] (running ++ todo) finished counter inventory) := by
  induction todo generalizing running with
  | nil =>
    rw [List.append_nil]
  | cons p rest ih =>
    have h1 : golang.FanStep goroutine
        (golang.FanState.quiet (p :: rest) running finished counter inventory)
        (golang.FanState.quiet rest (running ++ [p]) finished counter inventory) :=
      golang.FanStep.launch _ p rest rfl rfl rfl
    have h2 := ih (running ++ [p])
    rw [List.append_assoc, List.singleton_append] at h2
    exact Relation.ReflTransGen.head h1 h2

theorem golang.fan_processOne {α : Type} (goroutine : α → Option (List (List String)))
    (buf : α → List (List String)) (hw : ∀ p, goroutine p = some (buf p))
    (before : List α) (p : α) (after finished : List α) (counter : Int)
    (inventory : List (List String)) :
    Relation.ReflTransGen (golang.FanStep goroutine)
      (golang.FanState.quiet [] (before ++ p :: after) finished counter inventory)
      (golang.FanState.quiet [] (before ++ after) (finished ++ [p]) (counter - 1)
        (inventory ++ buf p)) := by
  have h1 : golang.FanStep goroutine
      (golang.FanState.quiet [] (before ++ p :: after) finished counter inventory)
      { golang.FanState.quiet [] (before ++ after) finished counter inventory with
        ready := [(p, buf p)] } :=
    golang.FanStep.compute _ p before after (buf p) rfl rfl (hw p)
  have h2 : golang.FanStep goroutine
      { golang.FanState.quiet [] (before ++ after) finished counter inventory with
        ready := [(p, buf p)] }
      { golang.FanState.quiet [] (before ++ after) finished counter inventory with
        locked := some (p, some (buf p)) } :=
    golang.FanStep.lock _ p (buf p) [] [] rfl rfl rfl
  have h3 : golang.FanStep goroutine
      { golang.FanState.quiet [] (before ++ after) finished counter inventory with
        locked := some (p, some (buf p)) }
      { golang.FanState.quiet [] (before ++ after) finished counter (inventory ++ buf p) with
        locked := some (p, none) } :=
    golang.FanStep.append _ p (buf p) rfl rfl
  have h4 : golang.FanStep goroutine
      { golang.FanState.quiet [] (before ++ after) finished counter (inventory ++ buf p) with
        locked := some (p, none) }
      { golang.FanState.quiet [] (before ++ after) finished counter (inventory ++ buf p) with
        unlocked := [p] } :=
    golang.FanStep.unlock _ p rfl rfl
  have h5 : golang.FanStep goroutine
      { golang.FanState.quiet [] (before ++ after) finished counter (inventory ++ buf p) with
        unlocked := [p] }
      (golang.FanState.quiet [] (before ++ after) (finished ++ [p]) (counter - 1)
        (inventory ++ buf p)) :=
    golang.FanStep.done _ p [] [] rfl rfl
  exact Relation.ReflTransGen.head h1 (Relation.ReflTransGen.head h2
    (Relation.ReflTransGen.head h3 (Relation.ReflTransGen.head h4
      (Relation.ReflTransGen.single h5))))

theorem golang.fan_processAll {α : Type} (goroutine : α → Option (List (List String)))
    (buf : α → List (List String)) (hw : ∀ p, goroutine p = some (buf p))
    (order running finished : List α) (counter : Int) (inventory : List (List String))
    (hperm : order.Perm running) :
    Relation.ReflTransGen (golang.FanStep goroutine)
      (golang.FanState.quiet [] running finished counter inventory)
      (golang.FanState.quiet [] [] (finished ++ order) (counter - order.length)
        (inventory ++ order.flatMap buf)) := by
  induction order generalizing running finished counter inventory with
  | nil =>
    have hr : running = [] := List.Perm.eq_nil hperm.symm
    rw [hr]
    simp only [List.append_nil, List.length_nil, Nat.cast_zero, sub_zero, List.flatMap_nil]
    exact Relation.ReflTransGen.refl
  | cons p rest ih =>
    have hmem : p ∈ running := hperm.subset (List.mem_cons_self p rest)
    obtain ⟨before, after, hrun⟩ := List.append_of_mem hmem
    have hrest : rest.Perm (before ++ after) := by
      rw [hrun] at hperm
      exact List.Perm.cons_inv (hperm.trans List.perm_middle)
    have h1 := golang.fan_processOne goroutine buf hw before p after finished counter inventory
    have h2 := ih (before ++ after) (finished ++ [p]) (counter - 1) (inventory ++ buf p) hrest
    rw [hrun]
    have e1 : finished ++ [p] ++ rest = finished ++ p :: rest := by simp
    have e2 : counter - 1 - (rest.length : Int) = counter - ((p :: rest).length : Int) := by
      simp only [List.length_cons]
      push_cast
      ring
    have e3 : inventory ++ buf p ++ rest.flatMap buf = inventory ++ (p :: rest).flatMap buf := by
      simp
    rw [e1, e2, e3] at h2
    exact Relation.ReflTransGen.trans h1 h2

theorem golang.fan_run_exists {α : Type} (goroutine : α → Option (List (List String)))
    (buf : α → List (List String)) (hw : ∀ p, goroutine p = some (buf p))
    (projects : List α) (header : List String) (order : List α) (hperm : order.Perm projects) :
    ∃ s, golang.FanReachable goroutine projects header s ∧
      s.returned = some (header :: order.flatMap buf) := by
  have h1 := golang.fan_launchAll goroutine projects [] [] (projects.length : Int) [header]
  have h2 := golang.fan_processAll goroutine buf hw order projects [] (projects.length : Int)
    [header] hperm
  have hlen : (projects.length : Int) - (order.length : Int) = 0 := by
    rw [hperm.length_eq]
    exact sub_self _
  rw [hlen] at h2
  rw [List.nil_append] at h1
  have h3 : golang.FanStep goroutine
      (golang.FanState.quiet [] [] ([] ++ order) 0 ([header] ++ order.flatMap buf))
      { golang.FanState.quiet [] [] ([] ++ order) 0 ([header] ++ order.flatMap buf) with
        returned := some ([header] ++ order.flatMap buf) } :=
    golang.FanStep.ret _ rfl rfl rfl rfl
  refine ⟨_, Relation.ReflTransGen.tail (Relation.ReflTransGen.trans h1 h2) h3, ?_⟩
  simp

theorem golang.returnsAfterAllFinished {α : Type}
    (goroutine : α → Option (List (List String))) (buf : α → List (List String))
    (hw : ∀ p, goroutine p = some (buf p)) (projects : List α) (header : List String) :
    spec.ReturnsAfterAllFinished goroutine projects header := by
  have hsafe : ∀ s t, golang.FanReachable goroutine projects header s → s.returned = some t →
      s.finished.Perm projects ∧ s.todo = [] ∧ s.running = [] ∧ s.ready = [] ∧
      s.locked = none ∧ s.unlocked = [] ∧ s.counter = 0 ∧ s.inventory = t ∧
      (∃ order : List α, order.Perm projects ∧
        t = header :: order.flatMap (fun p => (goroutine p).getD [])) ∧
      (∀ s1, ¬ golang.FanStep goroutine s s1) := by
    intro s t hreach hret
    obtain ⟨hall, hcount, ⟨order, horder, hinventory⟩, _, _, hatret⟩ :=
      golang.fanInv_reachable goroutine projects header s hreach
    obtain ⟨ht, htodo, hc⟩ := hatret t hret
    rw [hc] at hcount
    have hzero : s.todo.length + s.running.length + s.ready.length + s.holder.length +
        s.unlocked.length = 0 := by
      omega
    have hrun : s.running = [] := List.length_eq_zero.mp (by omega)
    have hready : s.ready = [] := List.length_eq_zero.mp (by omega)
    have hunl : s.unlocked = [] := List.length_eq_zero.mp (by omega)
    have hhold : s.holder = [] := List.length_eq_zero.mp (by omega)
    have hlock : s.locked = none := by
      cases hl : s.locked with
      | none => rfl
      | some pl =>
        obtain ⟨p, l⟩ := pl
        simp [golang.FanState.holder, hl] at hhold
    have happ : s.appended = [] := by simp [golang.FanState.appended, hlock]
    have hfin : s.finished.Perm projects := by
      simpa [htodo, hrun, hready, hhold, hunl] using hall
    refine ⟨hfin, htodo, hrun, hready, hlock, hunl, hc, ht.symm, ⟨order, ?_, ?_⟩, ?_⟩
    · have : order.Perm s.finished := by simpa [happ, hunl] using horder
      exact this.trans hfin
    · rw [ht, hinventory]
    · intro s1 hstep
      cases hstep with
      | launch p rest hp hr ht1 => rw [hret] at hr; cases hr
      | compute p before after loc hp hrun1 hloc => rw [hrun] at hrun1; simp at hrun1
      | crash p before after hp hrun1 hloc => rw [hrun] at hrun1; simp at hrun1
      | lock p loc before after hp hrd hfree => rw [hready] at hrd; simp at hrd
      | append p loc hp hl => rw [hlock] at hl; cases hl
      | unlock p hp hl => rw [hlock] at hl; cases hl
      | done p before after hp hu => rw [hunl] at hu; simp at hu
      | ret hp hr ht1 hc1 => rw [hret] at hr; cases hr
  refine ⟨hsafe, ?_⟩
  have hbuf : (fun p => (goroutine p).getD []) = buf := by
    funext p
    rw [hw p]
    rfl
  intro t
  constructor
  · rintro ⟨s, hreach, hret⟩
    obtain ⟨_, _, _, _, _, _, _, _, ⟨order, hperm, ht⟩, _⟩ := hsafe s t hreach hret
    obtain ⟨sched, hsched⟩ := golang.completionOrder_onto order projects hperm
    refine ⟨sched, ?_⟩
    rw [golang.fanIn_eq sched projects goroutine buf hw, hsched, ht, hbuf]
    rfl
  · rintro ⟨sched, hsched⟩
    rw [golang.fanIn_eq sched projects goroutine buf hw] at hsched
    obtain ⟨s, hreach, hret⟩ := golang.fan_run_exists goroutine buf hw projects header
      (golang.completionOrder sched projects) (golang.completionOrder_perm sched projects)
    refine ⟨s, hreach, ?_⟩
    rw [hret]
    simpa using hsched

theorem spec.returnsWhatTheCodeReturns {α : Type}
    (result : List Nat → Option (Except String (List (List String))))
    (goroutine : α → Option (List (List String))) (buf : α → List (List String))
    (hw : ∀ p, goroutine p = some (buf p)) (projects : List α) (header : List String)
    (hresult : ∀ sched, result sched =
      (golang.fanIn sched projects goroutine [header]).map Except.ok) :
    spec.ReturnsWhatTheCodeReturns result goroutine projects header := by
  intro t
  rw [(golang.returnsAfterAllFinished goroutine buf hw projects header).2 t]
  constructor
  · rintro ⟨sched, h⟩
    rw [hresult sched] at h
    refine ⟨sched, ?_⟩
    cases hf : golang.fanIn sched projects goroutine [header] with
    | none => simp [hf] at h
    | some t1 =>
      simp only [hf, Option.map_some', Option.some.injEq, Except.ok.injEq] at h
      rw [h]
  · rintro ⟨sched, h⟩
    exact ⟨sched, by rw [hresult sched, h]; rfl⟩

/-- C17 (join before return). For each of the seven inventory functions, in
the step-by-step model of its goroutines, mutex and WaitGroup, under every
interleaving: in every reachable state in which the function has returned a
table, every per-project goroutine has finished (called `wg.Done()`) and none
is in an earlier phase, the returned table is the shared inventory and
consists of the header followed by the local inventory of every project, and
no thread can take any further step, so nothing is appended after the return.
With the service created, the tables returned in this way are exactly the
tables the functional model of the function returns over all schedules. -/
theorem C17_returns_after_all_goroutines :
    (∀ (ctx : api.Context) (service : api.Service) (zones : config.Zones)
        (projects : List project.Project),
      spec.ReturnsAfterAllFinished (compute.GetComputeInventory.goroutine ctx service zones)
        projects compute.computeHeader ∧
      (ctx.NewService = .ok service →
        spec.ReturnsWhatTheCodeReturns
          (fun sched => compute.GetComputeInventory ctx sched projects zones)
          (compute.GetComputeInventory.goroutine ctx service zones) projects
          compute.computeHeader)) ∧
    (∀ (ctx : api.Context) (service : api.Service) (regions : config.Regions)
        (projects : List project.Project),
      spec.ReturnsAfterAllFinished (network.GetVPCInventory.goroutine service regions)
        projects network.networkHeader ∧
      (ctx.NewService = .ok service →
        spec.ReturnsWhatTheCodeReturns
          (fun sched => network.GetVPCInventory ctx sched projects regions)
          (network.GetVPCInventory.goroutine service regions) projects network.networkHeader)) ∧
    (∀ (ctx : api.Context) (service : api.Service) (zones : config.Zones)
        (projects : List project.Project),
      spec.ReturnsAfterAllFinished (network.GetIPAddressInventory.goroutine service zones)
        projects network.ipAddressHeader ∧
      (ctx.NewService = .ok service →
        spec.ReturnsWhatTheCodeReturns
          (fun sched => network.GetIPAddressInventory ctx sched projects zones)
          (network.GetIPAddressInventory.goroutine service zones) projects
          network.ipAddressHeader)) ∧
    (∀ (ctx : api.Context) (service : api.Service) (projects : List project.Project),
      spec.ReturnsAfterAllFinished (network.GetRoutesInventory.goroutine service)
        projects network.routesHeader ∧
      (ctx.NewService = .ok service →
        spec.ReturnsWhatTheCodeReturns
          (fun sched => network.GetRoutesInventory ctx sched projects)
          (network.GetRoutesInventory.goroutine service) projects network.routesHeader)) ∧
    (∀ (ctx : api.Context) (service : api.Service) (projects : List project.Project),
      spec.ReturnsAfterAllFinished (network.GetPreeingInventory.goroutine service)
        projects network.peeringHeader ∧
      (ctx.NewService = .ok service →
        spec.ReturnsWhatTheCodeReturns
          (fun sched => network.GetPreeingInventory ctx sched projects)
          (network.GetPreeingInventory.goroutine service) projects network.peeringHeader)) ∧
    (∀ (ctx : api.Context) (service : api.Service) (projects : List project.Project),
      spec.ReturnsAfterAllFinished (network.GetFirewallInventory.goroutine service)
        projects network.firewallHeader ∧
      (ctx.NewService = .ok service →
        spec.ReturnsWhatTheCodeReturns
          (fun sched => network.GetFirewallInventory ctx sched projects)
          (network.GetFirewallInventory.goroutine service) projects network.firewallHeader)) ∧
    (∀ (s : storage.Storage) (projects : List project.Project),
      spec.ReturnsAfterAllFinished (storage.GetStorageInventory.goroutine s)
        projects storage.bucketHeader ∧
      spec.ReturnsWhatTheCodeReturns
        (fun sched => storage.GetStorageInventory s sched projects)
        (storage.GetStorageInventory.goroutine s) projects storage.bucketHeader) := by
  refine ⟨?_, ?_, ?_, ?_, ?_, ?_, ?_⟩
  · intro ctx service zones projects
    refine ⟨golang.returnsAfterAllFinished _ _ (compute.compute_goroutine_eq ctx service zones)
      _ _, ?_⟩
    intro hs
    refine spec.returnsWhatTheCodeReturns _ _ _ (compute.compute_goroutine_eq ctx service zones)
      _ _ ?_
    intro sched
    simp only [compute.GetComputeInventory, hs]
  · intro ctx service regions projects
    refine ⟨golang.returnsAfterAllFinished _ _ (network.vpc_goroutine_eq service regions)
      _ _, ?_⟩
    intro hs
    refine spec.returnsWhatTheCodeReturns _ _ _ (network.vpc_goroutine_eq service regions)
      _ _ ?_
    intro sched
    simp only [network.GetVPCInventory, hs]
  · intro ctx service zones projects
    refine ⟨golang.returnsAfterAllFinished _ _ (network.ip_goroutine_eq service zones)
      _ _, ?_⟩
    intro hs
    refine spec.returnsWhatTheCodeReturns _ _ _ (network.ip_goroutine_eq service zones)
      _ _ ?_
    intro sched
    simp only [network.GetIPAddressInventory, hs]
  · intro ctx service projects
    refine ⟨golang.returnsAfterAllFinished _ _ (network.routes_goroutine_eq service) _ _, ?_⟩
    intro hs
    refine spec.returnsWhatTheCodeReturns _ _ _ (network.routes_goroutine_eq service) _ _ ?_
    intro sched
    simp only [network.GetRoutesInventory, hs]
  · intro ctx service projects
    refine ⟨golang.returnsAfterAllFinished _ _ (network.peering_goroutine_eq service) _ _, ?_⟩
    intro hs
    refine spec.returnsWhatTheCodeReturns _ _ _ (network.peering_goroutine_eq service) _ _ ?_
    intro sched
    simp only [network.GetPreeingInventory, hs]
  · intro ctx service projects
    refine ⟨golang.returnsAfterAllFinished _ _ (network.firewall_goroutine_eq service) _ _, ?_⟩
    intro hs
    refine spec.returnsWhatTheCodeReturns _ _ _ (network.firewall_goroutine_eq service) _ _ ?_
    intro sched
    simp only [network.GetFirewallInventory, hs]
  · intro s projects
    refine ⟨golang.returnsAfterAllFinished _ _ (storage.bucket_goroutine_eq s) _ _, ?_⟩
    refine spec.returnsWhatTheCodeReturns _ _ _ (storage.bucket_goroutine_eq s) _ _ ?_
    intro sched
    rfl

/-- Example for C17 on the sample provider: the table `GetRoutesInventory`
returns for the projects A and C is returned by a run of the step-by-step code,
and in the state of that return both goroutines have finished and nothing can
move any more. -/
theorem C17_returns_after_all_goroutines_example :
    ∃ s, golang.FanReachable (network.GetRoutesInventory.goroutine sample.service)
        [sample.pa, sample.pc] network.routesHeader s ∧
      s.returned = some [network.routesHeader,
        ["Project C", "route-1", "default", "0.0.0.0/0", "1000", "", "",
          "default-internet-gateway", "", "", "2023-01-01"],
        ["Project A", "route-1", "default", "0.0.0.0/0", "1000", "", "",
          "default-internet-gateway", "", "", "2023-01-01"]] ∧
      s.finished.Perm [sample.pa, sample.pc] ∧ s.unlocked = [] ∧ s.locked = none ∧
      (∀ s1, ¬ golang.FanStep (network.GetRoutesInventory.goroutine sample.service) s s1) := by
  obtain ⟨hall, hsame⟩ := C17_returns_after_all_goroutines.2.2.2.1 sample.ctx sample.service
    [sample.pa, sample.pc]
  obtain ⟨s, hreach, hret⟩ := (hsame rfl _).mp ⟨[1], rfl⟩
  obtain ⟨h1, _, _, _, h5, h6, _, _, _, h10⟩ := hall.1 s _ hreach hret
  exact ⟨s, hreach, hret, h1, h6, h5, h10⟩

/-! ## Validation of the configuration -/

theorem config.ValidateState_eq (c : config.Config) :
    c.ValidateState = (c, c.Validate) := by
  unfold config.Config.ValidateState config.Config.Validate
  split_ifs <;> rfl

theorem config.Validate_eq_firstMissing (c : config.Config) :
    c.Validate = spec.firstMissing c := by
  unfold config.Config.Validate spec.firstMissing spec.requiredSettings
  by_cases h1 : c.OrgId = ""
  · simp [h1]
  · by_cases h2 : c.Regions = []
    · simp [h1, h2]
    · by_cases h3 : c.Zones = []
      · simp [h1, h2, h3]
      · by_cases h4 : c.ExportProjectId = ""
        · simp [h1, h2, h3, h4]
        · by_cases h5 : c.ExportBucketName = ""
          · simp [h1, h2, h3, h4, h5]
          · simp [h1, h2, h3, h4, h5]

/-- C21 (validation of the configuration). `Config.Validate` returns nil if
and only if OrgId, ExportProjectId and ExportBucketName are non-empty strings
and Regions and Zones are non-empty lists; otherwise it returns the error
"<NAME> is missing" for the first missing setting in the order ORG_ID, REGIONS,
ZONES, EXPORT_PROJECT_ID, EXPORT_BUCKET_NAME; the Config it is called on is
the same after the call as before; and `processInventory`, given a Config that
does not validate, answers with status 500 and that error text and does
nothing else. -/
theorem C21_validate_reports_first_missing (c : config.Config) :
    (c.Validate = none ↔
      c.OrgId ≠ "" ∧ c.ExportProjectId ≠ "" ∧ c.ExportBucketName ≠ "" ∧
        c.Regions ≠ [] ∧ c.Zones ≠ []) ∧
    c.Validate = spec.firstMissing c ∧
    (c.OrgId = "" → c.Validate = some "ORG_ID is missing") ∧
    (c.OrgId ≠ "" → c.Regions = [] → c.Validate = some "REGIONS is missing") ∧
    (c.OrgId ≠ "" → c.Regions ≠ [] → c.Zones = [] → c.Validate = some "ZONES is missing") ∧
    (c.OrgId ≠ "" → c.Regions ≠ [] → c.Zones ≠ [] → c.ExportProjectId = "" →
      c.Validate = some "EXPORT_PROJECT_ID is missing") ∧
    (c.OrgId ≠ "" → c.Regions ≠ [] → c.Zones ≠ [] → c.ExportProjectId ≠ "" →
      c.ExportBucketName = "" → c.Validate = some "EXPORT_BUCKET_NAME is missing") ∧
    c.ValidateState = (c, c.Validate) ∧
    (∀ (w : gcp_inventory_exporter.World) (err : String),
      w.cfg = c → c.Validate = some err →
      gcp_inventory_exporter.processInventory w =
        some ⟨⟨500, err⟩, [], xls.NewXls, false, [], false⟩) := by
  refine ⟨?_, config.Validate_eq_firstMissing c, ?_, ?_, ?_, ?_, ?_,
    config.ValidateState_eq c, ?_⟩
  · unfold config.Config.Validate
    by_cases h1 : c.OrgId = ""
    · simp [h1]
    · by_cases h2 : c.Regions = []
      · simp [h1, h2]
      · by_cases h3 : c.Zones = []
        · simp [h1, h2, h3]
        · by_cases h4 : c.ExportProjectId = ""
          · simp [h1, h2, h3, h4]
          · by_cases h5 : c.ExportBucketName = ""
            · simp [h1, h2, h3, h4, h5]
            · simp [h1, h2, h3, h4, h5]
  · intro h1
    simp [config.Config.Validate, h1]
  · intro h1 h2
    simp [config.Config.Validate, h1, h2]
  · intro h1 h2 h3
    simp [config.Config.Validate, h1, h2, h3]
  · intro h1 h2 h3 h4
    simp [config.Config.Validate, h1, h2, h3, h4]
  · intro h1 h2 h3 h4 h5
    simp [config.Config.Validate, h1, h2, h3, h4, h5]
  · intro w err hw hv
    unfold gcp_inventory_exporter.processInventory
    rw [gcp_inventory_exporter.logger_created, hw]
    simp only [hv]
    rfl

/-- Example for C21: the sample configuration validates; with REGIONS and
EXPORT_BUCKET_NAME both missing the error names REGIONS, the earlier of the
two, the Config is unchanged, and `processInventory` answers 500 with it. -/
theorem C21_validate_reports_first_missing_example :
    sample.config.Validate = none ∧
    sample.configMissing.Validate = some "REGIONS is missing" ∧
    sample.configMissing.ValidateState = (sample.configMissing, some "REGIONS is missing") ∧
    gcp_inventory_exporter.processInventory { sample.world with cfg := sample.configMissing } =
      some ⟨⟨500, "REGIONS is missing"⟩, [], xls.NewXls, false, [], false⟩ :=
  ⟨rfl, (C21_validate_reports_first_missing sample.configMissing).2.2.2.1 (by decide) rfl,
    rfl, rfl⟩

/-! ## Closing of the export file -/

/-- C22, the code at the failing input. `Xls.Close` calls itself and does
nothing else: for the file `NewXls()` returns, and for every Xls value, the
call has not returned at any depth of nested calls, and in the unbounded
reading no error value, nil included, is ever returned. -/
theorem C22_close_never_returns :
    (∀ fuel : Nat, xls.NewXls.Close fuel = none) ∧
    (∀ (x : xls.Xls) (fuel : Nat), x.Close fuel = none) ∧
    (∀ (x : xls.Xls) (err : Option String), ¬ xls.CloseReturns x err) ∧
    (∀ (x : xls.Xls) (fuel : Nat), x.Close (fuel + 1) = x.Close fuel) := by
  have hall : ∀ (x : xls.Xls) (fuel : Nat), x.Close fuel = none := by
    intro x fuel
    induction fuel with
    | zero => rfl
    | succ n ih =>
      unfold xls.Xls.Close
      exact ih
  refine ⟨hall xls.NewXls, hall, ?_, fun _ _ => rfl⟩
  intro x err h
  induction h with
  | nested _ ih => exact ih
